import Mathlib

/-!
# navfn_subgoals: the planning orchestration of `NavfnROS`

A shallow embedding of `src/src/navfn_ros.cpp`.

* Doubles and floats are exact rationals (`ℚ`): additions, subtractions and
  products are exact. In particular the loops of the tolerance search step by
  exactly `resolution`, so they end whenever the resolution is positive, which
  the loops of the source, stepping in doubles, need not do. Statements about
  `makePlan` are therefore about the result of a call when there is one.
* Where rounding decides a statement, it is modelled: `toleranceSearchBy` is
  the tolerance search with the additions and subtractions of its loop control
  left to two functions, and `dblRound`, `dblAdd`, `dblSub` and `dblSqrt` give
  the results of double arithmetic (53 significant bits, round to nearest,
  ties to even).
* The one computation with a square root, the distance of line 259, is read
  from `Env.planarDistance`, which the theorems leave arbitrary; `dblDistance`
  is its value in double arithmetic.
* `header.stamp` (wall-clock time) is not modelled; a stamped pose is its
  frame id and its pose.
* The potential-field solver `NavFn` (`planner_`) is a black box: a record of
  operations over an abstract solver state.
* The costmap (`costmap_2d::Costmap2D`) is a record of the accessors the
  planner uses.
* Every solver operation, costmap write and publication appends an event to a
  ghost log carried in the planner state, so that statements about which
  operations ran, and in which order, can be made. A second ghost list,
  `looks`, records each tolerance test and each leg plan of a queue entry.
* The two textual copies of the tolerance search and of the solver setup (in
  `makePlan` and in `makePlanSubgoal`) are embedded once and used at both
  places.
* The `while` loops of the tolerance search take fuel; `none` stands for a
  search that does not finish within the fuel.
* Cell indices and sizes are natural numbers; the conversions between
  `unsigned int` and `int` are not modelled, the two products computed in
  `unsigned int` are taken modulo `2 ^ 32`.
-/

namespace Navfn

/-! ## Messages -/

/-- The message `geometry_msgs::Point`. -/
structure Point where
  x : ℚ
  y : ℚ
  z : ℚ
  deriving DecidableEq

/-- The message `geometry_msgs::Quaternion`. -/
structure Quaternion where
  x : ℚ
  y : ℚ
  z : ℚ
  w : ℚ
  deriving DecidableEq

/-- The message `geometry_msgs::Pose`. -/
structure Pose where
  position : Point
  orientation : Quaternion
  deriving DecidableEq

/-- The message `std_msgs::Header`, without its time stamp. -/
structure Header where
  frame_id : String
  deriving DecidableEq

/-- The message `geometry_msgs::PoseStamped`. -/
structure PoseStamped where
  header : Header
  pose : Pose
  deriving DecidableEq

/-- A default-constructed `geometry_msgs::PoseStamped` (all fields zero, empty
frame id): the value of `best_pose` before the search assigns it. -/
def PoseStamped.empty : PoseStamped :=
  ⟨⟨""⟩, ⟨⟨0, 0, 0⟩, ⟨0, 0, 0, 0⟩⟩⟩

/-! ## Constants -/

/-- Modelled from the spec: the constant `POT_HIGH` of `navfn.h`, which is not
among the sources (1.0e10): the potential of an unreachable or unvisited
cell. -/
def POT_HIGH : ℚ := 10 ^ 10

/-- The constant `DBL_MAX` of the C header `<cfloat>`: the largest finite
double, `(2 - 2 ^ (-52)) * 2 ^ 1023`. -/
def DBL_MAX : ℚ := 2 ^ 1024 - 2 ^ 971

/-- Modelled from the spec: the constant `costmap_2d::FREE_SPACE` of the
costmap library, the cost byte of a free cell. -/
def FREE_SPACE : Nat := 0

/-! ## External collaborators -/

/-- Modelled from the spec: `costmap_2d::Costmap2D` is not among the sources.
The record holds the accessors `NavfnROS` calls; `worldToMap` is the partial
conversion of a world point to a cell (`none` when the point is outside the
grid) and is left arbitrary. -/
structure Costmap2D where
  getSizeInCellsX : Nat
  getSizeInCellsY : Nat
  getResolution : ℚ
  getOriginX : ℚ
  getOriginY : ℚ
  worldToMap : ℚ → ℚ → Option (Nat × Nat)
  getCharMap : Nat → Nat

/-- Modelled from the spec: `Costmap2D::setCost(mx, my, cost)` writes the cost
byte of one cell (row-major index) and leaves the geometry alone. -/
def Costmap2D.setCost (c : Costmap2D) (mx my cost : Nat) : Costmap2D :=
  { c with getCharMap := Function.update c.getCharMap (my * c.getSizeInCellsX + mx) cost }

/-- Modelled from the spec: the solver `NavFn` is not among the sources. A
record of its operations over a solver state `σ`; the arrays `potarr`,
`pathx`, `pathy` are read through total functions. -/
structure NavFn (σ : Type) where
  setNavArr : Nat → Nat → σ → σ
  setCostmap : (Nat → Nat) → Bool → Bool → σ → σ
  setStart : Nat × Nat → σ → σ
  setGoal : Nat × Nat → σ → σ
  calcNavFnDijkstra : Bool → σ → σ
  calcPath : Nat → σ → σ
  nx : σ → Nat
  potarr : σ → Nat → ℚ
  getPathX : σ → Nat → ℚ
  getPathY : σ → Nat → ℚ
  getPathLen : σ → Int

/-- What the planner is linked against: the solver, `tf::resolve`, and the
double computation `fabs(std::sqrt(pow(x - wx, 2) + pow(y - wy, 2)))` of line
259 as a function `planarDistance x y wx wy` of its four inputs. The
theorems hold for every such function; `dblDistance` is the one of double
arithmetic. -/
structure Env (σ : Type) where
  solver : NavFn σ
  resolve : String → String → String
  planarDistance : ℚ → ℚ → ℚ → ℚ → ℚ

/-! ## Ghost log -/

/-- The function whose text contains a solver call. -/
inductive Site where
  | makePlan
  | makePlanSubgoal
  | getPlanFromPotential
  deriving DecidableEq

/-- A solver operation, with its integer arguments. -/
inductive SolverOp where
  | setNavArr (nx ny : Nat)
  | setCostmap
  | setStart (cell : Nat × Nat)
  | setGoal (cell : Nat × Nat)
  | calcNavFnDijkstra
  | calcPath (n : Nat)
  deriving DecidableEq

/-- An observable step of a planning call. -/
inductive Event where
  | solver (site : Site) (op : SolverOp)
  | setCost (mx my : Nat)
  | publishSubgoals (queue : List Pose)
  | publishPlan (path : List PoseStamped)
  | publishPotential
  deriving DecidableEq

/-- A look at a queue entry: the tolerance test of line 259 on it, or a call
of `makePlanSubgoal` with it as the goal (line 268). -/
inductive Look where
  | test (w : Pose)
  | leg (w : Pose)
  deriving DecidableEq

/-- The entry a tolerance test looked at. -/
def Look.tested : Look → Option Pose
  | Look.test w => some w
  | Look.leg _ => none

/-- The entry a leg plan looked at. -/
def Look.planned : Look → Option Pose
  | Look.test _ => none
  | Look.leg w => some w

/-! ## Planner state -/

/-- The fields of `NavfnROS` that planning reads or writes, and the two ghost
lists. `v_subgoals_` is the pose list of the subgoal queue. -/
structure NavfnROS (σ : Type) where
  initialized_ : Bool
  costmap_ : Costmap2D
  planner_ : σ
  global_frame_ : String
  tf_prefix_ : String
  allow_unknown_ : Bool
  visualize_potential_ : Bool
  default_tolerance_ : ℚ
  subgoal_tolerance_ : ℚ
  v_subgoals_ : List Pose
  log : List Event
  looks : List Look

/-- What a planning function leaves behind: its return value, the planner
state and the `plan` output vector. -/
structure Outcome (σ : Type) where
  ret : Bool
  st : NavfnROS σ
  plan : List PoseStamped

variable {σ : Type}

/-- Append one event to the ghost log. -/
def record (e : Event) (st : NavfnROS σ) : NavfnROS σ :=
  { st with log := st.log ++ [e] }

/-- The call `planner_->setNavArr(costmap_->getSizeInCellsX(), costmap_->getSizeInCellsY())`. -/
def callSetNavArr (env : Env σ) (site : Site) (st : NavfnROS σ) : NavfnROS σ :=
  record (Event.solver site
      (SolverOp.setNavArr st.costmap_.getSizeInCellsX st.costmap_.getSizeInCellsY))
    { st with planner_ := (env.solver.setNavArr st.costmap_.getSizeInCellsX
        st.costmap_.getSizeInCellsY st.planner_) }

/-- The call `planner_->setCostmap(costmap_->getCharMap(), true, allow_unknown_)`. -/
def callSetCostmap (env : Env σ) (site : Site) (st : NavfnROS σ) : NavfnROS σ :=
  record (Event.solver site SolverOp.setCostmap)
    { st with planner_ := (env.solver.setCostmap st.costmap_.getCharMap true
        st.allow_unknown_ st.planner_) }

/-- The call `planner_->setStart(cell)`. -/
def callSetStart (env : Env σ) (site : Site) (cell : Nat × Nat) (st : NavfnROS σ) :
    NavfnROS σ :=
  record (Event.solver site (SolverOp.setStart cell))
    { st with planner_ := env.solver.setStart cell st.planner_ }

/-- The call `planner_->setGoal(cell)`. -/
def callSetGoal (env : Env σ) (site : Site) (cell : Nat × Nat) (st : NavfnROS σ) :
    NavfnROS σ :=
  record (Event.solver site (SolverOp.setGoal cell))
    { st with planner_ := env.solver.setGoal cell st.planner_ }

/-- The call `planner_->calcNavFnDijkstra(true)`; its result is discarded. -/
def callCalcNavFnDijkstra (env : Env σ) (site : Site) (st : NavfnROS σ) : NavfnROS σ :=
  record (Event.solver site SolverOp.calcNavFnDijkstra)
    { st with planner_ := env.solver.calcNavFnDijkstra true st.planner_ }

/-- The call `planner_->calcPath(n)`. -/
def callCalcPath (env : Env σ) (site : Site) (n : Nat) (st : NavfnROS σ) : NavfnROS σ :=
  record (Event.solver site (SolverOp.calcPath n))
    { st with planner_ := env.solver.calcPath n st.planner_ }

/-! ## `navfn_ros.cpp` -/

/-- Modelled from the spec: `sq_distance` of `navfn_ros.h`, the squared
Euclidean distance of two poses in the plane. -/
def sq_distance (p1 p2 : PoseStamped) : ℚ :=
  let dx := p1.pose.position.x - p2.pose.position.x
  let dy := p1.pose.position.y - p2.pose.position.y
  dx * dx + dy * dy

/-- The function `NavfnROS::getPointPotential` (lines 141-153). -/
def getPointPotential (env : Env σ) (st : NavfnROS σ) (world_point : Point) : ℚ :=
  if st.initialized_ = false then -1
  else
    match st.costmap_.worldToMap world_point.x world_point.y with
    | none => DBL_MAX
    | some (mx, my) =>
      env.solver.potarr st.planner_ ((my * env.solver.nx st.planner_ + mx) % 2 ^ 32)

/-- The function `NavfnROS::clearRobotCell` (lines 183-191). -/
def clearRobotCell (mx my : Nat) (st : NavfnROS σ) : NavfnROS σ :=
  if st.initialized_ = false then st
  else record (Event.setCost mx my)
    { st with costmap_ := st.costmap_.setCost mx my FREE_SPACE }

/-- The function `NavfnROS::mapToWorld` (lines 202-205). -/
def mapToWorld (st : NavfnROS σ) (mx my : ℚ) : ℚ × ℚ :=
  (st.costmap_.getOriginX + mx * st.costmap_.getResolution,
   st.costmap_.getOriginY + my * st.costmap_.getResolution)

/-- The function `NavfnROS::publishPlan` (lines 564-586). -/
def publishPlan (path : List PoseStamped) (st : NavfnROS σ) : NavfnROS σ :=
  if st.initialized_ = false then st else record (Event.publishPlan path) st

/-- The call `subgoal_pub_.publish(v_subgoals_)`. -/
def publishSubgoals (st : NavfnROS σ) : NavfnROS σ :=
  record (Event.publishSubgoals st.v_subgoals_) st

/-- The block `if (visualize_potential_) { ... potarr_pub_.publish(pot_area); }`;
the point cloud itself is not modelled. -/
def publishPotential (st : NavfnROS σ) : NavfnROS σ :=
  if st.visualize_potential_ then record Event.publishPotential st else st

/-- The function `NavfnROS::subgoalCallback` (lines 556-562). -/
def subgoalCallback (subgoal : Pose) (st : NavfnROS σ) : NavfnROS σ :=
  publishSubgoals { st with v_subgoals_ := st.v_subgoals_ ++ [subgoal] }

/-- The pose pushed for path index `i` in the loop of `getPlanFromPotential`
(lines 628-644). -/
def pathPose (env : Env σ) (st : NavfnROS σ) (i : Nat) : PoseStamped :=
  let w := mapToWorld st (env.solver.getPathX st.planner_ i) (env.solver.getPathY st.planner_ i)
  ⟨⟨st.global_frame_⟩, ⟨⟨w.1, w.2, 0⟩, ⟨0, 0, 0, 1⟩⟩⟩

/-- The loop `for (int i = len - 1; i >= 0; --i)` of `getPlanFromPotential`
(lines 623-644): the poses of the solver's path, last path entry first. -/
def tracePoses (env : Env σ) (st : NavfnROS σ) : List PoseStamped :=
  (List.range (env.solver.getPathLen st.planner_).toNat).reverse.map (pathPose env st)

/-- The function `NavfnROS::getPlanFromPotential` (lines 588-649). -/
def getPlanFromPotential (env : Env σ) (goal : PoseStamped) (plan : List PoseStamped)
    (st : NavfnROS σ) : Outcome σ :=
  if st.initialized_ = false then ⟨false, st, plan⟩
  else if env.resolve st.tf_prefix_ goal.header.frame_id
      ≠ env.resolve st.tf_prefix_ st.global_frame_ then ⟨false, st, []⟩
  else
    match st.costmap_.worldToMap goal.pose.position.x goal.pose.position.y with
    | none => ⟨false, st, []⟩
    | some map_goal =>
      let st1 := callSetStart env Site.getPlanFromPotential map_goal st
      let st2 := callCalcPath env Site.getPlanFromPotential
        ((st1.costmap_.getSizeInCellsX * 4) % 2 ^ 32) st1
      let plan1 := tracePoses env st2
      ⟨!plan1.isEmpty, publishPlan plan1 st2, plan1⟩

/-- The state of the tolerance search: `found_legal`, `best_sdist`,
`best_pose`. -/
structure Search where
  found_legal : Bool
  best_sdist : ℚ
  best_pose : PoseStamped
  deriving DecidableEq

/-- The loop variable `p` of the tolerance search: a copy of the goal whose
position has `x` and `y` overwritten. -/
def samplePose (goal : PoseStamped) (x y : ℚ) : PoseStamped :=
  { goal with pose := { goal.pose with position := { goal.pose.position with x := x, y := y } } }

/-- The body of the inner loop of the tolerance search (lines 354-360 and
498-504). -/
def searchBody (pot : Point → ℚ) (goal p : PoseStamped) (acc : Search) : Search :=
  let potential := pot p.pose.position
  let sdist := sq_distance p goal
  if potential < POT_HIGH ∧ sdist < acc.best_sdist then ⟨true, sdist, p⟩ else acc

/-- The inner loop `while (p.x <= goal.x + tolerance) { ...; p.x += resolution; }`. -/
def searchX (pot : Point → ℚ) (goal : PoseStamped) (tolerance resolution y : ℚ) :
    Nat → ℚ → Search → Option Search
  | 0, _, _ => none
  | fuel + 1, x, acc =>
    if x ≤ goal.pose.position.x + tolerance then
      searchX pot goal tolerance resolution y fuel (x + resolution)
        (searchBody pot goal (samplePose goal x y) acc)
    else some acc

/-- The outer loop `while (p.y <= goal.y + tolerance) { p.x = goal.x - tolerance; ...;
p.y += resolution; }`. -/
def searchY (pot : Point → ℚ) (goal : PoseStamped) (tolerance resolution : ℚ) (xfuel : Nat) :
    Nat → ℚ → Search → Option Search
  | 0, _, _ => none
  | fuel + 1, y, acc =>
    if y ≤ goal.pose.position.y + tolerance then
      match searchX pot goal tolerance resolution y xfuel (goal.pose.position.x - tolerance) acc with
      | none => none
      | some acc1 => searchY pot goal tolerance resolution xfuel fuel (y + resolution) acc1
    else some acc

/-- The tolerance search of `makePlan` (lines 342-364) and of
`makePlanSubgoal` (lines 486-508). -/
def toleranceSearch (pot : Point → ℚ) (goal : PoseStamped) (tolerance resolution : ℚ)
    (fuel : Nat) : Option Search :=
  searchY pot goal tolerance resolution fuel fuel (goal.pose.position.y - tolerance)
    ⟨false, DBL_MAX, PoseStamped.empty⟩

/-- The cell handed to `setStart` for the goal (lines 320-334 and 465-479):
the goal's cell, the cell (0,0) for a goal off the grid with positive
tolerance, nothing for a goal off the grid otherwise. -/
def goalCell (st : NavfnROS σ) (goal : PoseStamped) (tolerance : ℚ) : Option (Nat × Nat) :=
  match st.costmap_.worldToMap goal.pose.position.x goal.pose.position.y with
  | some c => some c
  | none => if tolerance ≤ 0 then none else some (0, 0)

/-- The solver setup shared by `makePlan` (lines 301-340) and
`makePlanSubgoal` (lines 446-484): from the start's cell to the solve. The
flag is `false` when the function returns `false` on the way. -/
def setupSolver (env : Env σ) (site : Site) (start goal : PoseStamped) (tolerance : ℚ)
    (st : NavfnROS σ) : Bool × NavfnROS σ :=
  match st.costmap_.worldToMap start.pose.position.x start.pose.position.y with
  | none => (false, st)
  | some (mx, my) =>
    let st1 := clearRobotCell mx my st
    let st2 := callSetNavArr env site st1
    let st3 := callSetCostmap env site st2
    match goalCell st3 goal tolerance with
    | none => (false, st3)
    | some map_goal =>
      let st4 := callSetStart env site map_goal st3
      let st5 := callSetGoal env site (mx, my) st4
      (true, callCalcNavFnDijkstra env site st5)

/-- The function `NavfnROS::makePlanSubgoal` (lines 418-555). -/
def makePlanSubgoal (env : Env σ) (fuel : Nat) (start goal : PoseStamped) (tolerance : ℚ)
    (st : NavfnROS σ) : Option (Outcome σ) :=
  match setupSolver env Site.makePlanSubgoal start goal tolerance st with
  | (false, st1) => some ⟨false, st1, []⟩
  | (true, st1) =>
    match toleranceSearch (getPointPotential env st1) goal tolerance
        st1.costmap_.getResolution fuel with
    | none => none
    | some s =>
      let r : Outcome σ :=
        if s.found_legal then
          let g := getPlanFromPotential env s.best_pose [] st1
          if g.ret then ⟨true, g.st, g.plan ++ [s.best_pose]⟩ else g
        else ⟨false, st1, []⟩
      some ⟨!r.plan.isEmpty, publishPotential r.st, r.plan⟩

/-- The test `fabs(sqrt(pow(x - wx, 2) + pow(y - wy, 2))) < subgoal_tolerance_`
(line 259): the distance is the value the environment gives for the double
computation. -/
def withinSubgoalTolerance (env : Env σ) (w : Pose) (wx wy t : ℚ) : Bool :=
  decide (env.planarDistance w.position.x w.position.y wx wy < t)

/-- Append one look to the ghost list of looks. -/
def look (l : Look) (st : NavfnROS σ) : NavfnROS σ :=
  { st with looks := st.looks ++ [l] }

/-- The two statements `it = v_subgoals_.poses.erase(it);
subgoal_pub_.publish(v_subgoals_);` (lines 261-262 and 278-279), with `rest`
the queue behind `it`. -/
def eraseFront (rest : List Pose) (st : NavfnROS σ) : NavfnROS σ :=
  publishSubgoals { st with v_subgoals_ := rest }

/-- Where the scan of the subgoal queue stops: the state, the plan vector,
`substart`, and whether the iterator `it` is at `v_subgoals_.poses.end()`. -/
structure Scan (σ : Type) where
  st : NavfnROS σ
  plan : List PoseStamped
  substart : PoseStamped
  atEnd : Bool

/-- The loop over `v_subgoals_.poses` of `makePlan` (lines 255-283). Every
iteration erases at `it` or leaves the loop, so `it` stays at the front of the
queue: the list argument is what is left of the queue from `it` on, and
`erase(it)` stores its tail. The tolerance test of an entry and the call of
`makePlanSubgoal` for it are each noted in the ghost list `looks`. -/
def scanSubgoals (env : Env σ) (fuel : Nat) (start goal : PoseStamped) :
    List Pose → NavfnROS σ → List PoseStamped → Option (Scan σ)
  | [], st, plan => some ⟨st, plan, start, true⟩
  | w :: rest, st, plan =>
    if withinSubgoalTolerance env w start.pose.position.x start.pose.position.y
        st.subgoal_tolerance_ then
      scanSubgoals env fuel start goal rest (eraseFront rest (look (Look.test w) st)) plan
    else
      match makePlanSubgoal env fuel start { goal with pose := w } 0
          (look (Look.leg w) (look (Look.test w) st)) with
      | none => none
      | some r =>
        if r.ret then some ⟨r.st, r.plan, { start with pose := w }, false⟩
        else scanSubgoals env fuel start goal rest (eraseFront rest r.st) r.plan

/-- The part of `makePlan` after the scan of the queue (lines 285-416): the
frame checks, the solver setup from `substart`, the tolerance search, and, when
the scan ended at the end of the queue, the path extraction and the
publications. -/
def planFinalGoal (env : Env σ) (fuel : Nat) (start goal : PoseStamped) (tolerance : ℚ)
    (sc : Scan σ) : Option (Outcome σ) :=
  if env.resolve sc.st.tf_prefix_ goal.header.frame_id
      ≠ env.resolve sc.st.tf_prefix_ sc.st.global_frame_ then
    some ⟨false, sc.st, sc.plan⟩
  else if env.resolve sc.st.tf_prefix_ start.header.frame_id
      ≠ env.resolve sc.st.tf_prefix_ sc.st.global_frame_ then
    some ⟨false, sc.st, sc.plan⟩
  else
    match setupSolver env Site.makePlan sc.substart goal tolerance sc.st with
    | (false, st1) => some ⟨false, st1, sc.plan⟩
    | (true, st1) =>
      match toleranceSearch (getPointPotential env st1) goal tolerance
          st1.costmap_.getResolution fuel with
      | none => none
      | some s =>
        if sc.atEnd then
          let r : Outcome σ :=
            if s.found_legal then
              let g := getPlanFromPotential env s.best_pose [] st1
              if g.ret then ⟨true, g.st, sc.plan ++ g.plan ++ [s.best_pose]⟩
              else ⟨false, g.st, sc.plan⟩
            else ⟨false, st1, sc.plan⟩
          some ⟨!r.plan.isEmpty, publishPlan r.plan (publishPotential r.st), r.plan⟩
        else some ⟨!sc.plan.isEmpty, st1, sc.plan⟩

/-- The function `NavfnROS::makePlan` with a tolerance (lines 232-417): the guard on
`initialized_`, `plan.clear()`, the scan of the queue, and the rest. -/
def makePlan (env : Env σ) (fuel : Nat) (start goal : PoseStamped) (tolerance : ℚ)
    (plan : List PoseStamped) (st : NavfnROS σ) : Option (Outcome σ) :=
  if st.initialized_ = false then some ⟨false, st, plan⟩
  else
    match scanSubgoals env fuel start goal st.v_subgoals_ st [] with
    | none => none
    | some sc => planFinalGoal env fuel start goal tolerance sc

/-- The function `NavfnROS::makePlan` without a tolerance (lines 207-210). -/
def makePlanDefault (env : Env σ) (fuel : Nat) (start goal : PoseStamped)
    (plan : List PoseStamped) (st : NavfnROS σ) : Option (Outcome σ) :=
  makePlan env fuel start goal st.default_tolerance_ plan st

/-! ## Fuel and reference definitions for the tolerance search -/

/-- Fuel that lets both loops of the tolerance search run to their end when
the resolution is positive: one more than the number of samples on an axis,
plus one. -/
def searchFuel (tolerance resolution : ℚ) : Nat :=
  (⌊2 * tolerance / resolution⌋).toNat + 2

/-- The values a loop variable takes when it starts at `x` and is stepped
`n` times by `resolution`. -/
def samplesFrom (resolution : ℚ) : Nat → ℚ → List ℚ
  | 0, _ => []
  | n + 1, x => x :: samplesFrom resolution n (x + resolution)

/-- How many values `lo, lo + resolution, ...` are at most `hi`. -/
def axisCount (lo hi resolution : ℚ) : Nat :=
  if lo ≤ hi then (⌊(hi - lo) / resolution⌋).toNat + 1 else 0

/-- The samples on one axis: from `lo`, stepping by `resolution`, while at
most `hi`. -/
def axisSamples (lo hi resolution : ℚ) : List ℚ :=
  samplesFrom resolution (axisCount lo hi resolution) lo

/-- The sample sequence of the tolerance search in scan order: row-major,
`y` from `target.y - tolerance` while `y <= target.y + tolerance`, and for each
`y`, `x` likewise. -/
def toleranceSamples (goal : PoseStamped) (tolerance resolution : ℚ) : List PoseStamped :=
  (axisSamples (goal.pose.position.y - tolerance) (goal.pose.position.y + tolerance)
      resolution).flatMap fun y =>
    (axisSamples (goal.pose.position.x - tolerance) (goal.pose.position.x + tolerance)
      resolution).map fun x => samplePose goal x y

/-- The candidates as the spec words them: the samples whose looked-up
potential is below `POT_HIGH`. -/
def specCandidates (pot : Point → ℚ) (goal : PoseStamped) (tolerance resolution : ℚ) :
    List PoseStamped :=
  (toleranceSamples goal tolerance resolution).filter fun p =>
    decide (pot p.pose.position < POT_HIGH)

/-- The candidates the code can select: the samples whose potential is below
`POT_HIGH` and whose squared distance to the target is below the initial
`best_sdist`, `DBL_MAX`. -/
def codeCandidates (pot : Point → ℚ) (goal : PoseStamped) (tolerance resolution : ℚ) :
    List PoseStamped :=
  (toleranceSamples goal tolerance resolution).filter fun p =>
    decide (pot p.pose.position < POT_HIGH ∧ sq_distance p goal < DBL_MAX)

/-- The pose `b` is the first one, in list order, among the poses of `cands`
of minimum squared distance to `goal`. -/
def IsFirstClosest (goal : PoseStamped) (cands : List PoseStamped) (b : PoseStamped) : Prop :=
  ∃ pre post, cands = pre ++ b :: post ∧
    (∀ c ∈ pre, sq_distance b goal < sq_distance c goal) ∧
    (∀ c ∈ post, sq_distance b goal ≤ sq_distance c goal)

/-- The reference definition of the tolerance search over a candidate list:
`found_legal` is false exactly when there is no candidate, and otherwise
`best_pose` is the first candidate of minimum squared distance, with
`best_sdist` its squared distance. -/
def SearchMeets (goal : PoseStamped) (cands : List PoseStamped) (s : Search) : Prop :=
  (s.found_legal = false ↔ cands = []) ∧
    (cands ≠ [] → IsFirstClosest goal cands s.best_pose ∧
      s.best_sdist = sq_distance s.best_pose goal)

/-! ## A small grid world for worked examples -/

/-- The usual cell lookup of a grid with origin `(ox, oy)`, cell size `res`
and `sx` by `sy` cells. -/
def gridWorldToMap (ox oy res : ℚ) (sx sy : Nat) (wx wy : ℚ) : Option (Nat × Nat) :=
  if wx < ox ∨ wy < oy then none
  else
    let mx := (⌊(wx - ox) / res⌋).toNat
    let my := (⌊(wy - oy) / res⌋).toNat
    if mx < sx ∧ my < sy then some (mx, my) else none

/-- A grid costmap with the given geometry and cost bytes. -/
def gridCostmap (ox oy res : ℚ) (sx sy : Nat) (costs : Nat → Nat) : Costmap2D :=
  ⟨sx, sy, res, ox, oy, gridWorldToMap ox oy res sx sy, costs⟩

/-- The state of a small stand-in solver. -/
structure ToySolver where
  nx : Nat
  ny : Nat
  costs : Nat → Nat
  start : Nat × Nat
  goal : Nat × Nat
  potarr : Nat → ℚ
  path : List (ℚ × ℚ)

/-- The cells of an L-shaped walk from `a` to `b`: along x first, then
along y. -/
def toyWalk (a b : Nat × Nat) : List (ℚ × ℚ) :=
  (if a.1 ≤ b.1 then (List.range (b.1 - a.1)).map fun k => (((a.1 + k : Nat) : ℚ), (a.2 : ℚ))
    else (List.range (a.1 - b.1)).map fun k => (((a.1 - k : Nat) : ℚ), (a.2 : ℚ)))
  ++ (if a.2 ≤ b.2 then (List.range (b.2 - a.2 + 1)).map fun k => ((b.1 : ℚ), ((a.2 + k : Nat) : ℚ))
    else (List.range (a.2 - b.2 + 1)).map fun k => ((b.1 : ℚ), ((a.2 - k : Nat) : ℚ)))

/-- The potential of the stand-in solver: Manhattan distance to the solver's
goal cell on cells of the grid whose cost byte is below 254, `POT_HIGH`
elsewhere. -/
def toyPotential (s : ToySolver) (i : Nat) : ℚ :=
  if i < s.nx * s.ny ∧ s.costs i < 254 then
    (((max (i % s.nx) s.goal.1 - min (i % s.nx) s.goal.1)
      + (max (i / s.nx) s.goal.2 - min (i / s.nx) s.goal.2) : Nat) : ℚ)
  else POT_HIGH

/-- The stand-in solver: it keeps what it is given, solves to `toyPotential`
(dropping the last path) and traces `toyWalk` from its start to its goal, or nothing when the start has
potential `POT_HIGH` or the walk is longer than the step bound. -/
def toyNavFn : NavFn ToySolver where
  setNavArr := fun nx ny s => { s with nx := nx, ny := ny }
  setCostmap := fun cm _ _ s => { s with costs := cm }
  setStart := fun c s => { s with start := c }
  setGoal := fun c s => { s with goal := c }
  calcNavFnDijkstra := fun _ s => { s with potarr := toyPotential s, path := [] }
  calcPath := fun n s =>
    { s with path :=
        if s.potarr (s.start.2 * s.nx + s.start.1) < POT_HIGH
            ∧ (toyWalk s.start s.goal).length ≤ n then toyWalk s.start s.goal
        else [] }
  nx := fun s => s.nx
  potarr := fun s => s.potarr
  getPathX := fun s i => (s.path.getD i (0, 0)).1
  getPathY := fun s i => (s.path.getD i (0, 0)).2
  getPathLen := fun s => (s.path.length : Int)

/-- The integer square root of `n` by bits: the largest `r` below `2 ^ (k + 1)`
with `r * r ≤ n`, built from bit `k` down. -/
def toyRootBits (n : Nat) : Nat → Nat → Nat
  | 0, r => if (r + 1) * (r + 1) ≤ n then r + 1 else r
  | k + 1, r =>
    toyRootBits n k (if (r + 2 ^ (k + 1)) * (r + 2 ^ (k + 1)) ≤ n then r + 2 ^ (k + 1) else r)

/-- A stand-in for the distance of line 259: the square root of the squared
distance, rounded down to twenty binary places. -/
def toyDistance (x y wx wy : ℚ) : ℚ :=
  (toyRootBits (⌊((x - wx) ^ 2 + (y - wy) ^ 2) * 2 ^ 40⌋).toNat 63 0 : ℚ) / 2 ^ 20

/-- The stand-in environment; `tf::resolve` prepends the prefix. -/
def toyEnv : Env ToySolver :=
  ⟨toyNavFn, fun pre frame => pre ++ "/" ++ frame, toyDistance⟩

/-- A planner over a 5 by 5 grid of unit cells at the origin, all free but the
lethal cell (4, 0), in frame `map`, with the given queue. -/
def toyPlanner (initialized : Bool) (queue : List Pose) : NavfnROS ToySolver where
  initialized_ := initialized
  costmap_ := gridCostmap 0 0 1 5 5 (fun i => if i = 4 then 254 else 0)
  planner_ := ⟨0, 0, fun _ => 0, (0, 0), (0, 0), fun _ => 0, []⟩
  global_frame_ := "map"
  tf_prefix_ := ""
  allow_unknown_ := true
  visualize_potential_ := false
  default_tolerance_ := 0
  subgoal_tolerance_ := 1
  v_subgoals_ := queue
  log := []
  looks := []

/-- A pose at `(x, y)` with identity orientation. -/
def poseAt (x y : ℚ) : Pose :=
  ⟨⟨x, y, 0⟩, ⟨0, 0, 0, 1⟩⟩

/-- A stamped pose at `(x, y)` in the given frame. -/
def stampedAt (frame : String) (x y : ℚ) : PoseStamped :=
  ⟨⟨frame⟩, poseAt x y⟩

/-- The planner `toyPlanner` with an empty queue after the solver setup of a
final leg from (0, 0) to (4, 4) with tolerance 1: its potential is solved. -/
def toySolved : NavfnROS ToySolver :=
  (setupSolver toyEnv Site.makePlan (stampedAt "map" 0 0) (stampedAt "map" 4 4) 1
    (toyPlanner true [])).2

/-- A planner over a single free cell of side `2 ^ 601` whose lower left
corner is at `(-2 ^ 600, -2 ^ 600)`. -/
def farPlanner : NavfnROS ToySolver :=
  { toyPlanner true [] with
    costmap_ := gridCostmap (-(2 ^ 600)) (-(2 ^ 600)) (2 ^ 601) 1 1 (fun _ => 0) }

/-- The planner `farPlanner` after the solver setup of a final leg from the
origin to the origin with tolerance `2 ^ 600`. -/
def farSolved : NavfnROS ToySolver :=
  (setupSolver toyEnv Site.makePlan (stampedAt "map" 0 0) (stampedAt "map" 0 0) (2 ^ 600)
    farPlanner).2

/-! ## Relations between planner states -/

/-- The state `b` comes from `a` by steps that leave the configuration and the
grid geometry alone and append to the log only events that satisfy `P`. -/
structure Evolves (P : Event → Prop) (a b : NavfnROS σ) : Prop where
  initialized_ : b.initialized_ = a.initialized_
  global_frame_ : b.global_frame_ = a.global_frame_
  tf_prefix_ : b.tf_prefix_ = a.tf_prefix_
  allow_unknown_ : b.allow_unknown_ = a.allow_unknown_
  visualize_potential_ : b.visualize_potential_ = a.visualize_potential_
  default_tolerance_ : b.default_tolerance_ = a.default_tolerance_
  subgoal_tolerance_ : b.subgoal_tolerance_ = a.subgoal_tolerance_
  getSizeInCellsX : b.costmap_.getSizeInCellsX = a.costmap_.getSizeInCellsX
  getSizeInCellsY : b.costmap_.getSizeInCellsY = a.costmap_.getSizeInCellsY
  getResolution : b.costmap_.getResolution = a.costmap_.getResolution
  getOriginX : b.costmap_.getOriginX = a.costmap_.getOriginX
  getOriginY : b.costmap_.getOriginY = a.costmap_.getOriginY
  worldToMap : b.costmap_.worldToMap = a.costmap_.worldToMap
  log : ∃ evs, b.log = a.log ++ evs ∧ ∀ e ∈ evs, P e

/-- A publication of the subgoal queue. -/
def Event.isQueuePublish : Event → Bool
  | Event.publishSubgoals _ => true
  | _ => false

/-- A solver operation issued from the text of `getPlanFromPotential`: the
path extraction (`setStart` of the resolved cell and `calcPath`). -/
def Event.isExtraction : Event → Bool
  | Event.solver Site.getPlanFromPotential _ => true
  | _ => false

/-- Any solver operation. -/
def Event.isSolver : Event → Bool
  | Event.solver _ _ => true
  | _ => false

/-- The solver behaves as a function of the cost grid and the start and goal
cells: the state a solve leaves does not depend on the state before the
setup. -/
def SolverIsFunction (nav : NavFn σ) : Prop :=
  ∀ (s1 s2 : σ) (nx ny : Nat) (cm : Nat → Nat) (au : Bool) (a b : Nat × Nat),
    nav.calcNavFnDijkstra true (nav.setGoal b (nav.setStart a
        (nav.setCostmap cm true au (nav.setNavArr nx ny s1)))) =
      nav.calcNavFnDijkstra true (nav.setGoal b (nav.setStart a
        (nav.setCostmap cm true au (nav.setNavArr nx ny s2))))

/-- The states `a` and `b` differ at most in the solver state, in the cost of
the cell of `start`, in the queue, in the log and in the looks. -/
structure AgreeBefore (start : PoseStamped) (a b : NavfnROS σ) : Prop where
  initialized_ : b.initialized_ = a.initialized_
  global_frame_ : b.global_frame_ = a.global_frame_
  tf_prefix_ : b.tf_prefix_ = a.tf_prefix_
  allow_unknown_ : b.allow_unknown_ = a.allow_unknown_
  visualize_potential_ : b.visualize_potential_ = a.visualize_potential_
  default_tolerance_ : b.default_tolerance_ = a.default_tolerance_
  subgoal_tolerance_ : b.subgoal_tolerance_ = a.subgoal_tolerance_
  getResolution : b.costmap_.getResolution = a.costmap_.getResolution
  worldToMap : b.costmap_.worldToMap = a.costmap_.worldToMap
  cleared : ∀ mx my,
    a.costmap_.worldToMap start.pose.position.x start.pose.position.y = some (mx, my) →
    b.costmap_.setCost mx my FREE_SPACE = a.costmap_.setCost mx my FREE_SPACE

/-- The states `a` and `b` differ at most in the queue, in the log and in the
looks. -/
structure Agree (a b : NavfnROS σ) : Prop where
  initialized_ : b.initialized_ = a.initialized_
  global_frame_ : b.global_frame_ = a.global_frame_
  tf_prefix_ : b.tf_prefix_ = a.tf_prefix_
  allow_unknown_ : b.allow_unknown_ = a.allow_unknown_
  visualize_potential_ : b.visualize_potential_ = a.visualize_potential_
  default_tolerance_ : b.default_tolerance_ = a.default_tolerance_
  subgoal_tolerance_ : b.subgoal_tolerance_ = a.subgoal_tolerance_
  costmap_ : b.costmap_ = a.costmap_
  planner_ : b.planner_ = a.planner_

/-- An event of the solver setup issued from `site`: a solver operation of
that site other than `calcPath`, or the write that clears the robot cell. -/
def Event.isSetup (site : Site) : Event → Bool
  | Event.solver _ (SolverOp.calcPath _) => false
  | Event.solver s _ => decide (s = site)
  | Event.setCost _ _ => true
  | _ => false

/-- An event that the part of `makePlan` after the scan can log: anything
but a publication of the queue or a solver operation of `makePlanSubgoal`. -/
def Event.isFinalLeg : Event → Bool
  | Event.publishSubgoals _ => false
  | Event.solver Site.makePlanSubgoal _ => false
  | _ => true

/-- The start of the worked examples: the origin, in frame `map`. -/
def toyStart : PoseStamped := stampedAt "map" 0 0

/-- The goal of the worked examples: (4, 4), in frame `map`. -/
def toyGoal : PoseStamped := stampedAt "map" 4 4

/-- A reachable waypoint two cells from the start. -/
def toyWaypoint : Pose := poseAt 2 0

/-- A queue of three waypoints none of which leads to a leg: (4, 0) is the
lethal cell, (1/2, 0) is within the tolerance of the start, (9, 9) is off the
grid. -/
def toyDroppedQueue : List Pose := [poseAt 4 0, poseAt (1 / 2) 0, poseAt 9 9]

/-- A start off the 5 by 5 grid, in frame `map`. -/
def toyOffStart : PoseStamped := stampedAt "map" 9 9

/-- A queue of two waypoints for the start off the grid: (2, 0) is far from
it, (19/2, 9) is within the tolerance of it. -/
def toyOffQueue : List Pose := [toyWaypoint, poseAt (19 / 2) 9]

/-- The first steps of the solver setup once the start has the cell `s`
(lines 307-314 and 452-459): the robot cell is cleared, then `setNavArr` and
`setCostmap` are called. -/
def setupPrefix (env : Env σ) (site : Site) (s : Nat × Nat) (st : NavfnROS σ) : NavfnROS σ :=
  callSetCostmap env site (callSetNavArr env site (clearRobotCell s.1 s.2 st))

/-- The three solver events that end a solver setup: `setStart` with the cell
`c`, `setGoal` with the cell `s`, and the solve. -/
def anchorEvents (site : Site) (c s : Nat × Nat) : List Event :=
  [Event.solver site (SolverOp.setStart c), Event.solver site (SolverOp.setGoal s),
    Event.solver site SolverOp.calcNavFnDijkstra]

/-- A goal off the 5 by 5 grid, in frame `map`. -/
def toyOffGoal : PoseStamped := stampedAt "map" 9 9

/-- The looks the body of the loop of lines 255-283 makes at one waypoint: the
tolerance test of line 259 and, where the test fails, the leg plan of line
266. -/
def looksAt (env : Env σ) (start : PoseStamped) (t : ℚ) (w : Pose) : List Look :=
  if withinSubgoalTolerance env w start.pose.position.x start.pose.position.y t then
    [Look.test w]
  else [Look.test w, Look.leg w]

/-! ## The tolerance search with its loop control in doubles -/

/-- The inner loop `while (p.x <= goal.x + tolerance) { ...; p.x += resolution; }`
with the double additions of the loop control left to the function `add`; the
body is the one of `searchX`. -/
def searchXBy (add : ℚ → ℚ → ℚ) (pot : Point → ℚ) (goal : PoseStamped)
    (tolerance resolution y : ℚ) : Nat → ℚ → Search → Option Search
  | 0, _, _ => none
  | fuel + 1, x, acc =>
    if x ≤ add goal.pose.position.x tolerance then
      searchXBy add pot goal tolerance resolution y fuel (add x resolution)
        (searchBody pot goal (samplePose goal x y) acc)
    else some acc

/-- The outer loop `while (p.y <= goal.y + tolerance) { p.x = goal.x - tolerance; ...;
p.y += resolution; }` with the double additions and subtractions of the loop
control left to the functions `add` and `sub`. -/
def searchYBy (add sub : ℚ → ℚ → ℚ) (pot : Point → ℚ) (goal : PoseStamped)
    (tolerance resolution : ℚ) (xfuel : Nat) : Nat → ℚ → Search → Option Search
  | 0, _, _ => none
  | fuel + 1, y, acc =>
    if y ≤ add goal.pose.position.y tolerance then
      match searchXBy add pot goal tolerance resolution y xfuel
          (sub goal.pose.position.x tolerance) acc with
      | none => none
      | some acc1 => searchYBy add sub pot goal tolerance resolution xfuel fuel
          (add y resolution) acc1
    else some acc

/-- The tolerance search (lines 342-364 and 486-508) with the double additions
and subtractions of its loop control left to the functions `add` and `sub`;
`toleranceSearch` is this search with exact addition and subtraction. -/
def toleranceSearchBy (add sub : ℚ → ℚ → ℚ) (pot : Point → ℚ) (goal : PoseStamped)
    (tolerance resolution : ℚ) (fuel : Nat) : Option Search :=
  searchYBy add sub pot goal tolerance resolution fuel fuel
    (sub goal.pose.position.y tolerance) ⟨false, DBL_MAX, PoseStamped.empty⟩

/-! ## Double arithmetic -/

/-- The number of binary digits of `n`. -/
def bitLength : Nat → Nat → Nat
  | 0, _ => 0
  | fuel + 1, n => if n = 0 then 0 else bitLength fuel (n / 2) + 1

/-- The power `2 ^ e` for an integer exponent. -/
def twoPow (e : ℤ) : ℚ :=
  if 0 ≤ e then ((2 ^ e.toNat : ℕ) : ℚ) else 1 / ((2 ^ (-e).toNat : ℕ) : ℚ)

/-- The exponent `e` with `2 ^ e ≤ |q| < 2 ^ (e + 1)`, for `q ≠ 0`. -/
def binade (q : ℚ) : ℤ :=
  let e : ℤ := (bitLength q.num.natAbs q.num.natAbs : ℤ) - (bitLength q.den q.den : ℤ)
  if twoPow e ≤ |q| then e else e - 1

/-- Rounding to the nearest integer, a tie going to the even one. -/
def roundHalfEven (q : ℚ) : ℤ :=
  if q - ⌊q⌋ < 1 / 2 then ⌊q⌋
  else if 1 / 2 < q - ⌊q⌋ then ⌊q⌋ + 1
  else if ⌊q⌋ % 2 = 0 then ⌊q⌋ else ⌊q⌋ + 1

/-- The double nearest to `q`: 53 significant bits, round to nearest, ties to
even. The exponent range is not modelled (no overflow, no subnormals). -/
def dblRound (q : ℚ) : ℚ :=
  if q = 0 then 0
  else (roundHalfEven (q / twoPow (binade q - 52)) : ℚ) * twoPow (binade q - 52)

/-- The double sum `a + b`. -/
def dblAdd (a b : ℚ) : ℚ := dblRound (a + b)

/-- The double difference `a - b`. -/
def dblSub (a b : ℚ) : ℚ := dblRound (a - b)

/-- The double `sqrt(q)`, correctly rounded: with `u` the unit in the last place
of the root and `k` the integer part of `sqrt(q) / u`, the root is `k * u` or
`(k + 1) * u`, whichever is nearer. -/
def dblSqrt (q : ℚ) : ℚ :=
  if q ≤ 0 then 0
  else
    let u := twoPow (binade q / 2 - 52)
    let n := q / (u * u)
    let k : ℚ := (toyRootBits (⌊n⌋).toNat 52 0 : ℕ)
    if n < k * k + k + 1 / 4 then k * u
    else if k * k + k + 1 / 4 < n then (k + 1) * u
    else if toyRootBits (⌊n⌋).toNat 52 0 % 2 = 0 then k * u else (k + 1) * u

/-- The distance of line 259 in doubles,
`fabs(sqrt(pow(x - wx, 2) + pow(y - wy, 2)))`, with `pow(d, 2)` the rounded
product `d * d`. -/
def dblDistance (x y wx wy : ℚ) : ℚ :=
  |dblSqrt (dblAdd (dblRound (dblSub x wx * dblSub x wx))
    (dblRound (dblSub y wy * dblSub y wy)))|

/-- The stand-in environment with the distance of line 259 computed in
doubles. -/
def dblEnv : Env ToySolver :=
  ⟨toyNavFn, fun pre frame => pre ++ "/" ++ frame, dblDistance⟩

/-- The waypoint whose coordinates are the doubles nearest to 0.28 and 0.96. -/
def nearWaypoint : Pose :=
  poseAt (1261007895663739 / 2 ^ 52) (1080863910568919 / 2 ^ 50)

/-- A target 10^17 along the x axis, where the doubles are 16 apart. -/
def farGoal : PoseStamped := stampedAt "map" (10 ^ 17) 0

end Navfn

/-! # Theorems -/

namespace Navfn

variable {σ : Type}

/-! ## The loops of the tolerance search run to their end -/

theorem axisCount_of_gt {lo hi res : ℚ} (h : hi < lo) : axisCount lo hi res = 0 := by
  simp [axisCount, not_le.mpr h]

theorem axisCount_of_le {lo hi res : ℚ} (hres : 0 < res) (h : lo ≤ hi) :
    axisCount lo hi res = axisCount (lo + res) hi res + 1 := by
  unfold axisCount
  rw [if_pos h]
  by_cases h2 : lo + res ≤ hi
  · rw [if_pos h2]
    have e : (hi - (lo + res)) / res = (hi - lo) / res - 1 := by
      field_simp
      ring
    rw [e, Int.floor_sub_one]
    have h1 : (1 : ℤ) ≤ ⌊(hi - lo) / res⌋ := by
      rw [Int.le_floor]
      rw [le_div_iff₀ hres]
      push_cast
      linarith
    omega
  · rw [if_neg h2]
    have h0 : ⌊(hi - lo) / res⌋ = 0 := by
      rw [Int.floor_eq_iff]
      constructor
      · push_cast
        apply div_nonneg <;> linarith
      · push_cast
        rw [div_lt_iff₀ hres]
        linarith
    rw [h0]
    rfl

theorem axisSamples_of_gt {lo hi res : ℚ} (h : hi < lo) : axisSamples lo hi res = [] := by
  simp [axisSamples, axisCount_of_gt h, samplesFrom]

theorem axisSamples_of_le {lo hi res : ℚ} (hres : 0 < res) (h : lo ≤ hi) :
    axisSamples lo hi res = lo :: axisSamples (lo + res) hi res := by
  simp [axisSamples, axisCount_of_le hres h, samplesFrom]

theorem searchX_eq (pot : Point → ℚ) (goal : PoseStamped) (tol res y : ℚ) (hres : 0 < res) :
    ∀ (fuel : Nat) (x : ℚ) (acc : Search),
      axisCount x (goal.pose.position.x + tol) res < fuel →
      searchX pot goal tol res y fuel x acc =
        some ((axisSamples x (goal.pose.position.x + tol) res).foldl
          (fun a x1 => searchBody pot goal (samplePose goal x1 y) a) acc) := by
  intro fuel
  induction fuel with
  | zero => intro x acc h; omega
  | succ n ih =>
    intro x acc h
    by_cases hx : x ≤ goal.pose.position.x + tol
    · rw [axisCount_of_le hres hx] at h
      rw [searchX, if_pos hx, ih _ _ (by omega), axisSamples_of_le hres hx]
      rfl
    · rw [searchX, if_neg hx, axisSamples_of_gt (not_le.mp hx)]
      rfl

theorem searchY_eq (pot : Point → ℚ) (goal : PoseStamped) (tol res : ℚ) (hres : 0 < res)
    (xfuel : Nat)
    (hx : axisCount (goal.pose.position.x - tol) (goal.pose.position.x + tol) res < xfuel) :
    ∀ (fuel : Nat) (y : ℚ) (acc : Search),
      axisCount y (goal.pose.position.y + tol) res < fuel →
      searchY pot goal tol res xfuel fuel y acc =
        some ((axisSamples y (goal.pose.position.y + tol) res).foldl
          (fun a y1 => (axisSamples (goal.pose.position.x - tol)
              (goal.pose.position.x + tol) res).foldl
            (fun a1 x1 => searchBody pot goal (samplePose goal x1 y1) a1) a) acc) := by
  intro fuel
  induction fuel with
  | zero => intro y acc h; omega
  | succ n ih =>
    intro y acc h
    by_cases hy : y ≤ goal.pose.position.y + tol
    · rw [axisCount_of_le hres hy] at h
      rw [searchY, if_pos hy, searchX_eq pot goal tol res y hres _ _ _ hx]
      simp only
      rw [ih _ _ (by omega), axisSamples_of_le hres hy]
      rfl
    · rw [searchY, if_neg hy, axisSamples_of_gt (not_le.mp hy)]
      rfl

theorem foldl_flatMap_map {α β γ : Type} (f : γ → β → γ) (g : α → List β) :
    ∀ (l : List α) (c : γ),
      (l.flatMap g).foldl f c = l.foldl (fun a y => (g y).foldl f a) c := by
  intro l
  induction l with
  | nil => intro c; rfl
  | cons a t ih =>
    intro c
    rw [List.flatMap_cons, List.foldl_append, ih]
    rfl

theorem axisCount_window_lt (g tol res : ℚ) :
    axisCount (g - tol) (g + tol) res < searchFuel tol res := by
  unfold axisCount searchFuel
  split
  · have e : g + tol - (g - tol) = 2 * tol := by ring
    rw [e]
    omega
  · omega

/-- With a positive resolution and enough fuel the tolerance search ends, and
its result is the fold of the loop body over the samples in scan order. -/
theorem toleranceSearch_eq_foldl (pot : Point → ℚ) (goal : PoseStamped) (tol res : ℚ)
    (hres : 0 < res) (fuel : Nat) (hfuel : searchFuel tol res ≤ fuel) :
    toleranceSearch pot goal tol res fuel =
      some ((toleranceSamples goal tol res).foldl (fun a p => searchBody pot goal p a)
        ⟨false, DBL_MAX, PoseStamped.empty⟩) := by
  have hx := lt_of_lt_of_le (axisCount_window_lt goal.pose.position.x tol res) hfuel
  have hy := lt_of_lt_of_le (axisCount_window_lt goal.pose.position.y tol res) hfuel
  unfold toleranceSearch toleranceSamples
  rw [searchY_eq pot goal tol res hres fuel hx fuel _ _ hy, foldl_flatMap_map]
  simp only [List.foldl_map]

end Navfn

namespace Navfn

variable {σ : Type}

/-! ## What the fold of the loop body selects -/

theorem foldl_searchBody (pot : Point → ℚ) (goal : PoseStamped) :
    ∀ (l : List PoseStamped) (acc : Search),
      ((∀ p ∈ l, ¬ (pot p.pose.position < POT_HIGH ∧ sq_distance p goal < acc.best_sdist)) ∧
        l.foldl (fun a p => searchBody pot goal p a) acc = acc) ∨
      (∃ pre b post, l = pre ++ b :: post ∧
        pot b.pose.position < POT_HIGH ∧ sq_distance b goal < acc.best_sdist ∧
        (∀ c ∈ pre, pot c.pose.position < POT_HIGH → sq_distance b goal < sq_distance c goal) ∧
        (∀ c ∈ post, pot c.pose.position < POT_HIGH → sq_distance b goal ≤ sq_distance c goal) ∧
        l.foldl (fun a p => searchBody pot goal p a) acc = ⟨true, sq_distance b goal, b⟩) := by
  intro l
  induction l with
  | nil => intro acc; left; simp
  | cons p t ih =>
    intro acc
    by_cases hp : pot p.pose.position < POT_HIGH ∧ sq_distance p goal < acc.best_sdist
    · have hstep : searchBody pot goal p acc = ⟨true, sq_distance p goal, p⟩ := by
        simp only [searchBody]
        rw [if_pos hp]
      right
      rcases ih ⟨true, sq_distance p goal, p⟩ with ⟨hnone, hfold⟩ | ⟨pre, b, post, hl, hb, hd, hpre, hpost, hfold⟩
      · refine ⟨[], p, t, rfl, hp.1, hp.2, by simp, ?_, ?_⟩
        · intro c hc hpc
          have := hnone c hc
          simp only [not_and, not_lt] at this
          exact this hpc
        · rw [List.foldl_cons, hstep, hfold]
      · refine ⟨p :: pre, b, post, by simp [hl], hb, lt_trans hd hp.2, ?_, hpost, ?_⟩
        · intro c hc hpc
          rcases List.mem_cons.mp hc with rfl | hc
          · exact hd
          · exact hpre c hc hpc
        · rw [List.foldl_cons, hstep, hfold]
    · have hstep : searchBody pot goal p acc = acc := by
        simp only [searchBody]
        rw [if_neg hp]
      rcases ih acc with ⟨hnone, hfold⟩ | ⟨pre, b, post, hl, hb, hd, hpre, hpost, hfold⟩
      · left
        refine ⟨?_, ?_⟩
        · intro c hc
          rcases List.mem_cons.mp hc with rfl | hc
          · exact hp
          · exact hnone c hc
        · rw [List.foldl_cons, hstep, hfold]
      · right
        refine ⟨p :: pre, b, post, by simp [hl], hb, hd, ?_, hpost, ?_⟩
        · intro c hc hpc
          rcases List.mem_cons.mp hc with rfl | hc
          · have : ¬ sq_distance c goal < acc.best_sdist := fun h => hp ⟨hpc, h⟩
            exact lt_of_lt_of_le hd (not_lt.mp this)
          · exact hpre c hc hpc
        · rw [List.foldl_cons, hstep, hfold]

theorem foldl_searchBody_meets (pot : Point → ℚ) (goal : PoseStamped) (l : List PoseStamped) :
    SearchMeets goal
      (l.filter fun p => decide (pot p.pose.position < POT_HIGH ∧ sq_distance p goal < DBL_MAX))
      (l.foldl (fun a p => searchBody pot goal p a) ⟨false, DBL_MAX, PoseStamped.empty⟩) := by
  rcases foldl_searchBody pot goal l ⟨false, DBL_MAX, PoseStamped.empty⟩ with
    ⟨hnone, hfold⟩ | ⟨pre, b, post, hl, hb, hd, hpre, hpost, hfold⟩
  · have hnil : (l.filter fun p =>
        decide (pot p.pose.position < POT_HIGH ∧ sq_distance p goal < DBL_MAX)) = [] := by
      rw [List.filter_eq_nil_iff]
      intro p hp
      simpa using hnone p hp
    rw [hfold, hnil]
    simp [SearchMeets]
  · have hfil : (l.filter fun p =>
        decide (pot p.pose.position < POT_HIGH ∧ sq_distance p goal < DBL_MAX))
        = (pre.filter fun p =>
            decide (pot p.pose.position < POT_HIGH ∧ sq_distance p goal < DBL_MAX))
          ++ b :: (post.filter fun p =>
            decide (pot p.pose.position < POT_HIGH ∧ sq_distance p goal < DBL_MAX)) := by
      rw [hl, List.filter_append, List.filter_cons_of_pos]
      simpa using ⟨hb, hd⟩
    rw [hfold, hfil]
    refine ⟨by simp, fun _ => ⟨⟨_, _, rfl, ?_, ?_⟩, rfl⟩⟩
    · intro c hc
      rw [List.mem_filter] at hc
      have h2 := hc.2
      simp only [decide_eq_true_eq] at h2
      exact hpre c hc.1 h2.1
    · intro c hc
      rw [List.mem_filter] at hc
      have h2 := hc.2
      simp only [decide_eq_true_eq] at h2
      exact hpost c hc.1 h2.1

end Navfn

namespace Navfn

variable {σ : Type}

/-- When every sample has a squared distance below `DBL_MAX`, the candidates
the code can select are the candidates as the spec words them. -/
theorem codeCandidates_eq_specCandidates (pot : Point → ℚ) (goal : PoseStamped)
    (tol res : ℚ)
    (h : ∀ p ∈ toleranceSamples goal tol res, sq_distance p goal < DBL_MAX) :
    codeCandidates pot goal tol res = specCandidates pot goal tol res := by
  unfold codeCandidates specCandidates
  apply List.filter_congr
  intro p hp
  simp [h p hp]

/-! ## C8: the tolerance search against its reference definition -/

/-- C8, as stated, fails: on a single-cell grid of side `2 ^ 601`, with
tolerance `2 ^ 600` around the origin, the first sample has a potential below
`POT_HIGH`, so the spec's candidate list is not empty, yet its squared distance
`2 ^ 1201` is not below the initial `best_sdist = DBL_MAX`, and the search ends
with `found_legal = false`. -/
theorem toleranceSearch_misses_far_candidate :
    (0 : ℚ) < 2 ^ 601 ∧ searchFuel (2 ^ 600) (2 ^ 601) ≤ 3 ∧
    ∃ s, toleranceSearch (getPointPotential toyEnv farSolved) (stampedAt "map" 0 0)
        (2 ^ 600) (2 ^ 601) 3 = some s ∧
      ¬ SearchMeets (stampedAt "map" 0 0)
        (specCandidates (getPointPotential toyEnv farSolved) (stampedAt "map" 0 0)
          (2 ^ 600) (2 ^ 601)) s := by
  refine ⟨by norm_num, by decide!, ⟨false, DBL_MAX, PoseStamped.empty⟩, by decide!, ?_⟩
  intro h
  have hc : specCandidates (getPointPotential toyEnv farSolved) (stampedAt "map" 0 0)
      (2 ^ 600) (2 ^ 601) ≠ [] := by decide!
  exact hc (h.1.mp rfl)

/-- C8, amended: for every target, tolerance and positive resolution, with
enough fuel the tolerance search of `makePlan` and `makePlanSubgoal` ends and
meets the reference definition over the samples in row-major scan order, the
candidates being the samples whose potential is below `POT_HIGH` and whose
squared distance to the target is below `DBL_MAX`: `found_legal` is false
exactly when there is no candidate, and otherwise `best_pose` is the first
candidate of minimum squared distance. -/
theorem toleranceSearch_meets_reference (env : Env σ) (st : NavfnROS σ) (goal : PoseStamped)
    (tolerance resolution : ℚ) (hres : 0 < resolution) (fuel : Nat)
    (hfuel : searchFuel tolerance resolution ≤ fuel) :
    ∃ s, toleranceSearch (getPointPotential env st) goal tolerance resolution fuel = some s ∧
      SearchMeets goal (codeCandidates (getPointPotential env st) goal tolerance resolution) s :=
  ⟨_, toleranceSearch_eq_foldl _ goal tolerance resolution hres fuel hfuel,
    foldl_searchBody_meets _ goal _⟩

/-- C8, amended, on the 5 by 5 grid: tolerance 1 around (4, 4) at
resolution 1. -/
theorem toleranceSearch_meets_reference_witness :
    (0 : ℚ) < 1 ∧ searchFuel 1 1 ≤ 4 ∧
    ∃ s, toleranceSearch (getPointPotential toyEnv toySolved) (stampedAt "map" 4 4) 1 1 4
        = some s ∧
      SearchMeets (stampedAt "map" 4 4)
        (codeCandidates (getPointPotential toyEnv toySolved) (stampedAt "map" 4 4) 1 1) s :=
  ⟨by norm_num, by decide!,
    toleranceSearch_meets_reference toyEnv toySolved (stampedAt "map" 4 4) 1 1 (by norm_num) 4
      (by decide!)⟩


theorem samplePose_self (goal : PoseStamped) :
    samplePose goal goal.pose.position.x goal.pose.position.y = goal := rfl

theorem sq_distance_self (p : PoseStamped) : sq_distance p p = 0 := by
  simp [sq_distance]

theorem DBL_MAX_pos : (0 : ℚ) < DBL_MAX := by
  unfold DBL_MAX
  norm_num

theorem toleranceSamples_zero (goal : PoseStamped) (res : ℚ) :
    toleranceSamples goal 0 res = [goal] := by
  simp [toleranceSamples, axisSamples, axisCount, samplesFrom, samplePose_self]

theorem toleranceSearch_zero (pot : Point → ℚ) (goal : PoseStamped) (res : ℚ)
    (hres : 0 < res) (fuel : Nat) (hfuel : 2 ≤ fuel) :
    toleranceSearch pot goal 0 res fuel =
      some (if pot goal.pose.position < POT_HIGH then ⟨true, 0, goal⟩
        else ⟨false, DBL_MAX, PoseStamped.empty⟩) := by
  have hf : searchFuel 0 res ≤ fuel := by
    simpa [searchFuel] using hfuel
  rw [toleranceSearch_eq_foldl pot goal 0 res hres fuel hf, toleranceSamples_zero]
  simp [searchBody, sq_distance_self, DBL_MAX_pos]

end Navfn

namespace Navfn

variable {σ : Type}

/-! ## How the planner state evolves -/

theorem Evolves.refl (P : Event → Prop) (a : NavfnROS σ) : Evolves P a a :=
  ⟨rfl, rfl, rfl, rfl, rfl, rfl, rfl, rfl, rfl, rfl, rfl, rfl, rfl, [], by simp, by simp⟩

theorem Evolves.trans {P : Event → Prop} {a b c : NavfnROS σ} (h1 : Evolves P a b)
    (h2 : Evolves P b c) : Evolves P a c := by
  obtain ⟨e1, hl1, hp1⟩ := h1.log
  obtain ⟨e2, hl2, hp2⟩ := h2.log
  refine ⟨h2.initialized_.trans h1.initialized_, h2.global_frame_.trans h1.global_frame_,
    h2.tf_prefix_.trans h1.tf_prefix_, h2.allow_unknown_.trans h1.allow_unknown_,
    h2.visualize_potential_.trans h1.visualize_potential_,
    h2.default_tolerance_.trans h1.default_tolerance_,
    h2.subgoal_tolerance_.trans h1.subgoal_tolerance_,
    h2.getSizeInCellsX.trans h1.getSizeInCellsX, h2.getSizeInCellsY.trans h1.getSizeInCellsY,
    h2.getResolution.trans h1.getResolution, h2.getOriginX.trans h1.getOriginX,
    h2.getOriginY.trans h1.getOriginY, h2.worldToMap.trans h1.worldToMap,
    e1 ++ e2, by rw [hl2, hl1, List.append_assoc], ?_⟩
  intro e he
  rcases List.mem_append.mp he with h | h
  · exact hp1 e h
  · exact hp2 e h

theorem Evolves.mono {P Q : Event → Prop} {a b : NavfnROS σ} (hPQ : ∀ e, P e → Q e)
    (h : Evolves P a b) : Evolves Q a b := by
  obtain ⟨e1, hl1, hp1⟩ := h.log
  exact ⟨h.initialized_, h.global_frame_, h.tf_prefix_, h.allow_unknown_,
    h.visualize_potential_, h.default_tolerance_, h.subgoal_tolerance_, h.getSizeInCellsX,
    h.getSizeInCellsY, h.getResolution, h.getOriginX, h.getOriginY, h.worldToMap,
    e1, hl1, fun e he => hPQ e (hp1 e he)⟩

theorem evolves_record {P : Event → Prop} (e : Event) (st : NavfnROS σ) (he : P e) :
    Evolves P st (record e st) :=
  ⟨rfl, rfl, rfl, rfl, rfl, rfl, rfl, rfl, rfl, rfl, rfl, rfl, rfl, [e], rfl, by simpa using he⟩

theorem evolves_planner (P : Event → Prop) (st : NavfnROS σ) (x : σ) :
    Evolves P st { st with planner_ := x } :=
  ⟨rfl, rfl, rfl, rfl, rfl, rfl, rfl, rfl, rfl, rfl, rfl, rfl, rfl, [], by simp, by simp⟩

theorem evolves_queue (P : Event → Prop) (st : NavfnROS σ) (q : List Pose) :
    Evolves P st { st with v_subgoals_ := q } :=
  ⟨rfl, rfl, rfl, rfl, rfl, rfl, rfl, rfl, rfl, rfl, rfl, rfl, rfl, [], by simp, by simp⟩

theorem evolves_callSetNavArr {P : Event → Prop} (env : Env σ) (site : Site) (st : NavfnROS σ)
    (h : ∀ nx ny, P (Event.solver site (SolverOp.setNavArr nx ny))) :
    Evolves P st (callSetNavArr env site st) :=
  (evolves_planner P st _).trans (evolves_record _ _ (h _ _))

theorem evolves_callSetCostmap {P : Event → Prop} (env : Env σ) (site : Site) (st : NavfnROS σ)
    (h : P (Event.solver site SolverOp.setCostmap)) :
    Evolves P st (callSetCostmap env site st) :=
  (evolves_planner P st _).trans (evolves_record _ _ h)

theorem evolves_callSetStart {P : Event → Prop} (env : Env σ) (site : Site) (c : Nat × Nat)
    (st : NavfnROS σ) (h : P (Event.solver site (SolverOp.setStart c))) :
    Evolves P st (callSetStart env site c st) :=
  (evolves_planner P st _).trans (evolves_record _ _ h)

theorem evolves_callSetGoal {P : Event → Prop} (env : Env σ) (site : Site) (c : Nat × Nat)
    (st : NavfnROS σ) (h : P (Event.solver site (SolverOp.setGoal c))) :
    Evolves P st (callSetGoal env site c st) :=
  (evolves_planner P st _).trans (evolves_record _ _ h)

theorem evolves_callCalcNavFnDijkstra {P : Event → Prop} (env : Env σ) (site : Site)
    (st : NavfnROS σ) (h : P (Event.solver site SolverOp.calcNavFnDijkstra)) :
    Evolves P st (callCalcNavFnDijkstra env site st) :=
  (evolves_planner P st _).trans (evolves_record _ _ h)

theorem evolves_callCalcPath {P : Event → Prop} (env : Env σ) (site : Site) (n : Nat)
    (st : NavfnROS σ) (h : P (Event.solver site (SolverOp.calcPath n))) :
    Evolves P st (callCalcPath env site n st) :=
  (evolves_planner P st _).trans (evolves_record _ _ h)

theorem evolves_clearRobotCell {P : Event → Prop} (mx my : Nat) (st : NavfnROS σ)
    (h : P (Event.setCost mx my)) : Evolves P st (clearRobotCell mx my st) := by
  unfold clearRobotCell
  split
  · exact Evolves.refl P st
  · exact ⟨rfl, rfl, rfl, rfl, rfl, rfl, rfl, rfl, rfl, rfl, rfl, rfl, rfl,
      [Event.setCost mx my], rfl, by simpa using h⟩

theorem evolves_publishPlan {P : Event → Prop} (path : List PoseStamped) (st : NavfnROS σ)
    (h : P (Event.publishPlan path)) : Evolves P st (publishPlan path st) := by
  unfold publishPlan
  split
  · exact Evolves.refl P st
  · exact evolves_record _ _ h

theorem evolves_publishPotential {P : Event → Prop} (st : NavfnROS σ)
    (h : P Event.publishPotential) : Evolves P st (publishPotential st) := by
  unfold publishPotential
  split
  · exact evolves_record _ _ h
  · exact Evolves.refl P st

theorem evolves_publishSubgoals {P : Event → Prop} (st : NavfnROS σ)
    (h : P (Event.publishSubgoals st.v_subgoals_)) : Evolves P st (publishSubgoals st) :=
  evolves_record _ _ h

/-- The solver setup leaves the configuration alone and logs only setup
events of its site. -/
theorem setupSolver_evolves (env : Env σ) (site : Site) (start goal : PoseStamped) (tol : ℚ)
    (st : NavfnROS σ) :
    Evolves (fun e => e.isSetup site = true) st (setupSolver env site start goal tol st).2 := by
  unfold setupSolver
  split
  · exact Evolves.refl _ st
  · rename_i mx my _
    have h3 : Evolves (fun e => e.isSetup site = true) st
        (callSetCostmap env site (callSetNavArr env site (clearRobotCell mx my st))) :=
      ((evolves_clearRobotCell mx my st (by simp [Event.isSetup])).trans
        (evolves_callSetNavArr env site _ (by simp [Event.isSetup]))).trans
        (evolves_callSetCostmap env site _ (by simp [Event.isSetup]))
    simp only
    split
    · exact h3
    · exact ((h3.trans (evolves_callSetStart env site _ _ (by simp [Event.isSetup]))).trans
        (evolves_callSetGoal env site _ _ (by simp [Event.isSetup]))).trans
        (evolves_callCalcNavFnDijkstra env site _ (by simp [Event.isSetup]))

theorem setupSolver_v_subgoals_ (env : Env σ) (site : Site) (start goal : PoseStamped)
    (tol : ℚ) (st : NavfnROS σ) :
    (setupSolver env site start goal tol st).2.v_subgoals_ = st.v_subgoals_ := by
  unfold setupSolver
  split
  · rfl
  · simp only
    split <;>
      (unfold clearRobotCell; split <;> rfl)

theorem getPlanFromPotential_evolves_of {P : Event → Prop} (env : Env σ) (goal : PoseStamped)
    (plan : List PoseStamped) (st : NavfnROS σ)
    (h1 : ∀ op, P (Event.solver Site.getPlanFromPotential op))
    (h2 : ∀ path, P (Event.publishPlan path)) :
    Evolves P st (getPlanFromPotential env goal plan st).st := by
  unfold getPlanFromPotential
  split
  · exact Evolves.refl _ st
  · split
    · exact Evolves.refl _ st
    · split
      · exact Evolves.refl _ st
      · exact ((evolves_callSetStart env _ _ _ (h1 _)).trans
          (evolves_callCalcPath env _ _ _ (h1 _))).trans
          (evolves_publishPlan _ _ (h2 _))

theorem getPlanFromPotential_evolves (env : Env σ) (goal : PoseStamped)
    (plan : List PoseStamped) (st : NavfnROS σ) :
    Evolves (fun e => e.isQueuePublish = false) st (getPlanFromPotential env goal plan st).st :=
  getPlanFromPotential_evolves_of env goal plan st (by simp [Event.isQueuePublish])
    (by simp [Event.isQueuePublish])

theorem getPlanFromPotential_evolves_final (env : Env σ) (goal : PoseStamped)
    (plan : List PoseStamped) (st : NavfnROS σ) :
    Evolves (fun e => e.isFinalLeg = true) st (getPlanFromPotential env goal plan st).st :=
  getPlanFromPotential_evolves_of env goal plan st (by simp [Event.isFinalLeg])
    (by simp [Event.isFinalLeg])

theorem isSetup_isFinalLeg (e : Event) (h : e.isSetup Site.makePlan = true) :
    e.isFinalLeg = true := by
  cases e with
  | solver s op => cases s <;> cases op <;> simp_all [Event.isSetup, Event.isFinalLeg]
  | _ => simp_all [Event.isSetup, Event.isFinalLeg]

theorem isFinalLeg_not_queuePublish (e : Event) (h : e.isFinalLeg = true) :
    e.isQueuePublish = false := by
  cases e <;> simp_all [Event.isFinalLeg, Event.isQueuePublish]

theorem getPlanFromPotential_v_subgoals_ (env : Env σ) (goal : PoseStamped)
    (plan : List PoseStamped) (st : NavfnROS σ) :
    (getPlanFromPotential env goal plan st).st.v_subgoals_ = st.v_subgoals_ := by
  unfold getPlanFromPotential publishPlan
  split
  · rfl
  · split
    · rfl
    · split
      · rfl
      · simp only
        split <;> rfl

theorem getPlanFromPotential_ret (env : Env σ) (goal : PoseStamped) (st : NavfnROS σ) :
    (getPlanFromPotential env goal [] st).ret = !(getPlanFromPotential env goal [] st).plan.isEmpty := by
  unfold getPlanFromPotential
  split
  · rfl
  · split
    · rfl
    · split <;> rfl

theorem isSetup_not_queuePublish (site : Site) (e : Event) (h : e.isSetup site = true) :
    e.isQueuePublish = false := by
  cases e <;> simp_all [Event.isSetup, Event.isQueuePublish]

theorem isSetup_not_extraction (e : Event) (h : e.isSetup Site.makePlan = true) :
    e.isExtraction = false := by
  cases e with
  | solver s op => cases s <;> cases op <;> simp_all [Event.isSetup, Event.isExtraction]
  | _ => simp_all [Event.isSetup, Event.isExtraction]

end Navfn

namespace Navfn

variable {σ : Type}

/-! ## Leg planning -/

theorem POT_HIGH_le_DBL_MAX : POT_HIGH ≤ DBL_MAX := by
  unfold POT_HIGH DBL_MAX
  norm_num

theorem getPointPotential_lt (env : Env σ) (st : NavfnROS σ) (p : Point)
    (hinit : st.initialized_ = true) (h : getPointPotential env st p < POT_HIGH) :
    ∃ c, st.costmap_.worldToMap p.x p.y = some c := by
  unfold getPointPotential at h
  rw [if_neg (by simp [hinit])] at h
  cases hw : st.costmap_.worldToMap p.x p.y with
  | none =>
    rw [hw] at h
    exact absurd h (not_lt.mpr POT_HIGH_le_DBL_MAX)
  | some c => exact ⟨c, rfl⟩

theorem mem_toleranceSamples_header (goal : PoseStamped) (tol res : ℚ) (p : PoseStamped)
    (h : p ∈ toleranceSamples goal tol res) : p.header = goal.header := by
  unfold toleranceSamples at h
  rw [List.mem_flatMap] at h
  obtain ⟨y, _, hy⟩ := h
  rw [List.mem_map] at hy
  obtain ⟨x, _, rfl⟩ := hy
  rfl

/-- A search that ends with `found_legal` leaves in `best_pose` a pose of the
goal's frame whose potential is below `POT_HIGH`. -/
theorem toleranceSearch_found (pot : Point → ℚ) (goal : PoseStamped) (tol res : ℚ)
    (hres : 0 < res) (fuel : Nat) (hfuel : searchFuel tol res ≤ fuel) (s : Search)
    (hs : toleranceSearch pot goal tol res fuel = some s) (hf : s.found_legal = true) :
    pot s.best_pose.pose.position < POT_HIGH ∧ s.best_pose.header = goal.header := by
  rw [toleranceSearch_eq_foldl pot goal tol res hres fuel hfuel] at hs
  have hs2 := Option.some.inj hs
  rcases foldl_searchBody pot goal (toleranceSamples goal tol res)
      ⟨false, DBL_MAX, PoseStamped.empty⟩ with
    ⟨_, hfold⟩ | ⟨pre, b, post, hl, hb, _, _, _, hfold⟩
  · rw [hfold] at hs2
    rw [← hs2] at hf
    exact absurd hf (by simp)
  · rw [hfold] at hs2
    rw [← hs2]
    refine ⟨hb, mem_toleranceSamples_header goal tol res b ?_⟩
    rw [hl]
    simp

theorem tracePoses_congr (env : Env σ) (a b : NavfnROS σ) (hp : b.planner_ = a.planner_)
    (hc : b.costmap_ = a.costmap_) (hg : b.global_frame_ = a.global_frame_) :
    tracePoses env b = tracePoses env a := by
  unfold tracePoses
  rw [hp]
  congr 1
  funext i
  simp [pathPose, mapToWorld, hp, hc, hg]

theorem publishPlan_fields (path : List PoseStamped) (st : NavfnROS σ) :
    (publishPlan path st).planner_ = st.planner_ ∧
    (publishPlan path st).costmap_ = st.costmap_ := by
  unfold publishPlan
  split <;> exact ⟨rfl, rfl⟩

theorem publishPotential_fields (st : NavfnROS σ) :
    (publishPotential st).planner_ = st.planner_ ∧
    (publishPotential st).costmap_ = st.costmap_ ∧
    (publishPotential st).v_subgoals_ = st.v_subgoals_ := by
  unfold publishPotential
  split <;> exact ⟨rfl, rfl, rfl⟩

/-- What `getPlanFromPotential` does once its three guards are passed. -/
theorem getPlanFromPotential_eq (env : Env σ) (goal : PoseStamped) (plan : List PoseStamped)
    (st : NavfnROS σ) (hinit : st.initialized_ = true)
    (hframe : env.resolve st.tf_prefix_ goal.header.frame_id
      = env.resolve st.tf_prefix_ st.global_frame_)
    (c : Nat × Nat)
    (hc : st.costmap_.worldToMap goal.pose.position.x goal.pose.position.y = some c) :
    getPlanFromPotential env goal plan st =
      ⟨!(tracePoses env (callCalcPath env Site.getPlanFromPotential
            ((st.costmap_.getSizeInCellsX * 4) % 2 ^ 32)
            (callSetStart env Site.getPlanFromPotential c st))).isEmpty,
        publishPlan (tracePoses env (callCalcPath env Site.getPlanFromPotential
            ((st.costmap_.getSizeInCellsX * 4) % 2 ^ 32)
            (callSetStart env Site.getPlanFromPotential c st)))
          (callCalcPath env Site.getPlanFromPotential
            ((st.costmap_.getSizeInCellsX * 4) % 2 ^ 32)
            (callSetStart env Site.getPlanFromPotential c st)),
        tracePoses env (callCalcPath env Site.getPlanFromPotential
            ((st.costmap_.getSizeInCellsX * 4) % 2 ^ 32)
            (callSetStart env Site.getPlanFromPotential c st))⟩ := by
  unfold getPlanFromPotential
  rw [if_neg (by simp [hinit]), if_neg (by simp [hframe]), hc]
  rfl

/-- The plan `getPlanFromPotential` leaves is the trace read from the state it
leaves, whenever it returns true. -/
theorem getPlanFromPotential_plan (env : Env σ) (goal : PoseStamped) (st : NavfnROS σ)
    (h : (getPlanFromPotential env goal [] st).ret = true) :
    (getPlanFromPotential env goal [] st).plan
      = tracePoses env (getPlanFromPotential env goal [] st).st := by
  unfold getPlanFromPotential at h ⊢
  split
  · simp_all
  · split
    · simp_all
    · split
      · simp_all
      · simp only
        exact (tracePoses_congr env _ _ (publishPlan_fields _ _).1 (publishPlan_fields _ _).2
          (evolves_publishPlan (P := fun _ => True) _ _ trivial).global_frame_).symm

end Navfn

namespace Navfn

variable {σ : Type}

theorem goalCell_congr (a b : NavfnROS σ) (h : b.costmap_.worldToMap = a.costmap_.worldToMap)
    (goal : PoseStamped) (tol : ℚ) : goalCell b goal tol = goalCell a goal tol := by
  unfold goalCell
  rw [h]

theorem setup_prefix_evolves (env : Env σ) (site : Site) (mx my : Nat) (st : NavfnROS σ) :
    Evolves (fun e => e.isSetup site = true) st
      (callSetCostmap env site (callSetNavArr env site (clearRobotCell mx my st))) :=
  ((evolves_clearRobotCell mx my st (by simp [Event.isSetup])).trans
    (evolves_callSetNavArr env site _ (by simp [Event.isSetup]))).trans
    (evolves_callSetCostmap env site _ (by simp [Event.isSetup]))

/-- The solver setup goes through exactly when the start has a cell and the
goal has a cell or a placeholder. -/
theorem setupSolver_fst (env : Env σ) (site : Site) (start goal : PoseStamped) (tol : ℚ)
    (st : NavfnROS σ) :
    (setupSolver env site start goal tol st).1 =
      ((st.costmap_.worldToMap start.pose.position.x start.pose.position.y).isSome
        && (goalCell st goal tol).isSome) := by
  unfold setupSolver
  split
  · rename_i h
    simp [h]
  · rename_i mx my h
    simp only [h, Option.isSome_some, Bool.true_and]
    rw [← goalCell_congr st _ (setup_prefix_evolves env site mx my st).worldToMap goal tol]
    split
    · rename_i hg
      simp [hg]
    · rename_i c hg
      simp [hg]

/-- A solver setup that goes through ends with the solve. -/
theorem setupSolver_true (env : Env σ) (site : Site) (start goal : PoseStamped) (tol : ℚ)
    (st : NavfnROS σ) (h : (setupSolver env site start goal tol st).1 = true) :
    ∃ st5, (setupSolver env site start goal tol st).2 = callCalcNavFnDijkstra env site st5 ∧
      Evolves (fun e => e.isSetup site = true) st st5 := by
  unfold setupSolver at h ⊢
  split
  · rename_i hw
    simp [hw] at h
  · rename_i mx my hw
    simp only [hw] at h ⊢
    split
    · rename_i hg
      simp [hg] at h
    · rename_i c hg
      exact ⟨_, rfl, ((setup_prefix_evolves env site mx my st).trans
        (evolves_callSetStart env site _ _ (by simp [Event.isSetup]))).trans
        (evolves_callSetGoal env site _ _ (by simp [Event.isSetup]))⟩

theorem setupSolver_true_log (env : Env σ) (site : Site) (start goal : PoseStamped) (tol : ℚ)
    (st : NavfnROS σ) (h : (setupSolver env site start goal tol st).1 = true) :
    ∃ evs, (setupSolver env site start goal tol st).2.log = st.log ++ evs ∧
      Event.solver site SolverOp.calcNavFnDijkstra ∈ evs ∧
      ∀ e ∈ evs, e.isSetup site = true := by
  obtain ⟨st5, h5, hev⟩ := setupSolver_true env site start goal tol st h
  obtain ⟨evs, hl, hp⟩ := hev.log
  refine ⟨evs ++ [Event.solver site SolverOp.calcNavFnDijkstra], ?_, by simp, ?_⟩
  · rw [h5]
    simp [callCalcNavFnDijkstra, record, hl]
  · intro e he
    rcases List.mem_append.mp he with h1 | h1
    · exact hp e h1
    · rw [List.mem_singleton] at h1
      rw [h1]
      simp [Event.isSetup]

/-- What `makePlanSubgoal` leaves: the configuration and the queue are
untouched, nothing is published on the queue topic, and the return value says
whether the plan is non-empty. -/
theorem makePlanSubgoal_spec (env : Env σ) (fuel : Nat) (start goal : PoseStamped) (tol : ℚ)
    (st : NavfnROS σ) (r : Outcome σ)
    (h : makePlanSubgoal env fuel start goal tol st = some r) :
    Evolves (fun e => e.isQueuePublish = false) st r.st ∧
      r.st.v_subgoals_ = st.v_subgoals_ ∧ r.ret = !r.plan.isEmpty := by
  unfold makePlanSubgoal at h
  have hev := (setupSolver_evolves env Site.makePlanSubgoal start goal tol st).mono
    (isSetup_not_queuePublish Site.makePlanSubgoal)
  have hq := setupSolver_v_subgoals_ env Site.makePlanSubgoal start goal tol st
  rcases hset : setupSolver env Site.makePlanSubgoal start goal tol st with ⟨b, st1⟩
  rw [hset] at h hev hq
  cases b
  · simp only [Option.some.injEq] at h
    subst h
    exact ⟨hev, hq, rfl⟩
  · simp only at h
    cases hs : toleranceSearch (getPointPotential env st1) goal tol
        st1.costmap_.getResolution fuel with
    | none => rw [hs] at h; simp at h
    | some s =>
      rw [hs] at h
      simp only [Option.some.injEq] at h
      subst h
      refine ⟨?_, ?_, rfl⟩
      · refine Evolves.trans ?_ (evolves_publishPotential _ (by simp [Event.isQueuePublish]))
        split
        · split
          · exact hev.trans (getPlanFromPotential_evolves env _ _ _)
          · exact hev.trans (getPlanFromPotential_evolves env _ _ _)
        · exact hev
      · rw [(publishPotential_fields _).2.2]
        split
        · split
          · exact (getPlanFromPotential_v_subgoals_ env _ _ _).trans hq
          · exact (getPlanFromPotential_v_subgoals_ env _ _ _).trans hq
        · exact hq

end Navfn

namespace Navfn

variable {σ : Type}


theorem plan_nil_of_ret_false {r : Outcome σ} (h : r.ret = !r.plan.isEmpty)
    (hf : r.ret = false) : r.plan = [] := by
  rw [hf] at h
  cases hp : r.plan with
  | nil => rfl
  | cons a t => rw [hp] at h; simp at h

end Navfn

namespace Navfn

variable {σ : Type}

/-! ## After the scan -/

/-- After the scan: the queue is not touched and only events of the
final leg are logged; a true return comes with a non-empty plan; and a false return
comes with the plan the scan left, which is returned early only on a frame
mismatch or a failed solver setup. -/
theorem planFinalGoal_spec (env : Env σ) (fuel : Nat) (start goal : PoseStamped) (tol : ℚ)
    (sc : Scan σ) (r : Outcome σ) (h : planFinalGoal env fuel start goal tol sc = some r) :
    Evolves (fun e => e.isFinalLeg = true) sc.st r.st ∧
      r.st.v_subgoals_ = sc.st.v_subgoals_ ∧
      (r.ret = true → r.plan ≠ []) ∧
      (r.ret = false → r.plan ≠ [] → r.plan = sc.plan ∧
        (env.resolve sc.st.tf_prefix_ goal.header.frame_id
            ≠ env.resolve sc.st.tf_prefix_ sc.st.global_frame_ ∨
          env.resolve sc.st.tf_prefix_ start.header.frame_id
            ≠ env.resolve sc.st.tf_prefix_ sc.st.global_frame_ ∨
          (setupSolver env Site.makePlan sc.substart goal tol sc.st).1 = false)) := by
  unfold planFinalGoal at h
  split at h
  · rename_i hg
    simp only [Option.some.injEq] at h
    subst h
    exact ⟨Evolves.refl _ _, rfl, by simp, fun _ _ => ⟨rfl, Or.inl hg⟩⟩
  · split at h
    · rename_i hs
      simp only [Option.some.injEq] at h
      subst h
      exact ⟨Evolves.refl _ _, rfl, by simp, fun _ _ => ⟨rfl, Or.inr (Or.inl hs)⟩⟩
    · have hev := (setupSolver_evolves env Site.makePlan sc.substart goal tol sc.st).mono
        isSetup_isFinalLeg
      have hq := setupSolver_v_subgoals_ env Site.makePlan sc.substart goal tol sc.st
      rcases hset : setupSolver env Site.makePlan sc.substart goal tol sc.st with ⟨b, st1⟩
      rw [hset] at h hev hq
      cases b
      · simp only [Option.some.injEq] at h
        subst h
        exact ⟨hev, hq, by simp, fun _ _ => ⟨rfl, Or.inr (Or.inr rfl)⟩⟩
      · simp only at h
        cases hs : toleranceSearch (getPointPotential env st1) goal tol
            st1.costmap_.getResolution fuel with
        | none => rw [hs] at h; simp at h
        | some s =>
          rw [hs] at h
          simp only at h
          split at h
          · simp only [Option.some.injEq] at h
            subst h
            refine ⟨?_, ?_, ?_, ?_⟩
            · refine Evolves.trans ?_ (evolves_publishPlan _ _ (by simp [Event.isFinalLeg]))
              refine Evolves.trans ?_
                (evolves_publishPotential _ (by simp [Event.isFinalLeg]))
              split
              · split
                · exact hev.trans (getPlanFromPotential_evolves_final env _ _ _)
                · exact hev.trans (getPlanFromPotential_evolves_final env _ _ _)
              · exact hev
            · have e1 : ∀ (p : List PoseStamped) (x : NavfnROS σ),
                  (publishPlan p x).v_subgoals_ = x.v_subgoals_ := by
                intro p x
                unfold publishPlan
                split <;> rfl
              rw [e1, (publishPotential_fields _).2.2]
              split
              · split
                · exact (getPlanFromPotential_v_subgoals_ env _ _ _).trans hq
                · exact (getPlanFromPotential_v_subgoals_ env _ _ _).trans hq
              · exact hq
            · intro hret hnil
              simp only at hret
              rw [hnil] at hret
              simp at hret
            · intro hret hne
              simp only at hret
              exfalso
              apply hne
              simp only
              generalize (if s.found_legal = true then
                  (let g := getPlanFromPotential env s.best_pose [] st1
                   if g.ret = true then
                    (⟨true, g.st, sc.plan ++ g.plan ++ [s.best_pose]⟩ : Outcome σ)
                   else ⟨false, g.st, sc.plan⟩)
                else ⟨false, st1, sc.plan⟩) = o at hret ⊢
              cases hp : o.plan with
              | nil => rfl
              | cons a t => rw [hp] at hret; simp at hret
          · simp only [Option.some.injEq] at h
            subst h
            refine ⟨hev, hq, ?_, ?_⟩
            · intro hret hnil
              simp only at hret hnil
              rw [hnil] at hret
              simp at hret
            · intro hret hne
              simp only at hret hne
              exfalso
              cases hp : sc.plan with
              | nil => exact hne hp
              | cons a t => rw [hp] at hret; simp at hret

end Navfn

namespace Navfn

variable {σ : Type}

/-- After a scan that stopped at a waypoint, the rest of `makePlan` keeps the
plan, logs only setup events of `makePlan`, and, when both frames match and the
solver setup goes through, runs the solve for the final goal. -/
theorem planFinalGoal_not_atEnd (env : Env σ) (fuel : Nat) (start goal : PoseStamped) (tol : ℚ)
    (sc : Scan σ) (r : Outcome σ) (h : planFinalGoal env fuel start goal tol sc = some r)
    (hend : sc.atEnd = false) :
    r.plan = sc.plan ∧ ∃ evs, r.st.log = sc.st.log ++ evs ∧
      (∀ e ∈ evs, e.isSetup Site.makePlan = true) ∧
      (env.resolve sc.st.tf_prefix_ goal.header.frame_id
          = env.resolve sc.st.tf_prefix_ sc.st.global_frame_ →
        env.resolve sc.st.tf_prefix_ start.header.frame_id
          = env.resolve sc.st.tf_prefix_ sc.st.global_frame_ →
        (setupSolver env Site.makePlan sc.substart goal tol sc.st).1 = true →
        Event.solver Site.makePlan SolverOp.calcNavFnDijkstra ∈ evs ∧
          r.ret = !sc.plan.isEmpty) := by
  unfold planFinalGoal at h
  split at h
  · rename_i hg
    simp only [Option.some.injEq] at h
    subst h
    exact ⟨rfl, [], by simp, by simp, fun hg2 => absurd hg2 hg⟩
  · split at h
    · rename_i hs
      simp only [Option.some.injEq] at h
      subst h
      exact ⟨rfl, [], by simp, by simp, fun _ hs2 => absurd hs2 hs⟩
    · have hev := setupSolver_evolves env Site.makePlan sc.substart goal tol sc.st
      have hlog := setupSolver_true_log env Site.makePlan sc.substart goal tol sc.st
      rcases hset : setupSolver env Site.makePlan sc.substart goal tol sc.st with ⟨b, st1⟩
      rw [hset] at h hev hlog
      cases b
      · simp only [Option.some.injEq] at h
        subst h
        obtain ⟨evs, hl, hp⟩ := hev.log
        exact ⟨rfl, evs, hl, hp, fun _ _ hf => by simp at hf⟩
      · simp only at h
        cases hs : toleranceSearch (getPointPotential env st1) goal tol
            st1.costmap_.getResolution fuel with
        | none => rw [hs] at h; simp at h
        | some s =>
          rw [hs] at h
          simp only [hend, Bool.false_eq_true, if_false, Option.some.injEq] at h
          subst h
          obtain ⟨evs, hl, hmem, hp⟩ := hlog rfl
          exact ⟨rfl, evs, hl, hp, fun _ _ _ => ⟨hmem, rfl⟩⟩

/-- With an initialized planner, `makePlan` is the scan followed by the rest. -/
theorem makePlan_eq (env : Env σ) (fuel : Nat) (start goal : PoseStamped) (tol : ℚ)
    (plan : List PoseStamped) (st : NavfnROS σ) (hinit : st.initialized_ = true)
    (sc : Scan σ) (hsc : scanSubgoals env fuel start goal st.v_subgoals_ st [] = some sc) :
    makePlan env fuel start goal tol plan st = planFinalGoal env fuel start goal tol sc := by
  unfold makePlan
  rw [if_neg (by simp [hinit]), hsc]

end Navfn

namespace Navfn

variable {σ : Type}

/-! ## C4: frame mismatch -/

/-- C4 on the code: on the 5 by 5 grid with the waypoint (2, 0) queued, a start
in frame `odom` (the global frame is `map`) makes `makePlan` return false only
after the leg to the waypoint has been planned, with the solver set up, solved
and traced, and a plan of four poses left in the output; and a goal in frame
`odom` makes it return false only after the solver has been set up and solved
for the waypoint, which is then erased from the queue. -/
theorem makePlan_frame_mismatch_runs_solver :
    (makePlan toyEnv 2 (stampedAt "odom" 0 0) toyGoal 0 [] (toyPlanner true [toyWaypoint])).map
      (fun r => (r.ret, r.plan.length, r.st.log.filter Event.isSolver)) = some (false, 4,
        [Event.solver Site.makePlanSubgoal (SolverOp.setNavArr 5 5),
         Event.solver Site.makePlanSubgoal SolverOp.setCostmap,
         Event.solver Site.makePlanSubgoal (SolverOp.setStart (2, 0)),
         Event.solver Site.makePlanSubgoal (SolverOp.setGoal (0, 0)),
         Event.solver Site.makePlanSubgoal SolverOp.calcNavFnDijkstra,
         Event.solver Site.getPlanFromPotential (SolverOp.setStart (2, 0)),
         Event.solver Site.getPlanFromPotential (SolverOp.calcPath 20)]) ∧
    (makePlan toyEnv 2 toyStart (stampedAt "odom" 4 4) 0 [] (toyPlanner true [toyWaypoint])).map
      (fun r => (r.ret, r.st.v_subgoals_, r.st.log.filter Event.isSolver)) = some (false, [],
        [Event.solver Site.makePlanSubgoal (SolverOp.setNavArr 5 5),
         Event.solver Site.makePlanSubgoal SolverOp.setCostmap,
         Event.solver Site.makePlanSubgoal (SolverOp.setStart (2, 0)),
         Event.solver Site.makePlanSubgoal (SolverOp.setGoal (0, 0)),
         Event.solver Site.makePlanSubgoal SolverOp.calcNavFnDijkstra]) := by
  constructor <;> decide!


end Navfn

namespace Navfn

variable {σ : Type}

/-! ## C10: the plan of a final-goal leg -/

theorem getElem?_reverse_range_map {α : Type} (f : Nat → α) (n i : Nat) (h : i < n) :
    ((List.range n).reverse.map f)[i]? = some (f (n - 1 - i)) := by
  rw [List.getElem?_map, List.getElem?_reverse (by simpa using h)]
  simp only [List.length_range]
  rw [List.getElem?_range (by omega)]
  rfl

theorem tracePoses_length (env : Env σ) (st : NavfnROS σ) :
    (tracePoses env st).length = (env.solver.getPathLen st.planner_).toNat := by
  simp [tracePoses]

/-- C10: for a final-goal leg with an empty queue whose solver setup goes
through and whose tolerance search finds a legal pose, where the solver trace
has `n` entries `c_0 .. c_(n-1)`: for `n >= 1` the plan has exactly `n + 1`
poses, pose `i < n` being `origin + c_(n-1-i) * resolution` in the global frame
with height 0 and identity orientation, and the last pose being the resolved
goal pose `best_pose` itself; for `n = 0` the plan is empty. The return value
is true exactly when `n >= 1`. -/
theorem makePlan_final_leg_plan (env : Env σ) (fuel : Nat) (start goal : PoseStamped)
    (tol : ℚ) (plan : List PoseStamped) (st st1 : NavfnROS σ) (s : Search) (g : Outcome σ)
    (n : Nat)
    (hinit : st.initialized_ = true) (hq : st.v_subgoals_ = [])
    (hres : 0 < st.costmap_.getResolution)
    (hfuel : searchFuel tol st.costmap_.getResolution ≤ fuel)
    (hgf : env.resolve st.tf_prefix_ goal.header.frame_id
      = env.resolve st.tf_prefix_ st.global_frame_)
    (hsf : env.resolve st.tf_prefix_ start.header.frame_id
      = env.resolve st.tf_prefix_ st.global_frame_)
    (hsetup : setupSolver env Site.makePlan start goal tol st = (true, st1))
    (hsearch : toleranceSearch (getPointPotential env st1) goal tol
      st1.costmap_.getResolution fuel = some s)
    (hfound : s.found_legal = true)
    (hg : g = getPlanFromPotential env s.best_pose [] st1)
    (hn : n = (env.solver.getPathLen g.st.planner_).toNat) :
    ∃ r cell, makePlan env fuel start goal tol plan st = some r ∧
      st.costmap_.worldToMap s.best_pose.pose.position.x s.best_pose.pose.position.y
        = some cell ∧
      g.st.planner_ = env.solver.calcPath ((st.costmap_.getSizeInCellsX * 4) % 2 ^ 32)
        (env.solver.setStart cell st1.planner_) ∧
      r.ret = decide (1 ≤ n) ∧
      (n = 0 → r.plan = []) ∧
      (1 ≤ n → r.plan.length = n + 1 ∧
        (∀ i, i < n → r.plan[i]? = some
          ⟨⟨st.global_frame_⟩,
            ⟨⟨st.costmap_.getOriginX
                + env.solver.getPathX g.st.planner_ (n - 1 - i) * st.costmap_.getResolution,
              st.costmap_.getOriginY
                + env.solver.getPathY g.st.planner_ (n - 1 - i) * st.costmap_.getResolution,
              0⟩, ⟨0, 0, 0, 1⟩⟩⟩) ∧
        r.plan[n]? = some s.best_pose) := by
  have hev : Evolves (fun e => e.isSetup Site.makePlan = true) st st1 := by
    have := setupSolver_evolves env Site.makePlan start goal tol st
    rw [hsetup] at this
    exact this
  have hr1 : st1.costmap_.getResolution = st.costmap_.getResolution := hev.getResolution
  obtain ⟨hpot, hhead⟩ := toleranceSearch_found _ goal tol st1.costmap_.getResolution
    (by rw [hr1]; exact hres) fuel (by rw [hr1]; exact hfuel) s hsearch hfound
  have hinit1 : st1.initialized_ = true := hev.initialized_.trans hinit
  obtain ⟨cell, hcell⟩ := getPointPotential_lt env st1 _ hinit1 hpot
  have hframe1 : env.resolve st1.tf_prefix_ s.best_pose.header.frame_id
      = env.resolve st1.tf_prefix_ st1.global_frame_ := by
    rw [hhead, hev.tf_prefix_, hev.global_frame_]
    exact hgf
  have hgeq := getPlanFromPotential_eq env s.best_pose [] st1 hinit1 hframe1 cell hcell
  rw [← hg] at hgeq
  have hsc : scanSubgoals env fuel start goal st.v_subgoals_ st [] = some ⟨st, [], start, true⟩ := by
    rw [hq]
    rfl
  have hplanner : g.st.planner_ = env.solver.calcPath ((st.costmap_.getSizeInCellsX * 4) % 2 ^ 32)
      (env.solver.setStart cell st1.planner_) := by
    rw [hgeq, (publishPlan_fields _ _).1, ← hev.getSizeInCellsX]
    rfl
  have hgplan : g.plan = tracePoses env g.st := by
    rw [hgeq]
    exact (tracePoses_congr env _ _ (publishPlan_fields _ _).1 (publishPlan_fields _ _).2
      (evolves_publishPlan (P := fun _ => True) _ _ trivial).global_frame_).symm
  have hglen : g.plan.length = n := by
    rw [hgplan, tracePoses_length, hn]
  have hgret : g.ret = !g.plan.isEmpty := by
    rw [hgeq]
  have hmk : makePlan env fuel start goal tol plan st = some
      ⟨!(if g.ret = true then g.plan ++ [s.best_pose] else []).isEmpty,
        publishPlan (if g.ret = true then g.plan ++ [s.best_pose] else [])
          (publishPotential g.st),
        if g.ret = true then g.plan ++ [s.best_pose] else []⟩ := by
    rw [makePlan_eq env fuel start goal tol plan st hinit _ hsc]
    unfold planFinalGoal
    simp only [hgf, hsf, ne_eq, not_true_eq_false, if_false, hsetup, hsearch, if_true, hfound,
      ← hg, List.nil_append]
    by_cases hgr : g.ret = true
    · simp [hgr]
    · simp [hgr]
  refine ⟨_, cell, hmk, ?_, hplanner, ?_, ?_, ?_⟩
  · rw [← hev.worldToMap]
    exact hcell
  · by_cases h1 : 1 ≤ n
    · have hne : g.plan ≠ [] := by
        intro h0
        rw [h0] at hglen
        simp at hglen
        omega
      have hgr : g.ret = true := by
        rw [hgret]
        cases hp : g.plan with
        | nil => exact absurd hp hne
        | cons a t => rfl
      simp [hgr, h1]
    · have h0 : g.plan = [] := by
        apply List.eq_nil_of_length_eq_zero
        omega
      have hgr : g.ret = false := by
        rw [hgret, h0]
        rfl
      simp [hgr, h1]
  · intro h0
    have h0p : g.plan = [] := by
      apply List.eq_nil_of_length_eq_zero
      omega
    have hgr : g.ret = false := by
      rw [hgret, h0p]
      rfl
    simp [hgr]
  · intro h1
    have hne : g.plan ≠ [] := by
      intro h0
      rw [h0] at hglen
      simp at hglen
      omega
    have hgr : g.ret = true := by
      rw [hgret]
      cases hp : g.plan with
      | nil => exact absurd hp hne
      | cons a t => rfl
    simp only [hgr, if_true]
    refine ⟨by simp [hglen], ?_, ?_⟩
    · intro i hi
      rw [List.getElem?_append_left (by omega), hgplan]
      unfold tracePoses
      rw [← hn, getElem?_reverse_range_map _ n i hi]
      have hc : g.st.costmap_ = st1.costmap_ := by
        rw [hgeq, (publishPlan_fields _ _).2]
        rfl
      have hgf2 : g.st.global_frame_ = st.global_frame_ :=
        ((getPlanFromPotential_evolves env s.best_pose [] st1).global_frame_.trans
          hev.global_frame_) |> fun h => by rw [hg]; exact h
      simp only [pathPose, mapToWorld, hc, hgf2, hev.getOriginX, hev.getOriginY,
        hev.getResolution]
    · rw [List.getElem?_append_right (by omega), hglen]
      simp

end Navfn

namespace Navfn

/-- C10 on the 5 by 5 grid: the final leg from (0, 0) to (4, 4) with
tolerance 1 and an empty queue; the trace has 9 entries and the plan 10
poses. -/
theorem makePlan_final_leg_plan_witness :
    ∃ r cell, makePlan toyEnv 4 toyStart toyGoal 1 [] (toyPlanner true []) = some r ∧
      (toyPlanner true []).costmap_.worldToMap toyGoal.pose.position.x toyGoal.pose.position.y
        = some cell ∧
      (getPlanFromPotential toyEnv toyGoal [] toySolved).st.planner_
        = toyEnv.solver.calcPath (((toyPlanner true []).costmap_.getSizeInCellsX * 4) % 2 ^ 32)
          (toyEnv.solver.setStart cell toySolved.planner_) ∧
      r.ret = decide (1 ≤ 9) ∧
      (9 = 0 → r.plan = []) ∧
      (1 ≤ 9 → r.plan.length = 9 + 1 ∧
        (∀ i, i < 9 → r.plan[i]? = some
          ⟨⟨(toyPlanner true []).global_frame_⟩,
            ⟨⟨(toyPlanner true []).costmap_.getOriginX
                + toyEnv.solver.getPathX (getPlanFromPotential toyEnv toyGoal [] toySolved).st.planner_
                    (9 - 1 - i) * (toyPlanner true []).costmap_.getResolution,
              (toyPlanner true []).costmap_.getOriginY
                + toyEnv.solver.getPathY (getPlanFromPotential toyEnv toyGoal [] toySolved).st.planner_
                    (9 - 1 - i) * (toyPlanner true []).costmap_.getResolution,
              0⟩, ⟨0, 0, 0, 1⟩⟩⟩) ∧
        r.plan[9]? = some toyGoal) :=
  makePlan_final_leg_plan toyEnv 4 toyStart toyGoal 1 [] (toyPlanner true []) toySolved
    ⟨true, 0, toyGoal⟩ (getPlanFromPotential toyEnv toyGoal [] toySolved) 9
    rfl rfl (by decide!) (by decide!) (by decide!) (by decide!)
    (Prod.ext (by decide!) rfl) (by decide!) rfl rfl (by decide!)

end Navfn

namespace Navfn

variable {σ : Type}

/-! ## States that agree -/

theorem AgreeBefore.same (start : PoseStamped) (a : NavfnROS σ) : AgreeBefore start a a :=
  ⟨rfl, rfl, rfl, rfl, rfl, rfl, rfl, rfl, rfl, fun _ _ _ => rfl⟩

theorem AgreeBefore.chain {start : PoseStamped} {a b c : NavfnROS σ}
    (h1 : AgreeBefore start a b) (h2 : AgreeBefore start b c) : AgreeBefore start a c :=
  ⟨h2.initialized_.trans h1.initialized_, h2.global_frame_.trans h1.global_frame_,
    h2.tf_prefix_.trans h1.tf_prefix_, h2.allow_unknown_.trans h1.allow_unknown_,
    h2.visualize_potential_.trans h1.visualize_potential_,
    h2.default_tolerance_.trans h1.default_tolerance_,
    h2.subgoal_tolerance_.trans h1.subgoal_tolerance_,
    h2.getResolution.trans h1.getResolution, h2.worldToMap.trans h1.worldToMap,
    fun mx my hw => (h2.cleared mx my (by rw [h1.worldToMap]; exact hw)).trans
      (h1.cleared mx my hw)⟩

theorem setCost_setCost (c : Costmap2D) (mx my v : Nat) :
    (c.setCost mx my v).setCost mx my v = c.setCost mx my v := by
  simp [Costmap2D.setCost]

theorem Agree.eq {a b : NavfnROS σ} (h : Agree a b) :
    b = { a with v_subgoals_ := b.v_subgoals_, log := b.log, looks := b.looks } := by
  obtain ⟨a1, a2, a3, a4, a5, a6, a7, a8, a9, a10, a11, a12⟩ := a
  obtain ⟨b1, b2, b3, b4, b5, b6, b7, b8, b9, b10, b11, b12⟩ := b
  obtain ⟨h1, h2, h3, h4, h5, h6, h7, h8, h9⟩ := h
  simp only at h1 h2 h3 h4 h5 h6 h7 h8 h9
  subst h1 h2 h3 h4 h5 h6 h7 h8 h9
  rfl

theorem getPointPotential_agree (env : Env σ) {a b : NavfnROS σ} (h : Agree a b) :
    getPointPotential env b = getPointPotential env a := by
  rw [h.eq]
  rfl

theorem getPlanFromPotential_agree (env : Env σ) (goal : PoseStamped)
    (plan : List PoseStamped) {a b : NavfnROS σ} (h : Agree a b) :
    (getPlanFromPotential env goal plan b).ret = (getPlanFromPotential env goal plan a).ret ∧
    (getPlanFromPotential env goal plan b).plan = (getPlanFromPotential env goal plan a).plan := by
  by_cases hi : a.initialized_ = true
  · by_cases hf : env.resolve a.tf_prefix_ goal.header.frame_id
        = env.resolve a.tf_prefix_ a.global_frame_
    · cases hw : a.costmap_.worldToMap goal.pose.position.x goal.pose.position.y with
      | none =>
        simp [getPlanFromPotential, hi, hf, hw, h.initialized_, h.tf_prefix_, h.global_frame_,
          h.costmap_]
      | some c =>
        rw [getPlanFromPotential_eq env goal plan a hi hf c hw,
          getPlanFromPotential_eq env goal plan b (h.initialized_.trans hi)
            (by rw [h.tf_prefix_, h.global_frame_]; exact hf) c (by rw [h.costmap_]; exact hw)]
        have ht : tracePoses env (callCalcPath env Site.getPlanFromPotential
              ((b.costmap_.getSizeInCellsX * 4) % 2 ^ 32)
              (callSetStart env Site.getPlanFromPotential c b))
            = tracePoses env (callCalcPath env Site.getPlanFromPotential
              ((a.costmap_.getSizeInCellsX * 4) % 2 ^ 32)
              (callSetStart env Site.getPlanFromPotential c a)) := by
          apply tracePoses_congr
          · simp [callCalcPath, callSetStart, record, h.planner_, h.costmap_]
          · simp [callCalcPath, callSetStart, record, h.costmap_]
          · simp [callCalcPath, callSetStart, record, h.global_frame_]
        exact ⟨congrArg (fun l => !l.isEmpty) ht, ht⟩
    · simp [getPlanFromPotential, hi, hf, h.initialized_, h.tf_prefix_, h.global_frame_]
  · have hi2 : a.initialized_ = false := by simpa using hi
    simp [getPlanFromPotential, hi2, h.initialized_]

/-- With a solver that is a function of its inputs, the solver setup from two
states that agree before it has the same flag and, when it goes through,
leaves states that agree. -/
theorem setupSolver_agree (env : Env σ) (hsol : SolverIsFunction env.solver) (s1 s2 : Site)
    (start goal : PoseStamped) (tol : ℚ) (a b : NavfnROS σ) (hinit : a.initialized_ = true)
    (h : AgreeBefore start a b) :
    (setupSolver env s2 start goal tol b).1 = (setupSolver env s1 start goal tol a).1 ∧
      ((setupSolver env s1 start goal tol a).1 = true →
        Agree (setupSolver env s1 start goal tol a).2 (setupSolver env s2 start goal tol b).2) := by
  have hfa := setupSolver_fst env s1 start goal tol a
  have hfb := setupSolver_fst env s2 start goal tol b
  rw [h.worldToMap, goalCell_congr a b h.worldToMap] at hfb
  refine ⟨hfb.trans hfa.symm, fun htrue => ?_⟩
  rw [hfa] at htrue
  simp only [Bool.and_eq_true, Option.isSome_iff_exists] at htrue
  obtain ⟨⟨⟨mx, my⟩, hw⟩, ⟨c, hc⟩⟩ := htrue
  have hwb : b.costmap_.worldToMap start.pose.position.x start.pose.position.y = some (mx, my) := by
    rw [h.worldToMap]
    exact hw
  have hinitb : b.initialized_ = true := h.initialized_.trans hinit
  have hclr := h.cleared mx my hw
  have hga : goalCell (callSetCostmap env s1 (callSetNavArr env s1 (clearRobotCell mx my a)))
      goal tol = some c :=
    (goalCell_congr a _ (setup_prefix_evolves env s1 mx my a).worldToMap goal tol).trans hc
  have hgb : goalCell (callSetCostmap env s2 (callSetNavArr env s2 (clearRobotCell mx my b)))
      goal tol = some c :=
    ((goalCell_congr b _ (setup_prefix_evolves env s2 mx my b).worldToMap goal tol).trans
      (goalCell_congr a b h.worldToMap goal tol)).trans hc
  have ea : setupSolver env s1 start goal tol a = (true, callCalcNavFnDijkstra env s1
      (callSetGoal env s1 (mx, my) (callSetStart env s1 c
        (callSetCostmap env s1 (callSetNavArr env s1 (clearRobotCell mx my a)))))) := by
    unfold setupSolver
    rw [hw]
    simp only
    rw [hga]
  have eb : setupSolver env s2 start goal tol b = (true, callCalcNavFnDijkstra env s2
      (callSetGoal env s2 (mx, my) (callSetStart env s2 c
        (callSetCostmap env s2 (callSetNavArr env s2 (clearRobotCell mx my b)))))) := by
    unfold setupSolver
    rw [hwb]
    simp only
    rw [hgb]
  rw [ea, eb]
  simp only [callCalcNavFnDijkstra, callSetGoal, callSetStart, callSetCostmap, callSetNavArr,
    clearRobotCell, record, hinit, hinitb, Bool.true_eq_false, if_false]
  refine ⟨rfl, h.global_frame_, h.tf_prefix_, h.allow_unknown_,
    h.visualize_potential_, h.default_tolerance_, h.subgoal_tolerance_, hclr, ?_⟩
  simp only
  rw [hclr, h.allow_unknown_]
  exact hsol _ _ _ _ _ _ _ _

end Navfn

namespace Navfn

variable {σ : Type}

theorem setupSolver_costmap (env : Env σ) (site : Site) (start goal : PoseStamped) (tol : ℚ)
    (a : NavfnROS σ) :
    (setupSolver env site start goal tol a).2.costmap_ = a.costmap_ ∨
      ∃ mx my, a.costmap_.worldToMap start.pose.position.x start.pose.position.y
          = some (mx, my) ∧
        (setupSolver env site start goal tol a).2.costmap_
          = a.costmap_.setCost mx my FREE_SPACE := by
  unfold setupSolver
  split
  · exact Or.inl rfl
  · rename_i mx my hw
    simp only
    by_cases hi : a.initialized_ = false
    · left
      split <;> simp [callCalcNavFnDijkstra, callSetGoal, callSetStart, callSetCostmap,
        callSetNavArr, clearRobotCell, record, hi]
    · right
      refine ⟨mx, my, by assumption, ?_⟩
      split <;> simp [callCalcNavFnDijkstra, callSetGoal, callSetStart, callSetCostmap,
        callSetNavArr, clearRobotCell, record, hi]

theorem getPlanFromPotential_costmap (env : Env σ) (goal : PoseStamped)
    (plan : List PoseStamped) (st : NavfnROS σ) :
    (getPlanFromPotential env goal plan st).st.costmap_ = st.costmap_ := by
  unfold getPlanFromPotential
  split
  · rfl
  · split
    · rfl
    · split
      · rfl
      · simp only
        rw [(publishPlan_fields _ _).2]
        rfl

theorem makePlanSubgoal_costmap (env : Env σ) (fuel : Nat) (start goal : PoseStamped) (tol : ℚ)
    (a : NavfnROS σ) (r : Outcome σ) (h : makePlanSubgoal env fuel start goal tol a = some r) :
    r.st.costmap_ = (setupSolver env Site.makePlanSubgoal start goal tol a).2.costmap_ := by
  unfold makePlanSubgoal at h
  rcases hset : setupSolver env Site.makePlanSubgoal start goal tol a with ⟨b, st1⟩
  rw [hset] at h
  cases b
  · simp only [Option.some.injEq] at h
    subst h
    rfl
  · simp only at h
    cases hs : toleranceSearch (getPointPotential env st1) goal tol
        st1.costmap_.getResolution fuel with
    | none => rw [hs] at h; simp at h
    | some s =>
      rw [hs] at h
      simp only [Option.some.injEq] at h
      subst h
      simp only
      rw [(publishPotential_fields _).2.1]
      split
      · split
        · exact getPlanFromPotential_costmap env _ _ _
        · exact getPlanFromPotential_costmap env _ _ _
      · rfl

/-- A leg plan leaves a state that agrees with the one it started from, up to
the solver state and the cleared cell of the start. -/
theorem makePlanSubgoal_agreeBefore (env : Env σ) (fuel : Nat) (start goal : PoseStamped)
    (tol : ℚ) (a : NavfnROS σ) (r : Outcome σ)
    (h : makePlanSubgoal env fuel start goal tol a = some r) : AgreeBefore start a r.st := by
  obtain ⟨hev, _, _⟩ := makePlanSubgoal_spec env fuel start goal tol a r h
  refine ⟨hev.initialized_, hev.global_frame_, hev.tf_prefix_, hev.allow_unknown_,
    hev.visualize_potential_, hev.default_tolerance_, hev.subgoal_tolerance_,
    hev.getResolution, hev.worldToMap, ?_⟩
  intro mx my hw
  rw [makePlanSubgoal_costmap env fuel start goal tol a r h]
  rcases setupSolver_costmap env Site.makePlanSubgoal start goal tol a with hc | ⟨mx1, my1, hw1, hc⟩
  · rw [hc]
  · rw [hc]
    rw [hw] at hw1
    simp only [Option.some.injEq, Prod.mk.injEq] at hw1
    obtain ⟨rfl, rfl⟩ := hw1
    exact setCost_setCost _ _ _ _

end Navfn

namespace Navfn

variable {σ : Type}


theorem toyNavFn_isFunction : SolverIsFunction toyNavFn := by
  intro s1 s2 nx ny cm au a b
  rfl

end Navfn

namespace Navfn

variable {σ : Type}

/-! ## C13: a start off the grid -/

theorem setupSolver_off_grid (env : Env σ) (site : Site) (start goal : PoseStamped) (tol : ℚ)
    (st : NavfnROS σ)
    (hoff : st.costmap_.worldToMap start.pose.position.x start.pose.position.y = none) :
    setupSolver env site start goal tol st = (false, st) := by
  unfold setupSolver
  rw [hoff]

theorem makePlanSubgoal_off_grid (env : Env σ) (fuel : Nat) (start goal : PoseStamped)
    (tol : ℚ) (st : NavfnROS σ)
    (hoff : st.costmap_.worldToMap start.pose.position.x start.pose.position.y = none) :
    makePlanSubgoal env fuel start goal tol st = some ⟨false, st, []⟩ := by
  unfold makePlanSubgoal
  rw [setupSolver_off_grid env _ start goal tol st hoff]

theorem evolves_look (P : Event → Prop) (l : Look) (st : NavfnROS σ) :
    Evolves P st (look l st) :=
  ⟨rfl, rfl, rfl, rfl, rfl, rfl, rfl, rfl, rfl, rfl, rfl, rfl, rfl, [], by simp [look], by simp⟩

theorem evolves_erase_publish (x : NavfnROS σ) (rest : List Pose) :
    Evolves (fun e => e.isQueuePublish = true) x (eraseFront rest x) :=
  (evolves_queue _ x rest).trans (evolves_publishSubgoals _ (by simp [Event.isQueuePublish]))

/-- With the start off the grid the scan erases every waypoint, whatever the
fuel: those within the tolerance as reached, the others because their leg plan
returns false at once; it logs one publication of the queue per waypoint and
nothing else. -/
theorem scan_off_grid (env : Env σ) (fuel : Nat) (start goal : PoseStamped) :
    ∀ (q : List Pose) (st : NavfnROS σ),
      st.costmap_.worldToMap start.pose.position.x start.pose.position.y = none →
      st.v_subgoals_ = q →
      ∃ sc, scanSubgoals env fuel start goal q st [] = some sc ∧ sc.atEnd = true ∧
        sc.plan = [] ∧ sc.substart = start ∧ sc.st.v_subgoals_ = [] ∧
        Evolves (fun e => e.isQueuePublish = true) st sc.st ∧
        sc.st.log.length = st.log.length + q.length := by
  intro q
  induction q with
  | nil =>
    intro st _ hq
    exact ⟨⟨st, [], start, true⟩, rfl, rfl, rfl, rfl, hq, Evolves.refl _ st, rfl⟩
  | cons w rest ih =>
    intro st hoff hq
    by_cases hw : withinSubgoalTolerance env w start.pose.position.x start.pose.position.y
        st.subgoal_tolerance_ = true
    · obtain ⟨sc, hsc, hend, hplan, hsub, hqe, hev, hlen⟩ :=
        ih (eraseFront rest (look (Look.test w) st)) hoff rfl
      have hlen2 : sc.st.log.length = st.log.length + (w :: rest).length := by
        rw [hlen]
        simp [eraseFront, publishSubgoals, record, look]
        omega
      refine ⟨sc, ?_, hend, hplan, hsub, hqe,
        ((evolves_look _ _ st).trans (evolves_erase_publish _ rest)).trans hev, hlen2⟩
      rw [scanSubgoals, if_pos hw]
      exact hsc
    · obtain ⟨sc, hsc, hend, hplan, hsub, hqe, hev, hlen⟩ :=
        ih (eraseFront rest (look (Look.leg w) (look (Look.test w) st))) hoff rfl
      have hlen2 : sc.st.log.length = st.log.length + (w :: rest).length := by
        rw [hlen]
        simp [eraseFront, publishSubgoals, record, look]
        omega
      refine ⟨sc, ?_, hend, hplan, hsub, hqe,
        (((evolves_look _ _ st).trans (evolves_look _ _ _)).trans
          (evolves_erase_publish _ rest)).trans hev, hlen2⟩
      rw [scanSubgoals, if_neg hw,
        makePlanSubgoal_off_grid env fuel start _ 0 (look (Look.leg w) (look (Look.test w) st))
          hoff]
      exact hsc

/-- C13: on an initialized planner whose start is off the grid (`worldToMap`
fails on it), for every queue, every tolerance and every fuel, `makePlan`
returns false with an empty plan and an empty queue; during the call one
publication of the queue per waypoint of the entry queue is logged and nothing
else, so no solver operation runs. -/
theorem makePlan_start_off_grid (env : Env σ) (fuel : Nat) (start goal : PoseStamped) (tol : ℚ)
    (plan : List PoseStamped) (st : NavfnROS σ) (hinit : st.initialized_ = true)
    (hoff : st.costmap_.worldToMap start.pose.position.x start.pose.position.y = none) :
    ∃ r evs, makePlan env fuel start goal tol plan st = some r ∧
      r.ret = false ∧ r.plan = [] ∧ r.st.v_subgoals_ = [] ∧
      r.st.log = st.log ++ evs ∧ evs.length = st.v_subgoals_.length ∧
      ∀ e ∈ evs, e.isQueuePublish = true := by
  obtain ⟨sc, hsc, hend, hplan, hsub, hqe, hev, hlen⟩ :=
    scan_off_grid env fuel start goal st.v_subgoals_ st hoff rfl
  obtain ⟨evs, hl, hp⟩ := hev.log
  have hoff2 : sc.st.costmap_.worldToMap sc.substart.pose.position.x
      sc.substart.pose.position.y = none := by
    rw [hsub, hev.worldToMap]
    exact hoff
  have hfin : ∃ b, planFinalGoal env fuel start goal tol sc = some ⟨b, sc.st, sc.plan⟩ ∧
      b = false := by
    unfold planFinalGoal
    split
    · exact ⟨false, rfl, rfl⟩
    · split
      · exact ⟨false, rfl, rfl⟩
      · rw [setupSolver_off_grid env _ sc.substart goal tol sc.st hoff2]
        exact ⟨false, rfl, rfl⟩
  obtain ⟨b, hb, rfl⟩ := hfin
  refine ⟨⟨false, sc.st, sc.plan⟩, evs, ?_, rfl, hplan, hqe, hl, ?_, hp⟩
  · rw [makePlan_eq env fuel start goal tol plan st hinit sc hsc]
    exact hb
  · have := hlen
    rw [hl, List.length_append] at this
    omega

/-- C13 on the 5 by 5 grid: a start at (9, 9), a queue of two waypoints, and
no fuel at all. -/
theorem makePlan_start_off_grid_witness :
    ∃ r evs, makePlan toyEnv 0 toyOffStart toyGoal 0 [] (toyPlanner true toyOffQueue) = some r ∧
      r.ret = false ∧ r.plan = [] ∧ r.st.v_subgoals_ = [] ∧
      r.st.log = (toyPlanner true toyOffQueue).log ++ evs ∧
      evs.length = (toyPlanner true toyOffQueue).v_subgoals_.length ∧
      ∀ e ∈ evs, e.isQueuePublish = true :=
  makePlan_start_off_grid toyEnv 0 toyOffStart toyGoal 0 [] (toyPlanner true toyOffQueue) rfl
    (by decide!)

end Navfn

namespace Navfn

variable {σ : Type}

/-! ## C12: the solver setup of a leg -/

theorem goalCell_eq_none (st : NavfnROS σ) (goal : PoseStamped) (tol : ℚ)
    (hg : st.costmap_.worldToMap goal.pose.position.x goal.pose.position.y = none)
    (htol : tol ≤ 0) : goalCell st goal tol = none := by
  unfold goalCell
  rw [hg]
  simp [htol]

theorem goalCell_eq_some (st : NavfnROS σ) (goal : PoseStamped) (tol : ℚ) (c : Nat × Nat)
    (hc : st.costmap_.worldToMap goal.pose.position.x goal.pose.position.y = some c ∨
      (st.costmap_.worldToMap goal.pose.position.x goal.pose.position.y = none ∧ 0 < tol
        ∧ c = (0, 0))) :
    goalCell st goal tol = some c := by
  unfold goalCell
  rcases hc with h | ⟨h, htol, rfl⟩
  · rw [h]
  · rw [h]
    simp [not_le.mpr htol]

/-- The solver setup of a leg whose start has the cell `s`, when the goal has
no cell and no placeholder: it stops after `setCostmap`. -/
theorem setupSolver_goal_none (env : Env σ) (site : Site) (start goal : PoseStamped) (tol : ℚ)
    (st : NavfnROS σ) (s : Nat × Nat)
    (hs : st.costmap_.worldToMap start.pose.position.x start.pose.position.y = some s)
    (hg : goalCell st goal tol = none) :
    setupSolver env site start goal tol st = (false, setupPrefix env site s st) := by
  obtain ⟨mx, my⟩ := s
  have hg2 : goalCell (callSetCostmap env site (callSetNavArr env site (clearRobotCell mx my st)))
      goal tol = none :=
    (goalCell_congr st _ (setup_prefix_evolves env site mx my st).worldToMap goal tol).trans hg
  unfold setupSolver
  rw [hs]
  simp only
  rw [hg2]
  rfl

/-- The solver setup of a leg whose start has the cell `s`, when the goal has
the cell or placeholder `c`: after `setCostmap` come `setStart c`, `setGoal s`
and the solve. -/
theorem setupSolver_goal_some (env : Env σ) (site : Site) (start goal : PoseStamped) (tol : ℚ)
    (st : NavfnROS σ) (s c : Nat × Nat)
    (hs : st.costmap_.worldToMap start.pose.position.x start.pose.position.y = some s)
    (hg : goalCell st goal tol = some c) :
    setupSolver env site start goal tol st = (true, callCalcNavFnDijkstra env site
      (callSetGoal env site s (callSetStart env site c (setupPrefix env site s st)))) := by
  obtain ⟨mx, my⟩ := s
  have hg2 : goalCell (callSetCostmap env site (callSetNavArr env site (clearRobotCell mx my st)))
      goal tol = some c :=
    (goalCell_congr st _ (setup_prefix_evolves env site mx my st).worldToMap goal tol).trans hg
  unfold setupSolver
  rw [hs]
  simp only
  rw [hg2]
  rfl

/-- What a leg plan does after a solver setup that went through only appends
to the log. -/
theorem makePlanSubgoal_after_setup (env : Env σ) (fuel : Nat) (start goal : PoseStamped)
    (tol : ℚ) (st st1 : NavfnROS σ) (r : Outcome σ)
    (hset : setupSolver env Site.makePlanSubgoal start goal tol st = (true, st1))
    (h : makePlanSubgoal env fuel start goal tol st = some r) :
    ∃ evs, r.st.log = st1.log ++ evs := by
  unfold makePlanSubgoal at h
  rw [hset] at h
  simp only at h
  cases hs : toleranceSearch (getPointPotential env st1) goal tol
      st1.costmap_.getResolution fuel with
  | none => rw [hs] at h; simp at h
  | some s =>
    rw [hs] at h
    simp only [Option.some.injEq] at h
    subst h
    have hev : Evolves (fun _ => True) st1
        (publishPotential (if s.found_legal = true then
          (let g := getPlanFromPotential env s.best_pose [] st1
           if g.ret = true then (⟨true, g.st, g.plan ++ [s.best_pose]⟩ : Outcome σ) else g)
          else ⟨false, st1, []⟩).st) := by
      refine Evolves.trans ?_ (evolves_publishPotential _ trivial)
      split
      · simp only
        split
        · exact (getPlanFromPotential_evolves env _ _ _).mono (fun _ _ => trivial)
        · exact (getPlanFromPotential_evolves env _ _ _).mono (fun _ _ => trivial)
      · exact Evolves.refl _ st1
    obtain ⟨evs, hl, _⟩ := hev.log
    exact ⟨evs, hl⟩

/-- What the final leg does after a solver setup that went through only
appends to the log. -/
theorem planFinalGoal_after_setup (env : Env σ) (fuel : Nat) (start goal : PoseStamped)
    (tol : ℚ) (sc : Scan σ) (st1 : NavfnROS σ) (r : Outcome σ)
    (hgf : env.resolve sc.st.tf_prefix_ goal.header.frame_id
      = env.resolve sc.st.tf_prefix_ sc.st.global_frame_)
    (hsf : env.resolve sc.st.tf_prefix_ start.header.frame_id
      = env.resolve sc.st.tf_prefix_ sc.st.global_frame_)
    (hset : setupSolver env Site.makePlan sc.substart goal tol sc.st = (true, st1))
    (h : planFinalGoal env fuel start goal tol sc = some r) :
    ∃ evs, r.st.log = st1.log ++ evs := by
  unfold planFinalGoal at h
  simp only [hgf, hsf, ne_eq, not_true_eq_false, if_false, hset] at h
  cases hs : toleranceSearch (getPointPotential env st1) goal tol
      st1.costmap_.getResolution fuel with
  | none => rw [hs] at h; simp at h
  | some s =>
    rw [hs] at h
    simp only at h
    split at h
    · simp only [Option.some.injEq] at h
      subst h
      have hev : Evolves (fun _ => True) st1
          (publishPlan (if s.found_legal = true then
              (let g := getPlanFromPotential env s.best_pose [] st1
               if g.ret = true then
                (⟨true, g.st, sc.plan ++ g.plan ++ [s.best_pose]⟩ : Outcome σ)
               else ⟨false, g.st, sc.plan⟩)
              else ⟨false, st1, sc.plan⟩).plan
            (publishPotential (if s.found_legal = true then
              (let g := getPlanFromPotential env s.best_pose [] st1
               if g.ret = true then
                (⟨true, g.st, sc.plan ++ g.plan ++ [s.best_pose]⟩ : Outcome σ)
               else ⟨false, g.st, sc.plan⟩)
              else ⟨false, st1, sc.plan⟩).st)) := by
        refine Evolves.trans ?_ (evolves_publishPlan _ _ trivial)
        refine Evolves.trans ?_ (evolves_publishPotential _ trivial)
        split
        · simp only
          split
          · exact (getPlanFromPotential_evolves env _ _ _).mono (fun _ _ => trivial)
          · exact (getPlanFromPotential_evolves env _ _ _).mono (fun _ _ => trivial)
        · exact Evolves.refl _ st1
      obtain ⟨evs, hl, _⟩ := hev.log
      exact ⟨evs, hl⟩
    · simp only [Option.some.injEq] at h
      subst h
      exact ⟨[], by simp⟩

end Navfn

namespace Navfn

variable {σ : Type}

/-- C12: for a leg plan (`makePlanSubgoal`, or the final leg of `makePlan`
once both frames match) whose start has the cell `s`: after the robot cell is
cleared and `setNavArr` and `setCostmap` are called, a goal off the grid with
tolerance at most 0 makes the leg return false at once, in the state reached
there, so with no `setStart`, `setGoal` or solve; otherwise, with `c` the
goal's cell, or (0, 0) for a goal off the grid and a positive tolerance, the
setup goes on with `setStart c`, `setGoal s` and `calcNavFnDijkstra(true)`, in
this order, before anything else the leg does. -/
theorem leg_setup_swapped (env : Env σ) (fuel : Nat) (start goal : PoseStamped) (tol : ℚ)
    (sc : Scan σ) (s : Nat × Nat)
    (hs : sc.st.costmap_.worldToMap sc.substart.pose.position.x sc.substart.pose.position.y
      = some s)
    (hgf : env.resolve sc.st.tf_prefix_ goal.header.frame_id
      = env.resolve sc.st.tf_prefix_ sc.st.global_frame_)
    (hsf : env.resolve sc.st.tf_prefix_ start.header.frame_id
      = env.resolve sc.st.tf_prefix_ sc.st.global_frame_) :
    (sc.st.costmap_.worldToMap goal.pose.position.x goal.pose.position.y = none → tol ≤ 0 →
      makePlanSubgoal env fuel sc.substart goal tol sc.st
        = some ⟨false, setupPrefix env Site.makePlanSubgoal s sc.st, []⟩ ∧
      planFinalGoal env fuel start goal tol sc
        = some ⟨false, setupPrefix env Site.makePlan s sc.st, sc.plan⟩) ∧
    (∀ c, (sc.st.costmap_.worldToMap goal.pose.position.x goal.pose.position.y = some c ∨
        (sc.st.costmap_.worldToMap goal.pose.position.x goal.pose.position.y = none ∧ 0 < tol
          ∧ c = (0, 0))) →
      (∀ site, setupSolver env site sc.substart goal tol sc.st =
        (true, callCalcNavFnDijkstra env site
          (callSetGoal env site s (callSetStart env site c (setupPrefix env site s sc.st))))) ∧
      (∀ r, makePlanSubgoal env fuel sc.substart goal tol sc.st = some r →
        ∃ evs, r.st.log = (setupPrefix env Site.makePlanSubgoal s sc.st).log
          ++ anchorEvents Site.makePlanSubgoal c s ++ evs) ∧
      (∀ r, planFinalGoal env fuel start goal tol sc = some r →
        ∃ evs, r.st.log = (setupPrefix env Site.makePlan s sc.st).log
          ++ anchorEvents Site.makePlan c s ++ evs)) ∧
    (∀ site, (setupPrefix env site s sc.st).log =
      sc.st.log ++ (if sc.st.initialized_ = false then [] else [Event.setCost s.1 s.2])
        ++ [Event.solver site (SolverOp.setNavArr sc.st.costmap_.getSizeInCellsX
              sc.st.costmap_.getSizeInCellsY),
            Event.solver site SolverOp.setCostmap]) ∧
    (∀ site c, (callCalcNavFnDijkstra env site
          (callSetGoal env site s (callSetStart env site c (setupPrefix env site s sc.st)))).planner_
        = env.solver.calcNavFnDijkstra true (env.solver.setGoal s (env.solver.setStart c
            (setupPrefix env site s sc.st).planner_))) := by
  refine ⟨?_, ?_, ?_, ?_⟩
  · intro hg htol
    have hgc := goalCell_eq_none sc.st goal tol hg htol
    constructor
    · unfold makePlanSubgoal
      rw [setupSolver_goal_none env _ sc.substart goal tol sc.st s hs hgc]
    · unfold planFinalGoal
      simp only [hgf, hsf, ne_eq, not_true_eq_false, if_false,
        setupSolver_goal_none env _ sc.substart goal tol sc.st s hs hgc]
  · intro c hc
    have hgc := goalCell_eq_some sc.st goal tol c hc
    have hset := fun site => setupSolver_goal_some env site sc.substart goal tol sc.st s c hs hgc
    have hlog : ∀ site, (callCalcNavFnDijkstra env site
        (callSetGoal env site s (callSetStart env site c (setupPrefix env site s sc.st)))).log
        = (setupPrefix env site s sc.st).log ++ anchorEvents site c s := by
      intro site
      simp [callCalcNavFnDijkstra, callSetGoal, callSetStart, record, anchorEvents]
    refine ⟨hset, ?_, ?_⟩
    · intro r hr
      obtain ⟨evs, hl⟩ := makePlanSubgoal_after_setup env fuel sc.substart goal tol sc.st _ r
        (hset Site.makePlanSubgoal) hr
      exact ⟨evs, by rw [hl, hlog]⟩
    · intro r hr
      obtain ⟨evs, hl⟩ := planFinalGoal_after_setup env fuel start goal tol sc _ r hgf hsf
        (hset Site.makePlan) hr
      exact ⟨evs, by rw [hl, hlog]⟩
  · intro site
    by_cases hi : sc.st.initialized_ = false
    · simp [setupPrefix, callSetCostmap, callSetNavArr, clearRobotCell, record, hi]
    · simp [setupPrefix, callSetCostmap, callSetNavArr, clearRobotCell, record, hi,
        Costmap2D.setCost]
  · intro site c
    rfl

/-- C12 on the 5 by 5 grid, for legs from the origin: to (4, 4) the setup of
the final leg goes through with `setStart (4, 4)` and `setGoal (0, 0)`; to
(9, 9), off the grid, with tolerance 0, both legs return false after
`setCostmap`. -/
theorem leg_setup_swapped_witness :
    (toyPlanner true []).costmap_.worldToMap toyStart.pose.position.x toyStart.pose.position.y
      = some (0, 0) ∧
    setupSolver toyEnv Site.makePlan toyStart toyGoal 0 (toyPlanner true []) =
      (true, callCalcNavFnDijkstra toyEnv Site.makePlan
        (callSetGoal toyEnv Site.makePlan (0, 0) (callSetStart toyEnv Site.makePlan (4, 4)
          (setupPrefix toyEnv Site.makePlan (0, 0) (toyPlanner true []))))) ∧
    makePlanSubgoal toyEnv 2 toyStart toyOffGoal 0 (toyPlanner true [])
      = some ⟨false, setupPrefix toyEnv Site.makePlanSubgoal (0, 0) (toyPlanner true []), []⟩ ∧
    planFinalGoal toyEnv 2 toyStart toyOffGoal 0 ⟨toyPlanner true [], [], toyStart, true⟩
      = some ⟨false, setupPrefix toyEnv Site.makePlan (0, 0) (toyPlanner true []), []⟩ :=
  ⟨by decide!,
    ((leg_setup_swapped toyEnv 2 toyStart toyGoal 0 ⟨toyPlanner true [], [], toyStart, true⟩
      (0, 0) (by decide!) (by decide!) (by decide!)).2.1 (4, 4) (Or.inl (by decide!))).1
      Site.makePlan,
    (leg_setup_swapped toyEnv 2 toyStart toyOffGoal 0 ⟨toyPlanner true [], [], toyStart, true⟩
      (0, 0) (by decide!) (by decide!) (by decide!)).1 (by decide!) (by decide!)⟩

end Navfn

namespace Navfn

variable {σ : Type}

/-! ## What the tolerance search returns, when it returns -/

theorem searchX_none (pot : Point → ℚ) (goal : PoseStamped) (tol res y : ℚ) (hres : res ≤ 0) :
    ∀ (fuel : Nat) (x : ℚ) (acc : Search), x ≤ goal.pose.position.x + tol →
      searchX pot goal tol res y fuel x acc = none := by
  intro fuel
  induction fuel with
  | zero => intro x acc _; rfl
  | succ n ih =>
    intro x acc hx
    rw [searchX, if_pos hx]
    exact ih _ _ (by linarith)

theorem searchX_some (pot : Point → ℚ) (goal : PoseStamped) (tol res y : ℚ) :
    ∀ (fuel : Nat) (x : ℚ) (acc s : Search),
      searchX pot goal tol res y fuel x acc = some s →
      s = (axisSamples x (goal.pose.position.x + tol) res).foldl
        (fun a x1 => searchBody pot goal (samplePose goal x1 y) a) acc := by
  intro fuel
  induction fuel with
  | zero => intro x acc s h; simp [searchX] at h
  | succ n ih =>
    intro x acc s h
    by_cases hx : x ≤ goal.pose.position.x + tol
    · by_cases hres : 0 < res
      · rw [searchX, if_pos hx] at h
        rw [axisSamples_of_le hres hx]
        exact ih _ _ _ h
      · rw [searchX_none pot goal tol res y (not_lt.mp hres) _ _ _ hx] at h
        simp at h
    · rw [searchX, if_neg hx] at h
      rw [axisSamples_of_gt (not_le.mp hx)]
      exact (Option.some.inj h).symm

theorem searchY_none (pot : Point → ℚ) (goal : PoseStamped) (tol res : ℚ) (xfuel : Nat)
    (hres : res ≤ 0) :
    ∀ (fuel : Nat) (y : ℚ) (acc : Search), y ≤ goal.pose.position.y + tol →
      searchY pot goal tol res xfuel fuel y acc = none := by
  intro fuel
  induction fuel with
  | zero => intro y acc _; rfl
  | succ n ih =>
    intro y acc hy
    rw [searchY, if_pos hy]
    cases searchX pot goal tol res y xfuel (goal.pose.position.x - tol) acc with
    | none => rfl
    | some acc1 => exact ih _ _ (by linarith)

theorem searchY_some (pot : Point → ℚ) (goal : PoseStamped) (tol res : ℚ) (xfuel : Nat) :
    ∀ (fuel : Nat) (y : ℚ) (acc s : Search),
      searchY pot goal tol res xfuel fuel y acc = some s →
      s = (axisSamples y (goal.pose.position.y + tol) res).foldl
        (fun a y1 => (axisSamples (goal.pose.position.x - tol)
            (goal.pose.position.x + tol) res).foldl
          (fun a1 x1 => searchBody pot goal (samplePose goal x1 y1) a1) a) acc := by
  intro fuel
  induction fuel with
  | zero => intro y acc s h; simp [searchY] at h
  | succ n ih =>
    intro y acc s h
    by_cases hy : y ≤ goal.pose.position.y + tol
    · by_cases hres : 0 < res
      · rw [searchY, if_pos hy] at h
        cases hx : searchX pot goal tol res y xfuel (goal.pose.position.x - tol) acc with
        | none => rw [hx] at h; simp at h
        | some acc1 =>
          rw [hx] at h
          simp only at h
          rw [axisSamples_of_le hres hy, List.foldl_cons,
            ← searchX_some pot goal tol res y xfuel _ acc acc1 hx]
          exact ih _ _ _ h
      · rw [searchY_none pot goal tol res xfuel (not_lt.mp hres) _ _ _ hy] at h
        simp at h
    · rw [searchY, if_neg hy] at h
      rw [axisSamples_of_gt (not_le.mp hy)]
      exact (Option.some.inj h).symm

/-- The result of a tolerance search that returns is the fold of the loop body
over the samples in scan order, whatever the fuel and the resolution. -/
theorem toleranceSearch_some (pot : Point → ℚ) (goal : PoseStamped) (tol res : ℚ)
    (fuel : Nat) (s : Search) (h : toleranceSearch pot goal tol res fuel = some s) :
    s = (toleranceSamples goal tol res).foldl (fun a p => searchBody pot goal p a)
      ⟨false, DBL_MAX, PoseStamped.empty⟩ := by
  unfold toleranceSearch at h
  rw [searchY_some pot goal tol res fuel fuel _ _ s h]
  unfold toleranceSamples
  rw [foldl_flatMap_map]
  simp only [List.foldl_map]

/-- The result of a tolerance search with tolerance 0 that returns is the
result of the loop body run once, on the target itself. -/
theorem toleranceSearch_zero_some (pot : Point → ℚ) (goal : PoseStamped) (res : ℚ)
    (fuel : Nat) (s : Search) (h : toleranceSearch pot goal 0 res fuel = some s) :
    s = if pot goal.pose.position < POT_HIGH then ⟨true, 0, goal⟩
      else ⟨false, DBL_MAX, PoseStamped.empty⟩ := by
  rw [toleranceSearch_some pot goal 0 res fuel s h, toleranceSamples_zero]
  simp [searchBody, sq_distance_self, DBL_MAX_pos]

end Navfn

namespace Navfn

variable {σ : Type}

/-! ## The ghost list of looks -/

theorem setupSolver_looks (env : Env σ) (site : Site) (start goal : PoseStamped)
    (tol : ℚ) (st : NavfnROS σ) :
    (setupSolver env site start goal tol st).2.looks = st.looks := by
  unfold setupSolver
  split
  · rfl
  · simp only
    split <;>
      (unfold clearRobotCell; split <;> rfl)

theorem getPlanFromPotential_looks (env : Env σ) (goal : PoseStamped)
    (plan : List PoseStamped) (st : NavfnROS σ) :
    (getPlanFromPotential env goal plan st).st.looks = st.looks := by
  unfold getPlanFromPotential publishPlan
  split
  · rfl
  · split
    · rfl
    · split
      · rfl
      · simp only
        split <;> rfl

theorem publishPotential_looks (st : NavfnROS σ) : (publishPotential st).looks = st.looks := by
  unfold publishPotential
  split <;> rfl

theorem publishPlan_looks (path : List PoseStamped) (st : NavfnROS σ) :
    (publishPlan path st).looks = st.looks := by
  unfold publishPlan
  split <;> rfl

/-- A leg plan makes no look of its own. -/
theorem makePlanSubgoal_looks (env : Env σ) (fuel : Nat) (start goal : PoseStamped) (tol : ℚ)
    (st : NavfnROS σ) (r : Outcome σ)
    (h : makePlanSubgoal env fuel start goal tol st = some r) : r.st.looks = st.looks := by
  unfold makePlanSubgoal at h
  have hq := setupSolver_looks env Site.makePlanSubgoal start goal tol st
  rcases hset : setupSolver env Site.makePlanSubgoal start goal tol st with ⟨b, st1⟩
  rw [hset] at h hq
  cases b
  · simp only [Option.some.injEq] at h
    subst h
    exact hq
  · simp only at h
    cases hs : toleranceSearch (getPointPotential env st1) goal tol
        st1.costmap_.getResolution fuel with
    | none => rw [hs] at h; simp at h
    | some s =>
      rw [hs] at h
      simp only [Option.some.injEq] at h
      subst h
      simp only
      rw [publishPotential_looks]
      split
      · split
        · exact (getPlanFromPotential_looks env _ _ _).trans hq
        · exact (getPlanFromPotential_looks env _ _ _).trans hq
      · exact hq

/-- What follows the scan makes no look. -/
theorem planFinalGoal_looks (env : Env σ) (fuel : Nat) (start goal : PoseStamped) (tol : ℚ)
    (sc : Scan σ) (r : Outcome σ) (h : planFinalGoal env fuel start goal tol sc = some r) :
    r.st.looks = sc.st.looks := by
  unfold planFinalGoal at h
  split at h
  · simp only [Option.some.injEq] at h
    subst h
    rfl
  · split at h
    · simp only [Option.some.injEq] at h
      subst h
      rfl
    · have hq := setupSolver_looks env Site.makePlan sc.substart goal tol sc.st
      rcases hset : setupSolver env Site.makePlan sc.substart goal tol sc.st with ⟨b, st1⟩
      rw [hset] at h hq
      cases b
      · simp only [Option.some.injEq] at h
        subst h
        exact hq
      · simp only at h
        cases hs : toleranceSearch (getPointPotential env st1) goal tol
            st1.costmap_.getResolution fuel with
        | none => rw [hs] at h; simp at h
        | some s =>
          rw [hs] at h
          simp only at h
          split at h
          · simp only [Option.some.injEq] at h
            subst h
            simp only
            rw [publishPlan_looks, publishPotential_looks]
            split
            · split
              · exact (getPlanFromPotential_looks env _ _ _).trans hq
              · exact (getPlanFromPotential_looks env _ _ _).trans hq
            · exact hq
          · simp only [Option.some.injEq] at h
            subst h
            exact hq

/-! ## Leg plans with tolerance 0 -/

/-- A zero-tolerance leg plan that returns true: the plan is the solver trace,
reversed and in world coordinates, followed by the goal pose itself; the goal
has a cell; and the leg ran its solve. -/
theorem makePlanSubgoal_zero_true (env : Env σ) (fuel : Nat) (start goal : PoseStamped)
    (st : NavfnROS σ) (r : Outcome σ)
    (h : makePlanSubgoal env fuel start goal 0 st = some r) (hret : r.ret = true) :
    r.plan = tracePoses env r.st ++ [goal] ∧
      (∃ c, st.costmap_.worldToMap goal.pose.position.x goal.pose.position.y = some c) ∧
      ∃ evs, r.st.log = st.log ++ evs ∧
        Event.solver Site.makePlanSubgoal SolverOp.calcNavFnDijkstra ∈ evs := by
  unfold makePlanSubgoal at h
  have hfst := setupSolver_fst env Site.makePlanSubgoal start goal 0 st
  have hlog := setupSolver_true_log env Site.makePlanSubgoal start goal 0 st
  rcases hset : setupSolver env Site.makePlanSubgoal start goal 0 st with ⟨b, st1⟩
  rw [hset] at h hfst hlog
  cases b
  · simp only [Option.some.injEq] at h
    subst h
    simp at hret
  · simp only at h hfst hlog
    cases hs : toleranceSearch (getPointPotential env st1) goal 0
        st1.costmap_.getResolution fuel with
    | none => rw [hs] at h; simp at h
    | some s =>
      rw [hs] at h
      have hsv := toleranceSearch_zero_some _ goal _ fuel s hs
      simp only [Option.some.injEq] at h
      subst h
      have hcell : ∃ c, st.costmap_.worldToMap goal.pose.position.x goal.pose.position.y
          = some c := by
        have hg : (goalCell st goal 0).isSome = true := by
          have := hfst.symm
          simp only [Bool.and_eq_true] at this
          exact this.2
        unfold goalCell at hg
        cases hw : st.costmap_.worldToMap goal.pose.position.x goal.pose.position.y with
        | none => rw [hw] at hg; simp at hg
        | some c => exact ⟨c, rfl⟩
      obtain ⟨evs, hl, hmem, _⟩ := hlog trivial
      by_cases hp : getPointPotential env st1 goal.pose.position < POT_HIGH
      · rw [if_pos hp] at hsv
        subst hsv
        simp only [if_true] at hret ⊢
        by_cases hg : (getPlanFromPotential env goal [] st1).ret = true
        · simp only [hg, if_true] at hret ⊢
          refine ⟨?_, hcell, ?_⟩
          · rw [getPlanFromPotential_plan env goal st1 hg]
            congr 1
            exact (tracePoses_congr env _ _ (publishPotential_fields _).1
              (publishPotential_fields _).2.1
              (evolves_publishPotential (P := fun _ => True) _ trivial).global_frame_).symm
          · obtain ⟨e2, hl2, _⟩ := ((getPlanFromPotential_evolves env goal [] st1).trans
              (evolves_publishPotential (P := fun e => e.isQueuePublish = false) _
                (by simp [Event.isQueuePublish]))).log
            exact ⟨evs ++ e2, by rw [hl2, hl, List.append_assoc],
              List.mem_append.mpr (Or.inl hmem)⟩
        · have hg2 := getPlanFromPotential_ret env goal st1
          simp only [hg, if_false] at hret
          simp only [Bool.not_eq_true] at hg
          rw [hg] at hg2
          simp [← hg2] at hret
      · rw [if_neg hp] at hsv
        subst hsv
        simp at hret

/-! ## The scan of the subgoal queue -/

theorem evolves_eraseFront (x : NavfnROS σ) (rest : List Pose) :
    Evolves (fun _ => True) x (eraseFront rest x) :=
  (evolves_queue _ x rest).trans (evolves_publishSubgoals _ trivial)

/-- A scan of the queue that returns ended in one of two ways: at the end of
the queue, with every waypoint erased, an empty plan and the start unchanged;
or at a waypoint `w` that was not within the tolerance and whose leg plan
returned true, with `w` and what was behind it still queued. -/
theorem scanSubgoals_some (env : Env σ) (fuel : Nat) (start goal : PoseStamped) :
    ∀ (q : List Pose) (st : NavfnROS σ) (sc : Scan σ), st.v_subgoals_ = q →
      scanSubgoals env fuel start goal q st [] = some sc →
      Evolves (fun _ => True) st sc.st ∧
        ((sc.atEnd = true ∧ sc.plan = [] ∧ sc.substart = start ∧ sc.st.v_subgoals_ = []) ∨
         (sc.atEnd = false ∧ ∃ pre w rest st1 r1,
            q = pre ++ w :: rest ∧
            withinSubgoalTolerance env w start.pose.position.x start.pose.position.y
              st.subgoal_tolerance_ = false ∧
            Evolves (fun _ => True) st st1 ∧ st1.v_subgoals_ = w :: rest ∧
            makePlanSubgoal env fuel start { goal with pose := w } 0 st1 = some r1 ∧
            r1.ret = true ∧ sc = ⟨r1.st, r1.plan, { start with pose := w }, false⟩)) := by
  intro q
  induction q with
  | nil =>
    intro st sc hq hsc
    simp only [scanSubgoals, Option.some.injEq] at hsc
    subst hsc
    exact ⟨Evolves.refl _ st, Or.inl ⟨rfl, rfl, rfl, hq⟩⟩
  | cons w rest ih =>
    intro st sc hq hsc
    rw [scanSubgoals] at hsc
    by_cases hw : withinSubgoalTolerance env w start.pose.position.x start.pose.position.y
        st.subgoal_tolerance_ = true
    · rw [if_pos hw] at hsc
      have hev0 : Evolves (fun _ => True) st (eraseFront rest (look (Look.test w) st)) :=
        (evolves_look _ _ st).trans (evolves_eraseFront _ rest)
      obtain ⟨hev, hcase⟩ := ih _ sc rfl hsc
      refine ⟨hev0.trans hev, ?_⟩
      rcases hcase with h | ⟨hend, pre, w1, rest1, st1, r1, hq1, hw1, hev1, hst1, hleg, hret, hsc1⟩
      · exact Or.inl h
      · exact Or.inr ⟨hend, w :: pre, w1, rest1, st1, r1, by simp [hq1], hw1,
          hev0.trans hev1, hst1, hleg, hret, hsc1⟩
    · rw [if_neg hw] at hsc
      have hevl : Evolves (fun _ => True) st (look (Look.leg w) (look (Look.test w) st)) :=
        (evolves_look _ _ st).trans (evolves_look _ _ _)
      cases hleg : makePlanSubgoal env fuel start { goal with pose := w } 0
          (look (Look.leg w) (look (Look.test w) st)) with
      | none => rw [hleg] at hsc; simp at hsc
      | some r =>
        rw [hleg] at hsc
        simp only at hsc
        obtain ⟨hrev, _, hrret⟩ := makePlanSubgoal_spec env fuel start _ 0 _ r hleg
        by_cases hret : r.ret = true
        · simp only [hret, if_true, Option.some.injEq] at hsc
          subst hsc
          exact ⟨hevl.trans (hrev.mono (fun _ _ => trivial)),
            Or.inr ⟨rfl, [], w, rest, _, r, rfl, by simpa using hw, hevl, hq, hleg, hret, rfl⟩⟩
        · have hrf : r.ret = false := by simpa using hret
          have hplan := plan_nil_of_ret_false hrret hrf
          simp only [hrf, Bool.false_eq_true, if_false, hplan] at hsc
          have hev0 : Evolves (fun _ => True) st (eraseFront rest r.st) :=
            (hevl.trans (hrev.mono (fun _ _ => trivial))).trans (evolves_eraseFront _ rest)
          obtain ⟨hev, hcase⟩ := ih _ sc rfl hsc
          refine ⟨hev0.trans hev, ?_⟩
          rcases hcase with h | ⟨hend, pre, w1, rest1, st1, r1, hq1, hw1, hev1, hst1, hleg1,
            hret1, hsc1⟩
          · exact Or.inl h
          · refine Or.inr ⟨hend, w :: pre, w1, rest1, st1, r1, by simp [hq1], ?_,
              hev0.trans hev1, hst1, hleg1, hret1, hsc1⟩
            have : (eraseFront rest r.st).subgoal_tolerance_ = st.subgoal_tolerance_ :=
              hev0.subgoal_tolerance_
            rw [← this]
            exact hw1

/-- A scan that returned before the end of the queue stopped at a waypoint `w`
that was not within the tolerance and whose leg plan returned true. -/
theorem scan_consumed (env : Env σ) (fuel : Nat) (start goal : PoseStamped)
    (st : NavfnROS σ) (sc : Scan σ)
    (hsc : scanSubgoals env fuel start goal st.v_subgoals_ st [] = some sc)
    (hend : sc.atEnd = false) :
    ∃ pre w rest st1 r1, st.v_subgoals_ = pre ++ w :: rest ∧
      withinSubgoalTolerance env w start.pose.position.x start.pose.position.y
        st.subgoal_tolerance_ = false ∧
      Evolves (fun _ => True) st st1 ∧ st1.v_subgoals_ = w :: rest ∧
      makePlanSubgoal env fuel start { goal with pose := w } 0 st1 = some r1 ∧
      r1.ret = true ∧ sc = ⟨r1.st, r1.plan, { start with pose := w }, false⟩ := by
  rcases (scanSubgoals_some env fuel start goal st.v_subgoals_ st sc rfl hsc).2 with ⟨h, _⟩ | ⟨_, h⟩
  · rw [hend] at h
    exact absurd h (by simp)
  · exact h

/-- A scan that returned at the end of the queue erased every waypoint and
left an empty plan and the start as it was. -/
theorem scan_exhausted (env : Env σ) (fuel : Nat) (start goal : PoseStamped)
    (st : NavfnROS σ) (sc : Scan σ)
    (hsc : scanSubgoals env fuel start goal st.v_subgoals_ st [] = some sc)
    (hend : sc.atEnd = true) :
    sc.plan = [] ∧ sc.substart = start ∧ sc.st.v_subgoals_ = [] := by
  rcases (scanSubgoals_some env fuel start goal st.v_subgoals_ st sc rfl hsc).2 with ⟨_, h⟩ | ⟨h, _⟩
  · exact h
  · rw [hend] at h
    exact absurd h (by simp)

/-- The waypoint a scan stopped at has a cell. -/
theorem scan_consumed_cell (env : Env σ) (fuel : Nat) (start goal : PoseStamped)
    (st : NavfnROS σ) (sc : Scan σ)
    (hsc : scanSubgoals env fuel start goal st.v_subgoals_ st [] = some sc)
    (hend : sc.atEnd = false) :
    ∃ c, st.costmap_.worldToMap sc.substart.pose.position.x sc.substart.pose.position.y
      = some c := by
  obtain ⟨pre, w, rest, st1, r1, _, _, hev, _, hleg, hret, rfl⟩ :=
    scan_consumed env fuel start goal st sc hsc hend
  obtain ⟨_, ⟨c, hc⟩, _⟩ := makePlanSubgoal_zero_true env fuel start _ st1 r1 hleg hret
  rw [hev.worldToMap] at hc
  exact ⟨c, hc⟩

/-- A call on an initialized planner that returns has a scan that returned. -/
theorem makePlan_some (env : Env σ) (fuel : Nat) (start goal : PoseStamped) (tol : ℚ)
    (plan : List PoseStamped) (st : NavfnROS σ) (r : Outcome σ)
    (hinit : st.initialized_ = true)
    (hr : makePlan env fuel start goal tol plan st = some r) :
    ∃ sc, scanSubgoals env fuel start goal st.v_subgoals_ st [] = some sc ∧
      planFinalGoal env fuel start goal tol sc = some r := by
  unfold makePlan at hr
  rw [if_neg (by simp [hinit])] at hr
  cases hsc : scanSubgoals env fuel start goal st.v_subgoals_ st [] with
  | none => rw [hsc] at hr; simp at hr
  | some sc =>
    rw [hsc] at hr
    exact ⟨sc, rfl, hr⟩

theorem makePlan_uninitialized (env : Env σ) (fuel : Nat) (start goal : PoseStamped) (tol : ℚ)
    (plan : List PoseStamped) (st : NavfnROS σ) (hinit : st.initialized_ = false) :
    makePlan env fuel start goal tol plan st = some ⟨false, st, plan⟩ := by
  unfold makePlan
  rw [if_pos hinit]

theorem some_of_isSome {α : Type} {o : Option α} (h : o.isSome = true) : ∃ a, o = some a :=
  Option.isSome_iff_exists.mp h

end Navfn

namespace Navfn

variable {σ : Type}

theorem some_of_map {α β : Type} {o : Option α} {f : α → β} {b : β}
    (h : o.map f = some b) : ∃ a, o = some a ∧ f a = b := by
  cases o with
  | none => simp at h
  | some a => exact ⟨a, rfl, by simpa using h⟩

/-! ## C1: the return value and the plan -/

/-- C1, as stated, fails: an uninitialized planner returns false and leaves
the plan vector as it was passed in, here with one pose. -/
theorem makePlan_uninitialized_keeps_plan :
    (makePlan toyEnv 2 toyStart toyGoal 0 [stampedAt "map" 1 1] (toyPlanner false [])).map
      (fun r => (r.ret, r.plan)) = some (false, [stampedAt "map" 1 1]) := by
  decide!

/-- C1, amended: for every `makePlan` call that returns, a true return comes
with a non-empty plan; an uninitialized planner returns false and leaves the
plan as passed in; and an initialized planner returns false with a non-empty
plan only when the scan stopped at a waypoint whose leg plan succeeded (the
plan is then that leg) and the call then left early, on a frame mismatch or on
a goal off the grid with tolerance at most 0. -/
theorem makePlan_ret_and_plan (env : Env σ) (fuel : Nat) (start goal : PoseStamped) (tol : ℚ)
    (plan : List PoseStamped) (st : NavfnROS σ) (r : Outcome σ)
    (hr : makePlan env fuel start goal tol plan st = some r) :
    (r.ret = true → r.plan ≠ []) ∧
      (st.initialized_ = false → r.ret = false ∧ r.plan = plan) ∧
      (st.initialized_ = true → r.ret = false → r.plan ≠ [] →
        ∃ sc, scanSubgoals env fuel start goal st.v_subgoals_ st [] = some sc ∧
          sc.atEnd = false ∧ r.plan = sc.plan ∧
          (env.resolve st.tf_prefix_ goal.header.frame_id
              ≠ env.resolve st.tf_prefix_ st.global_frame_ ∨
            env.resolve st.tf_prefix_ start.header.frame_id
              ≠ env.resolve st.tf_prefix_ st.global_frame_ ∨
            (st.costmap_.worldToMap goal.pose.position.x goal.pose.position.y = none
              ∧ tol ≤ 0))) := by
  by_cases hinit : st.initialized_ = true
  · obtain ⟨sc, hsc, hr2⟩ := makePlan_some env fuel start goal tol plan st r hinit hr
    have hev := (scanSubgoals_some env fuel start goal st.v_subgoals_ st sc rfl hsc).1
    obtain ⟨_, _, htrue, hfalse⟩ := planFinalGoal_spec env fuel start goal tol sc r hr2
    refine ⟨htrue, fun h => absurd hinit (by simp [h]), fun _ hret hne => ?_⟩
    obtain ⟨hplan, hwhy⟩ := hfalse hret hne
    have hend : sc.atEnd = false := by
      by_contra hc
      have := (scan_exhausted env fuel start goal st sc hsc (by simpa using hc)).1
      exact hne (hplan.trans this)
    refine ⟨sc, hsc, hend, hplan, ?_⟩
    rw [hev.tf_prefix_, hev.global_frame_] at hwhy
    rcases hwhy with h | h | h
    · exact Or.inl h
    · exact Or.inr (Or.inl h)
    · refine Or.inr (Or.inr ?_)
      rw [setupSolver_fst, hev.worldToMap] at h
      obtain ⟨c, hc⟩ := scan_consumed_cell env fuel start goal st sc hsc hend
      rw [hc] at h
      simp only [Option.isSome_some, Bool.true_and] at h
      unfold goalCell at h
      rw [hev.worldToMap] at h
      cases hw : st.costmap_.worldToMap goal.pose.position.x goal.pose.position.y with
      | some c2 => rw [hw] at h; simp at h
      | none =>
        rw [hw] at h
        refine ⟨rfl, ?_⟩
        by_contra hc2
        simp [hc2] at h
  · have hi : st.initialized_ = false := by simpa using hinit
    rw [makePlan_uninitialized env fuel start goal tol plan st hi] at hr
    simp only [Option.some.injEq] at hr
    subst hr
    exact ⟨by simp, fun _ => ⟨rfl, rfl⟩, fun h => absurd h hinit⟩

/-- C1, amended, on the 5 by 5 grid with the waypoint (2, 0) queued: the call
returns, and its result has the three properties. -/
theorem makePlan_ret_and_plan_witness :
    ∃ r, makePlan toyEnv 2 toyStart toyGoal 0 [] (toyPlanner true [toyWaypoint]) = some r ∧
      (r.ret = true → r.plan ≠ []) ∧
      ((toyPlanner true [toyWaypoint]).initialized_ = false → r.ret = false ∧ r.plan = []) ∧
      ((toyPlanner true [toyWaypoint]).initialized_ = true → r.ret = false → r.plan ≠ [] →
        ∃ sc, scanSubgoals toyEnv 2 toyStart toyGoal (toyPlanner true [toyWaypoint]).v_subgoals_
            (toyPlanner true [toyWaypoint]) [] = some sc ∧
          sc.atEnd = false ∧ r.plan = sc.plan ∧
          (toyEnv.resolve (toyPlanner true [toyWaypoint]).tf_prefix_ toyGoal.header.frame_id
              ≠ toyEnv.resolve (toyPlanner true [toyWaypoint]).tf_prefix_
                (toyPlanner true [toyWaypoint]).global_frame_ ∨
            toyEnv.resolve (toyPlanner true [toyWaypoint]).tf_prefix_ toyStart.header.frame_id
              ≠ toyEnv.resolve (toyPlanner true [toyWaypoint]).tf_prefix_
                (toyPlanner true [toyWaypoint]).global_frame_ ∨
            ((toyPlanner true [toyWaypoint]).costmap_.worldToMap toyGoal.pose.position.x
                toyGoal.pose.position.y = none ∧ (0 : ℚ) ≤ 0))) := by
  obtain ⟨r, hr⟩ := some_of_isSome
    (show (makePlan toyEnv 2 toyStart toyGoal 0 [] (toyPlanner true [toyWaypoint])).isSome = true
      by decide!)
  exact ⟨r, hr, makePlan_ret_and_plan toyEnv 2 toyStart toyGoal 0 []
    (toyPlanner true [toyWaypoint]) r hr⟩

/-! ## C2: the waypoint of a successful leg and the queue -/

/-- C2, as stated, fails: on the 5 by 5 grid with the waypoint (2, 0) queued,
the leg plan to the waypoint succeeds (the scan stops before the end of the
queue and `makePlan` returns true), and the waypoint is still in the queue
when the call returns. -/
theorem makePlan_consumed_waypoint_still_queued :
    (scanSubgoals toyEnv 2 toyStart toyGoal [toyWaypoint] (toyPlanner true [toyWaypoint]) []).map
        (fun sc => (sc.atEnd, sc.substart.pose)) = some (false, toyWaypoint) ∧
    (makePlan toyEnv 2 toyStart toyGoal 0 [] (toyPlanner true [toyWaypoint])).map
        (fun r => (r.ret, r.st.v_subgoals_)) = some (true, [toyWaypoint]) := by
  constructor <;> decide!

/-- C2, amended: when the scan of a `makePlan` call stops at a waypoint `w`
(its leg plan succeeded) and the call returns, the waypoints in front of `w`
have been erased and `w` stays in the queue: on return the queue is `w`
followed by the waypoints that were behind it. -/
theorem makePlan_consumed_waypoint_stays (env : Env σ) (fuel : Nat) (start goal : PoseStamped)
    (tol : ℚ) (plan : List PoseStamped) (st : NavfnROS σ) (sc : Scan σ) (r : Outcome σ)
    (hinit : st.initialized_ = true)
    (hsc : scanSubgoals env fuel start goal st.v_subgoals_ st [] = some sc)
    (hend : sc.atEnd = false)
    (hr : makePlan env fuel start goal tol plan st = some r) :
    ∃ pre rest st1 r1,
      makePlanSubgoal env fuel start { goal with pose := sc.substart.pose } 0 st1 = some r1 ∧
      r1.ret = true ∧
      st.v_subgoals_ = pre ++ sc.substart.pose :: rest ∧
      r.st.v_subgoals_ = sc.substart.pose :: rest := by
  rw [makePlan_eq env fuel start goal tol plan st hinit sc hsc] at hr
  obtain ⟨_, hq, _, _⟩ := planFinalGoal_spec env fuel start goal tol sc r hr
  obtain ⟨pre, w, rest, st1, r1, hpre, _, _, hst1, hleg, hret, rfl⟩ :=
    scan_consumed env fuel start goal st sc hsc hend
  refine ⟨pre, rest, st1, r1, hleg, hret, hpre, ?_⟩
  rw [hq]
  exact (makePlanSubgoal_spec env fuel start _ 0 st1 r1 hleg).2.1.trans hst1

/-- C2, amended, on the 5 by 5 grid with the waypoint (2, 0) queued. -/
theorem makePlan_consumed_waypoint_stays_witness :
    ∃ sc r, scanSubgoals toyEnv 2 toyStart toyGoal (toyPlanner true [toyWaypoint]).v_subgoals_
        (toyPlanner true [toyWaypoint]) [] = some sc ∧ sc.atEnd = false ∧
      makePlan toyEnv 2 toyStart toyGoal 0 [] (toyPlanner true [toyWaypoint]) = some r ∧
      ∃ pre rest st1 r1,
        makePlanSubgoal toyEnv 2 toyStart { toyGoal with pose := sc.substart.pose } 0 st1
          = some r1 ∧
        r1.ret = true ∧
        (toyPlanner true [toyWaypoint]).v_subgoals_ = pre ++ sc.substart.pose :: rest ∧
        r.st.v_subgoals_ = sc.substart.pose :: rest := by
  obtain ⟨sc, hsc, hend⟩ := some_of_map
    (show (scanSubgoals toyEnv 2 toyStart toyGoal (toyPlanner true [toyWaypoint]).v_subgoals_
      (toyPlanner true [toyWaypoint]) []).map (fun sc => sc.atEnd) = some false by decide!)
  obtain ⟨r, hr⟩ := some_of_isSome
    (show (makePlan toyEnv 2 toyStart toyGoal 0 [] (toyPlanner true [toyWaypoint])).isSome = true
      by decide!)
  exact ⟨sc, r, hsc, hend, hr, makePlan_consumed_waypoint_stays toyEnv 2 toyStart toyGoal 0 []
    (toyPlanner true [toyWaypoint]) sc r rfl hsc hend hr⟩

/-! ## C3: solves per call -/

/-- C3, as stated, fails: on the 5 by 5 grid with the waypoint (2, 0) queued,
the leg plan to the waypoint succeeds, and the solver operations of the call
are the setup and solve of `makePlanSubgoal`, the path extraction of that leg,
and then the setup and a second solve, for the final goal, of `makePlan`. -/
theorem makePlan_solves_twice :
    (makePlan toyEnv 2 toyStart toyGoal 0 [] (toyPlanner true [toyWaypoint])).map
      (fun r => (r.ret, r.st.log.filter Event.isSolver)) = some (true,
        [Event.solver Site.makePlanSubgoal (SolverOp.setNavArr 5 5),
         Event.solver Site.makePlanSubgoal SolverOp.setCostmap,
         Event.solver Site.makePlanSubgoal (SolverOp.setStart (2, 0)),
         Event.solver Site.makePlanSubgoal (SolverOp.setGoal (0, 0)),
         Event.solver Site.makePlanSubgoal SolverOp.calcNavFnDijkstra,
         Event.solver Site.getPlanFromPotential (SolverOp.setStart (2, 0)),
         Event.solver Site.getPlanFromPotential (SolverOp.calcPath 20),
         Event.solver Site.makePlan (SolverOp.setNavArr 5 5),
         Event.solver Site.makePlan SolverOp.setCostmap,
         Event.solver Site.makePlan (SolverOp.setStart (4, 4)),
         Event.solver Site.makePlan (SolverOp.setGoal (2, 0)),
         Event.solver Site.makePlan SolverOp.calcNavFnDijkstra]) := by
  decide!

/-- C3, amended: when the scan of a `makePlan` call stops at a waypoint whose
leg plan succeeded and the call returns, that leg ran its solve, and what
follows the scan runs no path extraction (no solver operation of
`getPlanFromPotential`) and leaves the plan of the leg as it is; but whenever
both frames match and the goal has a cell or the tolerance is positive, it
does run the solver setup and the solve again, for the final goal, and the
call returns true. -/
theorem makePlan_after_consumed (env : Env σ) (fuel : Nat) (start goal : PoseStamped)
    (tol : ℚ) (plan : List PoseStamped) (st : NavfnROS σ) (sc : Scan σ) (r : Outcome σ)
    (hinit : st.initialized_ = true)
    (hsc : scanSubgoals env fuel start goal st.v_subgoals_ st [] = some sc)
    (hend : sc.atEnd = false)
    (hr : makePlan env fuel start goal tol plan st = some r) :
    ∃ evs1 evs2,
      r.plan = sc.plan ∧ sc.st.log = st.log ++ evs1 ∧ r.st.log = sc.st.log ++ evs2 ∧
      Event.solver Site.makePlanSubgoal SolverOp.calcNavFnDijkstra ∈ evs1 ∧
      (∀ e ∈ evs2, e.isExtraction = false) ∧
      (env.resolve st.tf_prefix_ goal.header.frame_id
          = env.resolve st.tf_prefix_ st.global_frame_ →
        env.resolve st.tf_prefix_ start.header.frame_id
          = env.resolve st.tf_prefix_ st.global_frame_ →
        ((∃ c, st.costmap_.worldToMap goal.pose.position.x goal.pose.position.y = some c)
          ∨ 0 < tol) →
        Event.solver Site.makePlan SolverOp.calcNavFnDijkstra ∈ evs2 ∧ r.ret = true) := by
  rw [makePlan_eq env fuel start goal tol plan st hinit sc hsc] at hr
  obtain ⟨hplan, evs2, hl2, hp2, hsolve⟩ :=
    planFinalGoal_not_atEnd env fuel start goal tol sc r hr hend
  obtain ⟨c, hc⟩ := scan_consumed_cell env fuel start goal st sc hsc hend
  obtain ⟨pre, w, rest, st1, r1, _, _, hev1, _, hleg, hret, hsceq⟩ :=
    scan_consumed env fuel start goal st sc hsc hend
  obtain ⟨hplan1, _, e1, hl1, hmem1⟩ := makePlanSubgoal_zero_true env fuel start _ st1 r1
    hleg hret
  obtain ⟨e0, hl0, _⟩ := hev1.log
  have hscst : sc.st = r1.st := by rw [hsceq]
  have hscplan : sc.plan = r1.plan := by rw [hsceq]
  have hevsc : Evolves (fun _ => True) st sc.st := by
    rw [hscst]
    exact hev1.trans ((makePlanSubgoal_spec env fuel start _ 0 st1 r1 hleg).1.mono
      (fun _ _ => trivial))
  refine ⟨e0 ++ e1, evs2, hplan, ?_, hl2, List.mem_append.mpr (Or.inr hmem1),
    fun e he => isSetup_not_extraction e (hp2 e he), ?_⟩
  · rw [hscst, hl1, hl0, List.append_assoc]
  · intro hg hs hcell
    rw [hevsc.tf_prefix_, hevsc.global_frame_] at hsolve
    have hflag : (setupSolver env Site.makePlan sc.substart goal tol sc.st).1 = true := by
      rw [setupSolver_fst, hevsc.worldToMap, hc]
      simp only [Option.isSome_some, Bool.true_and]
      unfold goalCell
      rw [hevsc.worldToMap]
      rcases hcell with ⟨c2, hc2⟩ | htol
      · rw [hc2]
        rfl
      · cases st.costmap_.worldToMap goal.pose.position.x goal.pose.position.y with
        | some c2 => rfl
        | none => simp [not_le.mpr htol]
    obtain ⟨hm, hret2⟩ := hsolve hg hs hflag
    refine ⟨hm, ?_⟩
    rw [hret2, hscplan, hplan1]
    simp

/-- C3, amended, on the 5 by 5 grid with the waypoint (2, 0) queued. -/
theorem makePlan_after_consumed_witness :
    ∃ sc r, scanSubgoals toyEnv 2 toyStart toyGoal (toyPlanner true [toyWaypoint]).v_subgoals_
        (toyPlanner true [toyWaypoint]) [] = some sc ∧ sc.atEnd = false ∧
      makePlan toyEnv 2 toyStart toyGoal 0 [] (toyPlanner true [toyWaypoint]) = some r ∧
      ∃ evs1 evs2,
        r.plan = sc.plan ∧ sc.st.log = (toyPlanner true [toyWaypoint]).log ++ evs1 ∧
        r.st.log = sc.st.log ++ evs2 ∧
        Event.solver Site.makePlanSubgoal SolverOp.calcNavFnDijkstra ∈ evs1 ∧
        (∀ e ∈ evs2, e.isExtraction = false) ∧
        Event.solver Site.makePlan SolverOp.calcNavFnDijkstra ∈ evs2 ∧ r.ret = true := by
  obtain ⟨sc, hsc, hend⟩ := some_of_map
    (show (scanSubgoals toyEnv 2 toyStart toyGoal (toyPlanner true [toyWaypoint]).v_subgoals_
      (toyPlanner true [toyWaypoint]) []).map (fun sc => sc.atEnd) = some false by decide!)
  obtain ⟨r, hr⟩ := some_of_isSome
    (show (makePlan toyEnv 2 toyStart toyGoal 0 [] (toyPlanner true [toyWaypoint])).isSome = true
      by decide!)
  obtain ⟨evs1, evs2, h2, h3, h4, h5, h6, h7⟩ :=
    makePlan_after_consumed toyEnv 2 toyStart toyGoal 0 []
      (toyPlanner true [toyWaypoint]) sc r rfl hsc hend hr
  exact ⟨sc, r, hsc, hend, hr, evs1, evs2, h2, h3, h4, h5, h6,
    h7 (by decide!) (by decide!) (Or.inl ⟨(4, 4), by decide!⟩)⟩

/-! ## C5: the plan after a successful leg -/

/-- C5: when the scan of a `makePlan` call stops at a waypoint `w` whose
zero-tolerance leg plan succeeded and the call returns, the plan on return is
exactly the plan of that leg: the solver trace the leg left, reversed and in
world coordinates, followed by the pose of `w` (in the goal's frame), and
nothing from the final goal. -/
theorem makePlan_consumed_plan (env : Env σ) (fuel : Nat) (start goal : PoseStamped)
    (tol : ℚ) (plan : List PoseStamped) (st : NavfnROS σ) (sc : Scan σ) (r : Outcome σ)
    (hinit : st.initialized_ = true)
    (hsc : scanSubgoals env fuel start goal st.v_subgoals_ st [] = some sc)
    (hend : sc.atEnd = false)
    (hr : makePlan env fuel start goal tol plan st = some r) :
    ∃ st1 r1,
      makePlanSubgoal env fuel start { goal with pose := sc.substart.pose } 0 st1 = some r1 ∧
      r1.ret = true ∧ r1.st = sc.st ∧ sc.substart.pose ∈ st.v_subgoals_ ∧
      r.plan = r1.plan ∧
      r.plan = tracePoses env sc.st ++ [⟨goal.header, sc.substart.pose⟩] := by
  rw [makePlan_eq env fuel start goal tol plan st hinit sc hsc] at hr
  obtain ⟨hplan, _⟩ := planFinalGoal_not_atEnd env fuel start goal tol sc r hr hend
  obtain ⟨pre, w, rest, st1, r1, hpre, _, hev1, _, hleg, hret, rfl⟩ :=
    scan_consumed env fuel start goal st sc hsc hend
  obtain ⟨hplan1, _, _⟩ := makePlanSubgoal_zero_true env fuel start _ st1 r1 hleg hret
  refine ⟨st1, r1, hleg, hret, rfl, ?_, hplan, ?_⟩
  · rw [hpre]
    simp
  · rw [hplan]
    exact hplan1

/-- C5 on the 5 by 5 grid with the waypoint (2, 0) queued. -/
theorem makePlan_consumed_plan_witness :
    ∃ sc r, scanSubgoals toyEnv 2 toyStart toyGoal (toyPlanner true [toyWaypoint]).v_subgoals_
        (toyPlanner true [toyWaypoint]) [] = some sc ∧ sc.atEnd = false ∧
      makePlan toyEnv 2 toyStart toyGoal 0 [] (toyPlanner true [toyWaypoint]) = some r ∧
      ∃ st1 r1,
        makePlanSubgoal toyEnv 2 toyStart { toyGoal with pose := sc.substart.pose } 0 st1
          = some r1 ∧
        r1.ret = true ∧ r1.st = sc.st ∧
        sc.substart.pose ∈ (toyPlanner true [toyWaypoint]).v_subgoals_ ∧
        r.plan = r1.plan ∧
        r.plan = tracePoses toyEnv sc.st ++ [⟨toyGoal.header, sc.substart.pose⟩] := by
  obtain ⟨sc, hsc, hend⟩ := some_of_map
    (show (scanSubgoals toyEnv 2 toyStart toyGoal (toyPlanner true [toyWaypoint]).v_subgoals_
      (toyPlanner true [toyWaypoint]) []).map (fun sc => sc.atEnd) = some false by decide!)
  obtain ⟨r, hr⟩ := some_of_isSome
    (show (makePlan toyEnv 2 toyStart toyGoal 0 [] (toyPlanner true [toyWaypoint])).isSome = true
      by decide!)
  exact ⟨sc, r, hsc, hend, hr, makePlan_consumed_plan toyEnv 2 toyStart toyGoal 0 []
    (toyPlanner true [toyWaypoint]) sc r rfl hsc hend hr⟩

/-! ## C7: a single waypoint already reached -/

/-- C7, amended: on an initialized planner whose queue holds exactly one
waypoint, at a distance from the start that line 259 computes (in doubles) as
strictly below `subgoal_tolerance_`, a `makePlan` call that returns leaves an
empty queue; the only look of the call
is the tolerance test of that waypoint, with no leg plan; the first event of
the call is the publication of the emptied queue, before any solver operation;
and no later event of the call is a publication of the queue or a solver
operation of a leg plan (`makePlanSubgoal`). -/
theorem makePlan_reached_waypoint (env : Env σ) (fuel : Nat) (start goal : PoseStamped)
    (tol : ℚ) (plan : List PoseStamped) (st : NavfnROS σ) (w : Pose) (r : Outcome σ)
    (hinit : st.initialized_ = true)
    (hq : st.v_subgoals_ = [w])
    (hw : env.planarDistance w.position.x w.position.y start.pose.position.x
      start.pose.position.y < st.subgoal_tolerance_)
    (hr : makePlan env fuel start goal tol plan st = some r) :
    ∃ evs, r.st.v_subgoals_ = [] ∧
      r.st.looks = st.looks ++ [Look.test w] ∧
      r.st.log = st.log ++ Event.publishSubgoals [] :: evs ∧
      (∀ e ∈ evs, e.isQueuePublish = false) ∧
      (∀ e ∈ evs, ∀ op, e ≠ Event.solver Site.makePlanSubgoal op) := by
  have hw1 : withinSubgoalTolerance env w start.pose.position.x start.pose.position.y
      st.subgoal_tolerance_ = true := by
    simpa [withinSubgoalTolerance] using hw
  have hsc : scanSubgoals env fuel start goal st.v_subgoals_ st [] =
      some ⟨eraseFront [] (look (Look.test w) st), [], start, true⟩ := by
    rw [hq]
    simp [scanSubgoals, hw1]
  rw [makePlan_eq env fuel start goal tol plan st hinit _ hsc] at hr
  obtain ⟨hev, hqr, _, _⟩ := planFinalGoal_spec env fuel start goal tol _ r hr
  have hlk := planFinalGoal_looks env fuel start goal tol _ r hr
  obtain ⟨evs, hl, hp⟩ := hev.log
  refine ⟨evs, hqr, ?_, ?_, fun e he => isFinalLeg_not_queuePublish e (hp e he), ?_⟩
  · rw [hlk]
    rfl
  · rw [hl]
    simp [eraseFront, look, publishSubgoals, record]
  · intro e he op heq
    have := hp e he
    rw [heq] at this
    simp [Event.isFinalLeg] at this

/-- C7, amended, on the 5 by 5 grid with the distance in doubles: the single
waypoint (1/2, 0) is within the tolerance 1 of the start. -/
theorem makePlan_reached_waypoint_witness :
    ∃ r, makePlan dblEnv 2 toyStart toyGoal 0 [] (toyPlanner true [poseAt (1 / 2) 0])
        = some r ∧
      ∃ evs, r.st.v_subgoals_ = [] ∧
      r.st.looks = (toyPlanner true [poseAt (1 / 2) 0]).looks ++ [Look.test (poseAt (1 / 2) 0)] ∧
      r.st.log = (toyPlanner true [poseAt (1 / 2) 0]).log ++ Event.publishSubgoals [] :: evs ∧
      (∀ e ∈ evs, e.isQueuePublish = false) ∧
      (∀ e ∈ evs, ∀ op, e ≠ Event.solver Site.makePlanSubgoal op) := by
  obtain ⟨r, hr⟩ := some_of_isSome
    (show (makePlan dblEnv 2 toyStart toyGoal 0 [] (toyPlanner true [poseAt (1 / 2) 0])).isSome
      = true by decide!)
  exact ⟨r, hr, makePlan_reached_waypoint dblEnv 2 toyStart toyGoal 0 []
    (toyPlanner true [poseAt (1 / 2) 0]) (poseAt (1 / 2) 0) r rfl rfl (by decide!) hr⟩

end Navfn

namespace Navfn

variable {σ : Type}

/-! ## Calls from states that agree -/

theorem agreeBefore_look {start : PoseStamped} {a b : NavfnROS σ} (h : AgreeBefore start a b)
    (l : Look) : AgreeBefore start a (look l b) :=
  ⟨h.initialized_, h.global_frame_, h.tf_prefix_, h.allow_unknown_, h.visualize_potential_,
    h.default_tolerance_, h.subgoal_tolerance_, h.getResolution, h.worldToMap, h.cleared⟩

theorem agreeBefore_eraseFront {start : PoseStamped} {a b : NavfnROS σ}
    (h : AgreeBefore start a b) (rest : List Pose) : AgreeBefore start a (eraseFront rest b) :=
  ⟨h.initialized_, h.global_frame_, h.tf_prefix_, h.allow_unknown_, h.visualize_potential_,
    h.default_tolerance_, h.subgoal_tolerance_, h.getResolution, h.worldToMap, h.cleared⟩

/-- With a solver that is a function of its inputs, a leg plan from two states
that agree before it returns from both or from neither, with the same value and
the same plan. -/
theorem makePlanSubgoal_agree (env : Env σ) (hsol : SolverIsFunction env.solver) (fuel : Nat)
    (start goal : PoseStamped) (tol : ℚ) (a b : NavfnROS σ)
    (hinit : a.initialized_ = true) (h : AgreeBefore start a b) :
    (makePlanSubgoal env fuel start goal tol b).map (fun r => (r.ret, r.plan)) =
      (makePlanSubgoal env fuel start goal tol a).map (fun r => (r.ret, r.plan)) := by
  obtain ⟨hflag, hag⟩ := setupSolver_agree env hsol Site.makePlanSubgoal Site.makePlanSubgoal
    start goal tol a b hinit h
  unfold makePlanSubgoal
  rcases hsa : setupSolver env Site.makePlanSubgoal start goal tol a with ⟨fa, a1⟩
  rcases hsb : setupSolver env Site.makePlanSubgoal start goal tol b with ⟨fb, b1⟩
  rw [hsa, hsb] at hflag hag
  simp only at hflag hag
  subst hflag
  cases fb
  · rfl
  · have hag1 := hag rfl
    simp only
    rw [getPointPotential_agree env hag1, hag1.costmap_]
    cases hs : toleranceSearch (getPointPotential env a1) goal tol
        a1.costmap_.getResolution fuel with
    | none => rfl
    | some s =>
      obtain ⟨hgr, hgp⟩ := getPlanFromPotential_agree env s.best_pose [] hag1
      simp only [Option.map_some, Option.some.injEq, Prod.mk.injEq]
      by_cases hf : s.found_legal = true
      · simp only [hf, if_true, hgr, hgp]
        by_cases hg : (getPlanFromPotential env s.best_pose [] a1).ret = true
        · simp [hg]
        · simp [hg, hgp]
      · simp [hf]

/-- With a solver that is a function of its inputs, what follows a scan that
ended at the end of the queue returns from two states that agree before it or
from neither, with the same value and the same plan. -/
theorem planFinalGoal_agree_map (env : Env σ) (hsol : SolverIsFunction env.solver) (fuel : Nat)
    (start goal : PoseStamped) (tol : ℚ) (a b : NavfnROS σ)
    (hinit : a.initialized_ = true) (h : AgreeBefore start a b) :
    (planFinalGoal env fuel start goal tol ⟨b, [], start, true⟩).map
        (fun r => (r.ret, r.plan)) =
      (planFinalGoal env fuel start goal tol ⟨a, [], start, true⟩).map
        (fun r => (r.ret, r.plan)) := by
  obtain ⟨hflag, hag⟩ := setupSolver_agree env hsol Site.makePlan Site.makePlan
    start goal tol a b hinit h
  unfold planFinalGoal
  simp only [h.tf_prefix_, h.global_frame_]
  by_cases hg : env.resolve a.tf_prefix_ goal.header.frame_id
      = env.resolve a.tf_prefix_ a.global_frame_
  · by_cases hs : env.resolve a.tf_prefix_ start.header.frame_id
        = env.resolve a.tf_prefix_ a.global_frame_
    · simp only [hg, hs, ne_eq, not_true_eq_false, if_false]
      rcases hsa : setupSolver env Site.makePlan start goal tol a with ⟨fa, a1⟩
      rcases hsb : setupSolver env Site.makePlan start goal tol b with ⟨fb, b1⟩
      rw [hsa, hsb] at hflag hag
      simp only at hflag hag
      subst hflag
      cases fb
      · rfl
      · have hag1 := hag rfl
        simp only
        rw [getPointPotential_agree env hag1, hag1.costmap_]
        cases hsr : toleranceSearch (getPointPotential env a1) goal tol
            a1.costmap_.getResolution fuel with
        | none => rfl
        | some s =>
          obtain ⟨hgr, hgp⟩ := getPlanFromPotential_agree env s.best_pose [] hag1
          simp only [if_true, Option.map_some, Option.some.injEq, Prod.mk.injEq]
          by_cases hf : s.found_legal = true
          · simp only [hf, if_true, hgr, hgp]
            by_cases hg2 : (getPlanFromPotential env s.best_pose [] a1).ret = true
            · simp [hg2]
            · simp [hg2]
          · simp [hf]
    · simp only [hg, hs, ne_eq, not_true_eq_false, not_false_eq_true, if_false, if_true]
      rfl
  · simp only [hg, ne_eq, not_false_eq_true, if_true]
    rfl

/-! ## C6: a queue in which no waypoint leads to a leg -/

/-- With a solver that is a function of its inputs, a scan that returns, over
waypoints that each pass the tolerance test or have a failing leg plan, has
reached the end of the queue with an empty plan. -/
theorem scan_all_dropped (env : Env σ) (hsol : SolverIsFunction env.solver) (fuel : Nat)
    (start goal : PoseStamped) (st : NavfnROS σ) (hinit : st.initialized_ = true) :
    ∀ (q : List Pose) (st1 : NavfnROS σ) (sc : Scan σ), AgreeBefore start st st1 →
      (∀ w ∈ q, withinSubgoalTolerance env w start.pose.position.x start.pose.position.y
          st.subgoal_tolerance_ = true ∨
        ∀ r, makePlanSubgoal env fuel start { goal with pose := w } 0 st = some r →
          r.ret = false) →
      scanSubgoals env fuel start goal q st1 [] = some sc →
      sc.atEnd = true ∧ sc.plan = [] ∧ sc.substart = start ∧ AgreeBefore start st sc.st := by
  intro q
  induction q with
  | nil =>
    intro st1 sc h _ hsc
    simp only [scanSubgoals, Option.some.injEq] at hsc
    subst hsc
    exact ⟨rfl, rfl, rfl, h⟩
  | cons w rest ih =>
    intro st1 sc h hq hsc
    have hrest : ∀ w1 ∈ rest, withinSubgoalTolerance env w1 start.pose.position.x
        start.pose.position.y st.subgoal_tolerance_ = true ∨
        ∀ r, makePlanSubgoal env fuel start { goal with pose := w1 } 0 st = some r →
          r.ret = false :=
      fun w1 hw1 => hq w1 (List.mem_cons_of_mem w hw1)
    rw [scanSubgoals, h.subgoal_tolerance_] at hsc
    by_cases hw : withinSubgoalTolerance env w start.pose.position.x start.pose.position.y
        st.subgoal_tolerance_ = true
    · rw [if_pos hw] at hsc
      exact ih _ sc (agreeBefore_eraseFront (agreeBefore_look h _) rest) hrest hsc
    · rw [if_neg hw] at hsc
      have hfail := (hq w (List.mem_cons_self w rest)).resolve_left hw
      have hst2 : AgreeBefore start st (look (Look.leg w) (look (Look.test w) st1)) :=
        agreeBefore_look (agreeBefore_look h _) _
      have hmap := makePlanSubgoal_agree env hsol fuel start { goal with pose := w } 0 st _
        hinit hst2
      cases hleg : makePlanSubgoal env fuel start { goal with pose := w } 0
          (look (Look.leg w) (look (Look.test w) st1)) with
      | none => rw [hleg] at hsc; simp at hsc
      | some r1 =>
        rw [hleg] at hsc hmap
        obtain ⟨r0, hr0, hr0eq⟩ := some_of_map hmap.symm
        have hr1f : r1.ret = false := by
          have := congrArg Prod.fst hr0eq
          simp only at this
          rw [← this]
          exact hfail r0 hr0
        have hplan := plan_nil_of_ret_false
          (makePlanSubgoal_spec env fuel start _ 0 _ r1 hleg).2.2 hr1f
        simp only [hr1f, Bool.false_eq_true, if_false, hplan] at hsc
        exact ih _ sc (agreeBefore_eraseFront
          (hst2.chain (makePlanSubgoal_agreeBefore env fuel start _ 0 _ r1 hleg)) rest) hrest hsc

theorem leg_fails_of_map {env : Env σ} {fuel : Nat} {start goal : PoseStamped} {tol : ℚ}
    {st : NavfnROS σ}
    (h : (makePlanSubgoal env fuel start goal tol st).map (fun r => r.ret) = some false) :
    ∀ r, makePlanSubgoal env fuel start goal tol st = some r → r.ret = false := by
  intro r hr
  rw [hr] at h
  simpa using h

/-- C6, amended: with a solver that is a function of the cost grid and the
start and goal cells, a `makePlan` call on an initialized planner that returns,
and in which every queued waypoint is at a distance from the start that line
259 computes (in doubles) as below `subgoal_tolerance_` or has a failing leg
plan, returns with an empty queue; the same call made with
an empty queue returns as well, and with the same return value and the same
plan. -/
theorem makePlan_all_dropped (env : Env σ) (hsol : SolverIsFunction env.solver) (fuel : Nat)
    (start goal : PoseStamped) (tol : ℚ) (plan : List PoseStamped) (st : NavfnROS σ)
    (r : Outcome σ) (hinit : st.initialized_ = true)
    (hq : ∀ w ∈ st.v_subgoals_,
      env.planarDistance w.position.x w.position.y start.pose.position.x
          start.pose.position.y < st.subgoal_tolerance_ ∨
        ∀ r, makePlanSubgoal env fuel start { goal with pose := w } 0 st = some r →
          r.ret = false)
    (hr : makePlan env fuel start goal tol plan st = some r) :
    r.st.v_subgoals_ = [] ∧
      ∃ r0, makePlan env fuel start goal tol plan { st with v_subgoals_ := [] } = some r0 ∧
        r.ret = r0.ret ∧ r.plan = r0.plan := by
  have hq1 : ∀ w ∈ st.v_subgoals_,
      withinSubgoalTolerance env w start.pose.position.x start.pose.position.y
          st.subgoal_tolerance_ = true ∨
        ∀ r, makePlanSubgoal env fuel start { goal with pose := w } 0 st = some r →
          r.ret = false := by
    intro w hw
    rcases hq w hw with h | h
    · exact Or.inl (by simpa [withinSubgoalTolerance] using h)
    · exact Or.inr h
  obtain ⟨sc, hsc, hr2⟩ := makePlan_some env fuel start goal tol plan st r hinit hr
  obtain ⟨hend, hplan, hsub, hag⟩ := scan_all_dropped env hsol fuel start goal st hinit
    st.v_subgoals_ st sc (AgreeBefore.same start st) hq1 hsc
  have hqr := (planFinalGoal_spec env fuel start goal tol sc r hr2).2.1
  have hqsc := (scan_exhausted env fuel start goal st sc hsc hend).2.2
  have hsceq : sc = ⟨sc.st, [], start, true⟩ := by
    obtain ⟨a1, a2, a3, a4⟩ := sc
    simp only at hend hplan hsub
    subst hend hplan hsub
    rfl
  rw [hsceq] at hr2
  have hag0 : AgreeBefore start { st with v_subgoals_ := [] } sc.st :=
    ⟨hag.initialized_, hag.global_frame_, hag.tf_prefix_, hag.allow_unknown_,
      hag.visualize_potential_, hag.default_tolerance_, hag.subgoal_tolerance_,
      hag.getResolution, hag.worldToMap, hag.cleared⟩
  have hmap := planFinalGoal_agree_map env hsol fuel start goal tol
    { st with v_subgoals_ := [] } sc.st hinit hag0
  rw [hr2] at hmap
  obtain ⟨r0, hr0, hr0eq⟩ := some_of_map hmap.symm
  refine ⟨hqr.trans hqsc, r0, ?_, ?_, ?_⟩
  · rw [makePlan_eq env fuel start goal tol plan { st with v_subgoals_ := [] } hinit
      ⟨{ st with v_subgoals_ := [] }, [], start, true⟩ rfl]
    exact hr0
  · exact (congrArg Prod.fst hr0eq).symm
  · exact (congrArg Prod.snd hr0eq).symm

/-- C6, amended, on the 5 by 5 grid with the distance in doubles, with a queue
of the lethal cell, a waypoint within the tolerance of the start, and a
waypoint off the grid. -/
theorem makePlan_all_dropped_witness :
    ∃ r, makePlan dblEnv 2 toyStart toyGoal 0 [] (toyPlanner true toyDroppedQueue) = some r ∧
      r.st.v_subgoals_ = [] ∧
      ∃ r0, makePlan dblEnv 2 toyStart toyGoal 0 []
          { toyPlanner true toyDroppedQueue with v_subgoals_ := [] } = some r0 ∧
        r.ret = r0.ret ∧ r.plan = r0.plan := by
  obtain ⟨r, hr⟩ := some_of_isSome
    (show (makePlan dblEnv 2 toyStart toyGoal 0 [] (toyPlanner true toyDroppedQueue)).isSome
      = true by decide!)
  refine ⟨r, hr, makePlan_all_dropped dblEnv toyNavFn_isFunction 2 toyStart toyGoal 0 []
    (toyPlanner true toyDroppedQueue) r rfl ?_ hr⟩
  intro w hw
  have hw2 : w = poseAt 4 0 ∨ w = poseAt (1 / 2) 0 ∨ w = poseAt 9 9 := by
    simpa [toyPlanner, toyDroppedQueue] using hw
  rcases hw2 with rfl | rfl | rfl
  · exact Or.inr (leg_fails_of_map (by decide!))
  · exact Or.inl (by decide!)
  · exact Or.inr (leg_fails_of_map (by decide!))

/-! ## C11: the queue shrinks and no waypoint is looked at twice -/

theorem subgoal_tolerance_eraseFront (rest : List Pose) (x : NavfnROS σ) :
    (eraseFront rest x).subgoal_tolerance_ = x.subgoal_tolerance_ :=
  (evolves_eraseFront x rest).subgoal_tolerance_

theorem looks_eraseFront (rest : List Pose) (x : NavfnROS σ) :
    (eraseFront rest x).looks = x.looks := by
  rfl

/-- The looks of a scan that returns are the looks of the loop body at the
waypoints of an initial segment of the queue, in order, each waypoint once. -/
theorem scan_looks (env : Env σ) (fuel : Nat) (start goal : PoseStamped) :
    ∀ (q : List Pose) (st : NavfnROS σ) (plan : List PoseStamped) (sc : Scan σ),
      scanSubgoals env fuel start goal q st plan = some sc →
      ∃ k, sc.st.looks = st.looks ++
        (q.take k).flatMap (looksAt env start st.subgoal_tolerance_) := by
  intro q
  induction q with
  | nil =>
    intro st plan sc hsc
    simp only [scanSubgoals, Option.some.injEq] at hsc
    subst hsc
    exact ⟨0, by simp⟩
  | cons w rest ih =>
    intro st plan sc hsc
    rw [scanSubgoals] at hsc
    by_cases hw : withinSubgoalTolerance env w start.pose.position.x start.pose.position.y
        st.subgoal_tolerance_ = true
    · rw [if_pos hw] at hsc
      obtain ⟨k, hk⟩ := ih _ _ sc hsc
      refine ⟨k + 1, ?_⟩
      rw [hk, subgoal_tolerance_eraseFront, looks_eraseFront]
      simp [look, looksAt, hw]
    · rw [if_neg hw] at hsc
      cases hleg : makePlanSubgoal env fuel start { goal with pose := w } 0
          (look (Look.leg w) (look (Look.test w) st)) with
      | none => rw [hleg] at hsc; simp at hsc
      | some r =>
        rw [hleg] at hsc
        simp only at hsc
        have hlk := makePlanSubgoal_looks env fuel start _ 0 _ r hleg
        have htol : r.st.subgoal_tolerance_ = st.subgoal_tolerance_ :=
          (makePlanSubgoal_spec env fuel start _ 0 _ r hleg).1.subgoal_tolerance_
        by_cases hret : r.ret = true
        · simp only [hret, if_true, Option.some.injEq] at hsc
          subst hsc
          refine ⟨1, ?_⟩
          simp only [hlk]
          simp [look, looksAt, hw]
        · have hrf : r.ret = false := by simpa using hret
          simp only [hrf, Bool.false_eq_true, if_false] at hsc
          obtain ⟨k, hk⟩ := ih _ _ sc hsc
          refine ⟨k + 1, ?_⟩
          rw [hk, subgoal_tolerance_eraseFront, looks_eraseFront, hlk, htol]
          simp [look, looksAt, hw]

/-- The queue a scan that returns leaves is a final segment of the queue it
started from. -/
theorem scan_queue_suffix (env : Env σ) (fuel : Nat) (start goal : PoseStamped) :
    ∀ (q : List Pose) (st : NavfnROS σ) (plan : List PoseStamped) (sc : Scan σ),
      st.v_subgoals_ = q → scanSubgoals env fuel start goal q st plan = some sc →
      ∃ pre, q = pre ++ sc.st.v_subgoals_ := by
  intro q
  induction q with
  | nil =>
    intro st plan sc hq hsc
    simp only [scanSubgoals, Option.some.injEq] at hsc
    subst hsc
    exact ⟨[], by simp [hq]⟩
  | cons w rest ih =>
    intro st plan sc hq hsc
    rw [scanSubgoals] at hsc
    have hq0 : ∀ x : NavfnROS σ, (eraseFront rest x).v_subgoals_ = rest := fun _ => rfl
    by_cases hw : withinSubgoalTolerance env w start.pose.position.x start.pose.position.y
        st.subgoal_tolerance_ = true
    · rw [if_pos hw] at hsc
      obtain ⟨pre, hpre⟩ := ih _ _ sc (hq0 _) hsc
      exact ⟨w :: pre, by rw [List.cons_append, ← hpre]⟩
    · rw [if_neg hw] at hsc
      cases hleg : makePlanSubgoal env fuel start { goal with pose := w } 0
          (look (Look.leg w) (look (Look.test w) st)) with
      | none => rw [hleg] at hsc; simp at hsc
      | some r =>
        rw [hleg] at hsc
        simp only at hsc
        by_cases hret : r.ret = true
        · simp only [hret, if_true, Option.some.injEq] at hsc
          subst hsc
          refine ⟨[], ?_⟩
          simp only [List.nil_append]
          rw [(makePlanSubgoal_spec env fuel start _ 0 _ r hleg).2.1]
          exact hq.symm
        · have hrf : r.ret = false := by simpa using hret
          simp only [hrf, Bool.false_eq_true, if_false] at hsc
          obtain ⟨pre, hpre⟩ := ih _ _ sc (hq0 _) hsc
          exact ⟨w :: pre, by rw [List.cons_append, ← hpre]⟩

theorem filterMap_tested_looksAt (env : Env σ) (start : PoseStamped) (t : ℚ) (l : List Pose) :
    (l.flatMap (looksAt env start t)).filterMap Look.tested = l := by
  induction l with
  | nil => rfl
  | cons w l ih =>
    rw [List.flatMap_cons, List.filterMap_append, ih]
    unfold looksAt
    split <;> simp [Look.tested]

theorem filterMap_planned_looksAt (env : Env σ) (start : PoseStamped) (t : ℚ) (l : List Pose) :
    (l.flatMap (looksAt env start t)).filterMap Look.planned =
      l.filter (fun w => !withinSubgoalTolerance env w start.pose.position.x
        start.pose.position.y t) := by
  induction l with
  | nil => rfl
  | cons w l ih =>
    rw [List.flatMap_cons, List.filterMap_append, ih]
    unfold looksAt
    by_cases hw : withinSubgoalTolerance env w start.pose.position.x start.pose.position.y t
        = true
    · simp [hw, Look.planned]
    · simp [hw, Look.planned]

/-- C11: for every `makePlan` call that returns, the queue on return is a
final segment of the queue on entry, so it is no longer; and the looks of the
call (recorded in the state at each tolerance test and before each leg plan)
are those of the loop body at an initial segment of the entry queue, one
waypoint after the other: the tested waypoints, in order, are an initial
segment of the entry queue, and the leg-planned ones are the tested ones that
failed the test, so that every entry is tested at most once and leg-planned at
most once. -/
theorem makePlan_queue_shrinks (env : Env σ) (fuel : Nat) (start goal : PoseStamped) (tol : ℚ)
    (plan : List PoseStamped) (st : NavfnROS σ) (r : Outcome σ)
    (hr : makePlan env fuel start goal tol plan st = some r) :
    r.st.v_subgoals_.length ≤ st.v_subgoals_.length ∧
      (∃ pre, st.v_subgoals_ = pre ++ r.st.v_subgoals_) ∧
      ∃ k ex, r.st.looks = st.looks ++ ex ∧
        ex = (st.v_subgoals_.take k).flatMap (looksAt env start st.subgoal_tolerance_) ∧
        ex.filterMap Look.tested = st.v_subgoals_.take k ∧
        ex.filterMap Look.planned = (st.v_subgoals_.take k).filter
          (fun w => !withinSubgoalTolerance env w start.pose.position.x
            start.pose.position.y st.subgoal_tolerance_) := by
  by_cases hinit : st.initialized_ = true
  · obtain ⟨sc, hsc, hr2⟩ := makePlan_some env fuel start goal tol plan st r hinit hr
    obtain ⟨k, hk⟩ := scan_looks env fuel start goal st.v_subgoals_ st [] sc hsc
    obtain ⟨pre, hpre⟩ := scan_queue_suffix env fuel start goal st.v_subgoals_ st [] sc rfl hsc
    have hq := (planFinalGoal_spec env fuel start goal tol sc r hr2).2.1
    have hlk := planFinalGoal_looks env fuel start goal tol sc r hr2
    refine ⟨?_, ⟨pre, by rw [hq]; exact hpre⟩, k, _, hlk.trans hk, rfl,
      filterMap_tested_looksAt env start _ _, filterMap_planned_looksAt env start _ _⟩
    rw [hq]
    have := congrArg List.length hpre
    rw [List.length_append] at this
    omega
  · have hi : st.initialized_ = false := by simpa using hinit
    rw [makePlan_uninitialized env fuel start goal tol plan st hi] at hr
    simp only [Option.some.injEq] at hr
    subst hr
    exact ⟨le_refl _, ⟨[], rfl⟩, 0, [], by simp, by simp, by simp, by simp⟩

/-- C11 on the 5 by 5 grid with the queue of three waypoints that are all
dropped: the call returns, and its result has the properties. -/
theorem makePlan_queue_shrinks_witness :
    ∃ r, makePlan toyEnv 2 toyStart toyGoal 0 [] (toyPlanner true toyDroppedQueue) = some r ∧
      r.st.v_subgoals_.length ≤ (toyPlanner true toyDroppedQueue).v_subgoals_.length ∧
      (∃ pre, (toyPlanner true toyDroppedQueue).v_subgoals_ = pre ++ r.st.v_subgoals_) ∧
      ∃ k ex, r.st.looks = (toyPlanner true toyDroppedQueue).looks ++ ex ∧
        ex = ((toyPlanner true toyDroppedQueue).v_subgoals_.take k).flatMap
          (looksAt toyEnv toyStart (toyPlanner true toyDroppedQueue).subgoal_tolerance_) ∧
        ex.filterMap Look.tested = (toyPlanner true toyDroppedQueue).v_subgoals_.take k ∧
        ex.filterMap Look.planned = ((toyPlanner true toyDroppedQueue).v_subgoals_.take k).filter
          (fun w => !withinSubgoalTolerance toyEnv w toyStart.pose.position.x
            toyStart.pose.position.y (toyPlanner true toyDroppedQueue).subgoal_tolerance_) := by
  obtain ⟨r, hr⟩ := some_of_isSome
    (show (makePlan toyEnv 2 toyStart toyGoal 0 [] (toyPlanner true toyDroppedQueue)).isSome
      = true by decide!)
  exact ⟨r, hr, makePlan_queue_shrinks toyEnv 2 toyStart toyGoal 0 []
    (toyPlanner true toyDroppedQueue) r hr⟩

end Navfn

namespace Navfn

variable {σ : Type}

/-! ## The tolerance search with its loop control in doubles -/

theorem searchXBy_exact (pot : Point → ℚ) (goal : PoseStamped) (tol res y : ℚ) :
    ∀ (fuel : Nat) (x : ℚ) (acc : Search),
      searchXBy (fun a b => a + b) pot goal tol res y fuel x acc
        = searchX pot goal tol res y fuel x acc := by
  intro fuel
  induction fuel with
  | zero => intro x acc; rfl
  | succ n ih =>
    intro x acc
    simp only [searchXBy, searchX, ih]

theorem searchYBy_exact (pot : Point → ℚ) (goal : PoseStamped) (tol res : ℚ) (xfuel : Nat) :
    ∀ (fuel : Nat) (y : ℚ) (acc : Search),
      searchYBy (fun a b => a + b) (fun a b => a - b) pot goal tol res xfuel fuel y acc
        = searchY pot goal tol res xfuel fuel y acc := by
  intro fuel
  induction fuel with
  | zero => intro y acc; rfl
  | succ n ih =>
    intro y acc
    simp only [searchYBy, searchY, ih, searchXBy_exact]

/-- With exact addition and subtraction the search is `toleranceSearch`. -/
theorem toleranceSearchBy_exact (pot : Point → ℚ) (goal : PoseStamped) (tol res : ℚ)
    (fuel : Nat) :
    toleranceSearchBy (fun a b => a + b) (fun a b => a - b) pot goal tol res fuel
      = toleranceSearch pot goal tol res fuel := by
  unfold toleranceSearchBy toleranceSearch
  exact searchYBy_exact pot goal tol res fuel fuel _ _

/-- An inner loop whose increment is absorbed at the target never returns. -/
theorem searchXBy_absorbed (add : ℚ → ℚ → ℚ) (pot : Point → ℚ) (goal : PoseStamped)
    (res y : ℚ) (hadd : add goal.pose.position.x 0 = goal.pose.position.x)
    (habs : add goal.pose.position.x res = goal.pose.position.x) :
    ∀ (fuel : Nat) (acc : Search),
      searchXBy add pot goal 0 res y fuel goal.pose.position.x acc = none := by
  intro fuel
  induction fuel with
  | zero => intro acc; rfl
  | succ n ih =>
    intro acc
    rw [searchXBy, hadd, if_pos (le_refl _), habs]
    exact ih _

/-- An inner loop with tolerance 0 that returns has run its body once, at the
target's x, and its increment has moved past the target. -/
theorem searchXBy_zero (add : ℚ → ℚ → ℚ) (pot : Point → ℚ) (goal : PoseStamped)
    (res y : ℚ) (hadd : add goal.pose.position.x 0 = goal.pose.position.x)
    (hup : goal.pose.position.x ≤ add goal.pose.position.x res)
    (fuel : Nat) (acc s : Search)
    (h : searchXBy add pot goal 0 res y fuel goal.pose.position.x acc = some s) :
    s = searchBody pot goal (samplePose goal goal.pose.position.x y) acc ∧
      goal.pose.position.x < add goal.pose.position.x res := by
  cases fuel with
  | zero => simp [searchXBy] at h
  | succ n =>
    rw [searchXBy, hadd, if_pos (le_refl _)] at h
    by_cases habs : add goal.pose.position.x res = goal.pose.position.x
    · rw [habs, searchXBy_absorbed add pot goal res y hadd habs] at h
      simp at h
    · have hlt : goal.pose.position.x < add goal.pose.position.x res :=
        lt_of_le_of_ne hup (Ne.symm habs)
      cases n with
      | zero => simp [searchXBy] at h
      | succ m =>
        rw [searchXBy, hadd, if_neg (not_le.mpr hlt)] at h
        simp only [Option.some.injEq] at h
        exact ⟨h.symm, hlt⟩

/-- An outer loop whose increment is absorbed at the target never returns. -/
theorem searchYBy_absorbed (add sub : ℚ → ℚ → ℚ) (pot : Point → ℚ) (goal : PoseStamped)
    (res : ℚ) (xfuel : Nat) (hadd : add goal.pose.position.y 0 = goal.pose.position.y)
    (habs : add goal.pose.position.y res = goal.pose.position.y) :
    ∀ (fuel : Nat) (acc : Search),
      searchYBy add sub pot goal 0 res xfuel fuel goal.pose.position.y acc = none := by
  intro fuel
  induction fuel with
  | zero => intro acc; rfl
  | succ n ih =>
    intro acc
    rw [searchYBy, hadd, if_pos (le_refl _)]
    cases searchXBy add pot goal 0 res goal.pose.position.y xfuel
        (sub goal.pose.position.x 0) acc with
    | none => rfl
    | some acc1 =>
      simp only
      rw [habs]
      exact ih _

/-- A search with tolerance 0 that returns has run the loop body once, on the
target itself, and both increments have moved past the target. -/
theorem toleranceSearchBy_zero (add sub : ℚ → ℚ → ℚ) (pot : Point → ℚ) (goal : PoseStamped)
    (res : ℚ)
    (hx : add goal.pose.position.x 0 = goal.pose.position.x ∧
      sub goal.pose.position.x 0 = goal.pose.position.x ∧
      goal.pose.position.x ≤ add goal.pose.position.x res)
    (hy : add goal.pose.position.y 0 = goal.pose.position.y ∧
      sub goal.pose.position.y 0 = goal.pose.position.y ∧
      goal.pose.position.y ≤ add goal.pose.position.y res)
    (fuel : Nat) (s : Search)
    (h : toleranceSearchBy add sub pot goal 0 res fuel = some s) :
    s = searchBody pot goal goal ⟨false, DBL_MAX, PoseStamped.empty⟩ ∧
      goal.pose.position.x < add goal.pose.position.x res ∧
      goal.pose.position.y < add goal.pose.position.y res := by
  obtain ⟨hax, hsx, hux⟩ := hx
  obtain ⟨hay, hsy, huy⟩ := hy
  unfold toleranceSearchBy at h
  rw [hsy] at h
  cases fuel with
  | zero => simp [searchYBy] at h
  | succ n =>
    rw [searchYBy, hay, if_pos (le_refl _), hsx] at h
    cases hX : searchXBy add pot goal 0 res goal.pose.position.y (n + 1)
        goal.pose.position.x ⟨false, DBL_MAX, PoseStamped.empty⟩ with
    | none => rw [hX] at h; simp at h
    | some acc1 =>
      rw [hX] at h
      simp only at h
      obtain ⟨hacc, hltx⟩ := searchXBy_zero add pot goal res _ hax hux _ _ _ hX
      rw [samplePose_self] at hacc
      by_cases habs : add goal.pose.position.y res = goal.pose.position.y
      · rw [habs, searchYBy_absorbed add sub pot goal res _ hay habs] at h
        simp at h
      · have hlt : goal.pose.position.y < add goal.pose.position.y res :=
          lt_of_le_of_ne huy (Ne.symm habs)
        cases n with
        | zero => simp [searchYBy] at h
        | succ m =>
          rw [searchYBy, hay, if_neg (not_le.mpr hlt)] at h
          simp only [Option.some.injEq] at h
          exact ⟨by rw [← h, hacc], hltx, hlt⟩

/-- A search with tolerance 0 whose increments both move past the target
returns, with fuel for two rounds of each loop. -/
theorem toleranceSearchBy_zero_returns (add sub : ℚ → ℚ → ℚ) (pot : Point → ℚ)
    (goal : PoseStamped) (res : ℚ)
    (hx : add goal.pose.position.x 0 = goal.pose.position.x ∧
      sub goal.pose.position.x 0 = goal.pose.position.x)
    (hy : add goal.pose.position.y 0 = goal.pose.position.y ∧
      sub goal.pose.position.y 0 = goal.pose.position.y)
    (hltx : goal.pose.position.x < add goal.pose.position.x res)
    (hlty : goal.pose.position.y < add goal.pose.position.y res) (fuel : Nat) :
    toleranceSearchBy add sub pot goal 0 res (fuel + 2)
      = some (searchBody pot goal goal ⟨false, DBL_MAX, PoseStamped.empty⟩) := by
  obtain ⟨hax, hsx⟩ := hx
  obtain ⟨hay, hsy⟩ := hy
  unfold toleranceSearchBy
  rw [hsy, searchYBy, hay, if_pos (le_refl _), hsx, searchXBy, hax, if_pos (le_refl _),
    searchXBy, hax, if_neg (not_le.mpr hltx)]
  simp only
  rw [searchYBy, hay, if_neg (not_le.mpr hlty), samplePose_self]

/-- A search with tolerance 0 whose x increment is absorbed at the target
never returns. -/
theorem toleranceSearchBy_absorbed (add sub : ℚ → ℚ → ℚ) (pot : Point → ℚ)
    (goal : PoseStamped) (res : ℚ)
    (hx : add goal.pose.position.x 0 = goal.pose.position.x ∧
      sub goal.pose.position.x 0 = goal.pose.position.x)
    (hy : add goal.pose.position.y 0 = goal.pose.position.y ∧
      sub goal.pose.position.y 0 = goal.pose.position.y)
    (habs : add goal.pose.position.x res = goal.pose.position.x) (fuel : Nat) :
    toleranceSearchBy add sub pot goal 0 res fuel = none := by
  obtain ⟨hax, hsx⟩ := hx
  obtain ⟨hay, hsy⟩ := hy
  unfold toleranceSearchBy
  rw [hsy]
  cases fuel with
  | zero => rfl
  | succ n =>
    rw [searchYBy, hay, if_pos (le_refl _), hsx, searchXBy_absorbed add pot goal res _ hax habs]

/-- Over exact arithmetic, a search with tolerance 0 and a positive resolution
returns the result of the loop body run once, on the target itself. -/
theorem toleranceSearch_zero_returns (pot : Point → ℚ) (goal : PoseStamped) (res : ℚ)
    (hres : 0 < res) (fuel : Nat) :
    toleranceSearch pot goal 0 res (fuel + 2)
      = some (searchBody pot goal goal ⟨false, DBL_MAX, PoseStamped.empty⟩) := by
  rw [← toleranceSearchBy_exact]
  exact toleranceSearchBy_zero_returns _ _ pot goal res ⟨by simp, by simp⟩ ⟨by simp, by simp⟩
    (by simpa using hres) (by simpa using hres) fuel

/-! ## C9: the tolerance search with tolerance 0 -/

/-- C9, as stated, fails: with the loop control in doubles, resolution 1 and
the target at x = 10^17, where the doubles are 16 apart, the increment
`p.x += resolution` leaves `p.x` at the target, and the search with tolerance 0
returns for no amount of fuel: the inner loop never ends. -/
theorem toleranceSearch_zero_never_returns :
    dblAdd farGoal.pose.position.x 1 = farGoal.pose.position.x ∧
      ∀ fuel, toleranceSearchBy dblAdd dblSub (getPointPotential toyEnv toySolved) farGoal 0 1
        fuel = none :=
  ⟨by decide!, toleranceSearchBy_absorbed dblAdd dblSub _ farGoal 1
    ⟨by decide!, by decide!⟩ ⟨by decide!, by decide!⟩ (by decide!)⟩

/-- C9, amended: with additions and subtractions of the loop control for which
a zero tolerance leaves the target's coordinates unchanged and the increment by
the resolution does not decrease them (as in doubles, for a resolution that is
not negative), the tolerance search with tolerance 0 returns exactly when the
increment moves both coordinates of the target, then already with fuel 2; and
when it returns it has run its loop body once, on the target itself:
`found_legal` holds exactly when `getPointPotential(target) < POT_HIGH`, and
then `best_pose` is the exact target and `best_sdist` is 0. -/
theorem toleranceSearch_zero_tolerance (add sub : ℚ → ℚ → ℚ) (env : Env σ) (st : NavfnROS σ)
    (goal : PoseStamped) (resolution : ℚ)
    (hx : add goal.pose.position.x 0 = goal.pose.position.x ∧
      sub goal.pose.position.x 0 = goal.pose.position.x ∧
      goal.pose.position.x ≤ add goal.pose.position.x resolution)
    (hy : add goal.pose.position.y 0 = goal.pose.position.y ∧
      sub goal.pose.position.y 0 = goal.pose.position.y ∧
      goal.pose.position.y ≤ add goal.pose.position.y resolution) :
    (∀ fuel s,
      toleranceSearchBy add sub (getPointPotential env st) goal 0 resolution fuel = some s →
        s = searchBody (getPointPotential env st) goal goal
            ⟨false, DBL_MAX, PoseStamped.empty⟩ ∧
          (s.found_legal = true ↔ getPointPotential env st goal.pose.position < POT_HIGH) ∧
          (s.found_legal = true → s.best_pose = goal ∧ s.best_sdist = 0)) ∧
      ((∃ fuel s,
          toleranceSearchBy add sub (getPointPotential env st) goal 0 resolution fuel = some s) ↔
        goal.pose.position.x < add goal.pose.position.x resolution ∧
          goal.pose.position.y < add goal.pose.position.y resolution) ∧
      (goal.pose.position.x < add goal.pose.position.x resolution →
        goal.pose.position.y < add goal.pose.position.y resolution →
        ∀ fuel, 2 ≤ fuel →
          toleranceSearchBy add sub (getPointPotential env st) goal 0 resolution fuel
            = some (searchBody (getPointPotential env st) goal goal
              ⟨false, DBL_MAX, PoseStamped.empty⟩)) := by
  have hret : goal.pose.position.x < add goal.pose.position.x resolution →
      goal.pose.position.y < add goal.pose.position.y resolution →
      ∀ fuel, 2 ≤ fuel →
        toleranceSearchBy add sub (getPointPotential env st) goal 0 resolution fuel
          = some (searchBody (getPointPotential env st) goal goal
            ⟨false, DBL_MAX, PoseStamped.empty⟩) := by
    intro hltx hlty fuel hfuel
    obtain ⟨n, rfl⟩ := Nat.exists_eq_add_of_le hfuel
    rw [Nat.add_comm]
    exact toleranceSearchBy_zero_returns add sub _ goal resolution ⟨hx.1, hx.2.1⟩
      ⟨hy.1, hy.2.1⟩ hltx hlty n
  refine ⟨?_, ⟨?_, ?_⟩, hret⟩
  · intro fuel s hs
    obtain ⟨h, _, _⟩ := toleranceSearchBy_zero add sub _ goal resolution hx hy fuel s hs
    have hbody : searchBody (getPointPotential env st) goal goal
        ⟨false, DBL_MAX, PoseStamped.empty⟩
        = if getPointPotential env st goal.pose.position < POT_HIGH then ⟨true, 0, goal⟩
          else ⟨false, DBL_MAX, PoseStamped.empty⟩ := by
      simp [searchBody, sq_distance_self, DBL_MAX_pos]
    refine ⟨h, ?_, ?_⟩
    · rw [h, hbody]
      by_cases hp : getPointPotential env st goal.pose.position < POT_HIGH <;> simp [hp]
    · rw [h, hbody]
      by_cases hp : getPointPotential env st goal.pose.position < POT_HIGH <;> simp [hp]
  · rintro ⟨fuel, s, hs⟩
    exact (toleranceSearchBy_zero add sub _ goal resolution hx hy fuel s hs).2
  · rintro ⟨hltx, hlty⟩
    exact ⟨2, _, hret hltx hlty 2 (le_refl 2)⟩

/-- C9, amended, in doubles on the 5 by 5 grid: at the target (4, 4) with
resolution 1 the increments move the target, and the search with tolerance 0
returns with the target found. -/
theorem toleranceSearch_zero_tolerance_witness :
    toleranceSearchBy dblAdd dblSub (getPointPotential toyEnv toySolved) toyGoal 0 1 2
        = some ⟨true, 0, toyGoal⟩ ∧
      (∀ fuel s,
        toleranceSearchBy dblAdd dblSub (getPointPotential toyEnv toySolved) toyGoal 0 1 fuel
            = some s →
          s = searchBody (getPointPotential toyEnv toySolved) toyGoal toyGoal
              ⟨false, DBL_MAX, PoseStamped.empty⟩ ∧
            (s.found_legal = true ↔
              getPointPotential toyEnv toySolved toyGoal.pose.position < POT_HIGH) ∧
            (s.found_legal = true → s.best_pose = toyGoal ∧ s.best_sdist = 0)) ∧
      ((∃ fuel s,
          toleranceSearchBy dblAdd dblSub (getPointPotential toyEnv toySolved) toyGoal 0 1 fuel
            = some s) ↔
        toyGoal.pose.position.x < dblAdd toyGoal.pose.position.x 1 ∧
          toyGoal.pose.position.y < dblAdd toyGoal.pose.position.y 1) ∧
      (toyGoal.pose.position.x < dblAdd toyGoal.pose.position.x 1 →
        toyGoal.pose.position.y < dblAdd toyGoal.pose.position.y 1 →
        ∀ fuel, 2 ≤ fuel →
          toleranceSearchBy dblAdd dblSub (getPointPotential toyEnv toySolved) toyGoal 0 1 fuel
            = some (searchBody (getPointPotential toyEnv toySolved) toyGoal toyGoal
              ⟨false, DBL_MAX, PoseStamped.empty⟩)) :=
  ⟨by decide!, toleranceSearch_zero_tolerance dblAdd dblSub toyEnv toySolved toyGoal 1
    ⟨by decide!, by decide!, by decide!⟩ ⟨by decide!, by decide!, by decide!⟩⟩

/-! ## C6 and C7 at a rounding boundary -/

/-- C7, as stated, fails: the waypoint at the doubles nearest to (0.28, 0.96)
is at a Euclidean distance strictly below the tolerance 1 from the start
(0, 0), but line 259 computes the distance 1 in doubles and `1 < 1` is false:
the call makes a leg plan to the waypoint, running the solver for it, and the
waypoint is still queued on return. -/
theorem makePlan_near_waypoint_leg_planned :
    (nearWaypoint.position.x - toyStart.pose.position.x) ^ 2
        + (nearWaypoint.position.y - toyStart.pose.position.y) ^ 2
        < (toyPlanner true [nearWaypoint]).subgoal_tolerance_ ^ 2 ∧
      dblEnv.planarDistance nearWaypoint.position.x nearWaypoint.position.y
        toyStart.pose.position.x toyStart.pose.position.y = 1 ∧
      (makePlan dblEnv 2 toyStart toyGoal 0 [] (toyPlanner true [nearWaypoint])).map
        (fun r => (r.st.v_subgoals_, r.st.looks, (r.st.log.filter Event.isSolver).take 5))
        = some ([nearWaypoint], [Look.test nearWaypoint, Look.leg nearWaypoint],
          [Event.solver Site.makePlanSubgoal (SolverOp.setNavArr 5 5),
           Event.solver Site.makePlanSubgoal SolverOp.setCostmap,
           Event.solver Site.makePlanSubgoal (SolverOp.setStart (0, 0)),
           Event.solver Site.makePlanSubgoal (SolverOp.setGoal (0, 0)),
           Event.solver Site.makePlanSubgoal SolverOp.calcNavFnDijkstra]) := by
  refine ⟨by decide!, by decide!, by decide!⟩

/-- C6, as stated, fails: the only queued waypoint, at the doubles nearest to
(0.28, 0.96), is within the tolerance 1 of the start (0, 0) in exact terms, but
line 259 computes the distance 1 in doubles, the leg plan to it succeeds, and
the call returns with the waypoint still queued and the 2-pose plan of that
leg, where the call with an empty queue returns a 10-pose plan. -/
theorem makePlan_near_waypoint_kept :
    (nearWaypoint.position.x - toyStart.pose.position.x) ^ 2
        + (nearWaypoint.position.y - toyStart.pose.position.y) ^ 2
        < (toyPlanner true [nearWaypoint]).subgoal_tolerance_ ^ 2 ∧
      (makePlan dblEnv 2 toyStart toyGoal 0 [] (toyPlanner true [nearWaypoint])).map
        (fun r => (r.ret, r.st.v_subgoals_, r.plan.length))
        = some (true, [nearWaypoint], 2) ∧
      (makePlan dblEnv 2 toyStart toyGoal 0 [] (toyPlanner true [])).map
        (fun r => (r.ret, r.st.v_subgoals_, r.plan.length)) = some (true, [], 10) := by
  refine ⟨by decide!, by decide!, by decide!⟩

end Navfn

namespace Navfn

variable {σ : Type}

/-! ## Over exact arithmetic every call returns

The statements about `makePlan` above are about a call that returns. The
lemmas of this section show that they are not empty: in the embedding, where
the loops of the tolerance search step exactly, every call returns once the
resolution is positive and the fuel covers the search window. (In the source
the steps are in doubles, and an increment can be absorbed: see C9.) -/

theorem toleranceSearch_total (pot : Point → ℚ) (goal : PoseStamped) (tol res : ℚ)
    (hres : 0 < res) (fuel : Nat) (hfuel : searchFuel tol res ≤ fuel) :
    ∃ s, toleranceSearch pot goal tol res fuel = some s :=
  ⟨_, toleranceSearch_eq_foldl pot goal tol res hres fuel hfuel⟩

theorem makePlanSubgoal_total (env : Env σ) (fuel : Nat) (start goal : PoseStamped) (tol : ℚ)
    (st : NavfnROS σ) (hres : 0 < st.costmap_.getResolution)
    (hfuel : searchFuel tol st.costmap_.getResolution ≤ fuel) :
    ∃ r, makePlanSubgoal env fuel start goal tol st = some r := by
  unfold makePlanSubgoal
  have hev := setupSolver_evolves env Site.makePlanSubgoal start goal tol st
  rcases hset : setupSolver env Site.makePlanSubgoal start goal tol st with ⟨b, st1⟩
  rw [hset] at hev
  cases b
  · exact ⟨_, rfl⟩
  · simp only
    have hr : st1.costmap_.getResolution = st.costmap_.getResolution := hev.getResolution
    obtain ⟨s, hs⟩ := toleranceSearch_total (getPointPotential env st1) goal tol
      st1.costmap_.getResolution (by rw [hr]; exact hres) fuel (by rw [hr]; exact hfuel)
    rw [hs]
    exact ⟨_, rfl⟩

theorem planFinalGoal_total (env : Env σ) (fuel : Nat) (start goal : PoseStamped) (tol : ℚ)
    (sc : Scan σ) (hres : 0 < sc.st.costmap_.getResolution)
    (hfuel : searchFuel tol sc.st.costmap_.getResolution ≤ fuel) :
    ∃ r, planFinalGoal env fuel start goal tol sc = some r := by
  unfold planFinalGoal
  split
  · exact ⟨_, rfl⟩
  · split
    · exact ⟨_, rfl⟩
    · have hev := setupSolver_evolves env Site.makePlan sc.substart goal tol sc.st
      rcases hset : setupSolver env Site.makePlan sc.substart goal tol sc.st with ⟨b, st1⟩
      rw [hset] at hev
      cases b
      · exact ⟨_, rfl⟩
      · simp only
        have hr : st1.costmap_.getResolution = sc.st.costmap_.getResolution := hev.getResolution
        obtain ⟨s, hs⟩ := toleranceSearch_total (getPointPotential env st1) goal tol
          st1.costmap_.getResolution (by rw [hr]; exact hres) fuel (by rw [hr]; exact hfuel)
        rw [hs]
        simp only
        split <;> exact ⟨_, rfl⟩

theorem two_le_searchFuel (tol res : ℚ) : 2 ≤ searchFuel tol res := by
  unfold searchFuel
  omega

theorem scanSubgoals_total (env : Env σ) (fuel : Nat) (start goal : PoseStamped)
    (hfuel : 2 ≤ fuel) :
    ∀ (q : List Pose) (st : NavfnROS σ) (plan : List PoseStamped),
      0 < st.costmap_.getResolution →
      ∃ sc, scanSubgoals env fuel start goal q st plan = some sc ∧
        sc.st.costmap_.getResolution = st.costmap_.getResolution := by
  intro q
  induction q with
  | nil =>
    intro st plan _
    exact ⟨_, rfl, rfl⟩
  | cons w rest ih =>
    intro st plan hres
    rw [scanSubgoals]
    by_cases hw : withinSubgoalTolerance env w start.pose.position.x start.pose.position.y
        st.subgoal_tolerance_ = true
    · rw [if_pos hw]
      exact ih (eraseFront rest (look (Look.test w) st)) plan hres
    · rw [if_neg hw]
      have hf : searchFuel 0 (look (Look.leg w) (look (Look.test w) st)).costmap_.getResolution
          ≤ fuel := by
        simpa [searchFuel] using hfuel
      obtain ⟨r, hr⟩ := makePlanSubgoal_total env fuel start { goal with pose := w } 0
        (look (Look.leg w) (look (Look.test w) st)) hres hf
      have hrr : r.st.costmap_.getResolution = st.costmap_.getResolution :=
        (makePlanSubgoal_spec env fuel start _ 0 _ r hr).1.getResolution
      rw [hr]
      simp only
      by_cases hret : r.ret = true
      · rw [if_pos hret]
        exact ⟨_, rfl, hrr⟩
      · rw [if_neg hret]
        obtain ⟨sc, hsc, hscr⟩ := ih (eraseFront rest r.st) r.plan
          (by change 0 < r.st.costmap_.getResolution; rw [hrr]; exact hres)
        exact ⟨sc, hsc, hscr.trans hrr⟩

/-- Over exact arithmetic, with a positive resolution and enough fuel,
`makePlan` returns. -/
theorem makePlan_total (env : Env σ) (fuel : Nat) (start goal : PoseStamped) (tol : ℚ)
    (plan : List PoseStamped) (st : NavfnROS σ) (hres : 0 < st.costmap_.getResolution)
    (hfuel : searchFuel tol st.costmap_.getResolution ≤ fuel) :
    ∃ r, makePlan env fuel start goal tol plan st = some r := by
  by_cases hinit : st.initialized_ = true
  · obtain ⟨sc, hsc, hr⟩ := scanSubgoals_total env fuel start goal
      (le_trans (two_le_searchFuel _ _) hfuel) st.v_subgoals_ st [] hres
    rw [makePlan_eq env fuel start goal tol plan st hinit sc hsc]
    exact planFinalGoal_total env fuel start goal tol sc (by rw [hr]; exact hres)
      (by rw [hr]; exact hfuel)
  · exact ⟨_, makePlan_uninitialized env fuel start goal tol plan st (by simpa using hinit)⟩

end Navfn
